import Mathlib

/-!
Verification development for the abl2tikz schematic converter
(Circuit2TikZ/abl2tikz).

The JavaScript sources are embedded shallowly:

* numbers are modelled by `ℚ` (the source uses IEEE doubles; all claim-relevant
  decisions are exact-arithmetic comparisons, which `ℚ` reproduces faithfully
  for representable inputs);
* `Coordinate.getDistance` returns `Math.sqrt(dx**2 + dy**2)` in the source and
  is used *only* in comparisons against other distances or fixed radii; we model
  it by the squared distance `getDistanceSq` and square every constant it is
  compared against (`sqrt` is strictly monotone on nonnegative reals, so every
  comparison has the same outcome);
* JavaScript object identity and in-place mutation are modelled by an explicit
  heap (`Store.cells`): a `Coordinate` object is a cell index (`CoordId`), the
  coordinate *pool* (`this.#coords` of `Schematic`) is a list of cell indices;
* `Math.cos`/`Math.sin` (used only in the default branch of
  `Coordinate.rotate`) are not rational; the rotation kernel is therefore a
  caller-supplied oracle `trig : ℚ → ℚ × ℚ` returning the (cos, sin) pair for
  a normalized angle.  The four exact branches of the source's `switch` are
  reproduced literally.
-/

namespace Abl2Tikz

/-- A 2D point, from `class Coordinate` (coordinate.mjs): `(x, y)`. -/
structure Coordinate where
  x : ℚ
  y : ℚ
deriving DecidableEq

/-- `Coordinate.equals(other)`: true iff both components are identical.
The source also requires `other` to be truthy; an absent partner is handled
at each call site of the embedding. -/
def Coordinate.equalsB (a b : Coordinate) : Bool :=
  a.x == b.x && a.y == b.y

/-- `Coordinate.add(other)` (value of the mutated `this`). -/
def Coordinate.add (a b : Coordinate) : Coordinate :=
  ⟨a.x + b.x, a.y + b.y⟩

/-- `Coordinate.subtract(other)` (value of the mutated `this`). -/
def Coordinate.subtract (a b : Coordinate) : Coordinate :=
  ⟨a.x - b.x, a.y - b.y⟩

/-- `Coordinate.scale(scaleX, scaleY)` with two finite numeric factors
(the only call shape in the placement pipeline): both components are
multiplied. -/
def Coordinate.scale (a : Coordinate) (sx sy : ℚ) : Coordinate :=
  ⟨a.x * sx, a.y * sy⟩

/-- `Coordinate.scale(s, true)`: `scaleY === true` makes the y component reuse
`scaleX` (used by `orthogonalProjection`). -/
def Coordinate.scaleUniform (a : Coordinate) (s : ℚ) : Coordinate :=
  ⟨a.x * s, a.y * s⟩

/-- `Coordinate.mirrorX()`: inverts y. -/
def Coordinate.mirrorXv (a : Coordinate) : Coordinate :=
  ⟨a.x, -a.y⟩

/-- `Coordinate.mirrorY()`: inverts x. -/
def Coordinate.mirrorYv (a : Coordinate) : Coordinate :=
  ⟨-a.x, a.y⟩

/-- Squared distance; models `Coordinate.getDistance` (which returns
`Math.sqrt` of this value) — see the header note on monotonicity. -/
def Coordinate.getDistanceSq (a b : Coordinate) : ℚ :=
  (a.x - b.x) ^ 2 + (a.y - b.y) ^ 2

/-- The two angle-normalization `while` loops
(`while (angle <= -180) angle += 360; while (angle > 180) angle -= 360;`),
in closed form: the unique representative of `a` modulo 360 lying in
`(-180, 180]`.  (`normalizeAngle_gt`, `normalizeAngle_le` and
`normalizeAngle_sub_int` below certify that this is exactly the loops'
result.) -/
def normalizeAngle (a : ℚ) : ℚ :=
  a - 360 * (⌈(a - 180) / 360⌉ : ℤ)

/-- `Coordinate.rotate(angle)` without a rotation center: normalize the angle,
then the source's `switch` — exact branches for 0 / 90 / 180 / -90 degrees,
and the `Math.cos`/`Math.sin` default branch via the `trig` oracle. -/
def Coordinate.rotate (trig : ℚ → ℚ × ℚ) (angle : ℚ) (c : Coordinate) : Coordinate :=
  let a := normalizeAngle angle
  if a = 0 then c
  else if a = 90 then ⟨-c.y, c.x⟩
  else if a = 180 then ⟨-c.x, -c.y⟩
  else if a = -90 then ⟨c.y, -c.x⟩
  else
    let cs := trig a
    ⟨cs.1 * c.x - cs.2 * c.y, cs.2 * c.x + cs.1 * c.y⟩

/-- `Coordinate.orthogonalProjection(lineStart, lineEnd)`:
`lambda = (lineVector · helpVector) / |lineVector|²`, result
`lineVector.scale(lambda, true).add(lineStart)`.  (Over `ℚ`, division by a
zero denominator yields 0; the JS source yields NaN there — the degenerate
line case is excluded by hypotheses wherever it matters.) -/
def Coordinate.orthogonalProjection (c lineStart lineEnd : Coordinate) : Coordinate :=
  let lineVector := lineEnd.subtract lineStart
  let helpVector := c.subtract lineStart
  let lambda :=
    (lineVector.x * helpVector.x + lineVector.y * helpVector.y) /
      (lineVector.x ^ 2 + lineVector.y ^ 2)
  (lineVector.scaleUniform lambda).add lineStart

/-- JavaScript exception outcomes reachable in the embedded code. -/
inductive JsErr where
  | typeError
deriving DecidableEq

/-- `Coordinate.add` as JavaScript calls it when the method is *extracted from
its receiver* (e.g. `others.forEach(coordSum.add)`): class methods run in
strict mode, so `this` is `undefined` and the first property access
`this.x += other.x` throws a TypeError. -/
def Coordinate.addUnbound (thisArg : Option Coordinate) (other : Coordinate) :
    Except JsErr Coordinate :=
  match thisArg with
  | none => .error .typeError
  | some t => .ok (t.add other)

/-- `Coordinate.sum(...others)`: copies `this`, then
`others.forEach(coordSum.add)` — the unbound method is invoked with
`this = undefined` (see `Coordinate.addUnbound`), so the first iteration
throws; with no arguments the fresh copy is returned. -/
def Coordinate.sumJS (c : Coordinate) (others : List Coordinate) :
    Except JsErr Coordinate :=
  match others.foldlM (fun acc o => (Coordinate.addUnbound none o).map (fun _ => acc)) c with
  | .error e => .error e
  | .ok v => .ok v

/-! ## Heap model: coordinate objects, the pool, wires, pins -/

/-- A JavaScript `Coordinate` object reference: an index into `Store.cells`. -/
abbrev CoordId := Nat

/-- The mutable part of a schematic run: the arena of live `Coordinate`
objects and the coordinate pool (`Schematic`'s `#coords` array, which holds
references). -/
structure Store where
  cells : List Coordinate
  pool : List CoordId
deriving DecidableEq

/-- Dereference a coordinate object.  Every id produced by the embedding is
in range; out-of-range reads return `(0, 0)` and never occur on the modelled
paths. -/
def Store.read (s : Store) (i : CoordId) : Coordinate :=
  s.cells.getD i ⟨0, 0⟩

/-- `new Coordinate(...)`: allocate a fresh cell. -/
def Store.alloc (s : Store) (c : Coordinate) : Store × CoordId :=
  (⟨s.cells ++ [c], s.pool⟩, s.cells.length)

/-- In-place mutation of a coordinate object (`coord.x = ...` etc.). -/
def Store.write (s : Store) (i : CoordId) (c : Coordinate) : Store :=
  ⟨s.cells.set i c, s.pool⟩

/-- The pool lookup
`coords.find((existingCoord) => candidate.equals(existingCoord))`. -/
def Store.poolFind (s : Store) (c : Coordinate) : Option CoordId :=
  s.pool.find? (fun j => c.equalsB (s.read j))

/-- Find-or-push canonicalization of an already-allocated candidate `i` into
the pool (the `find` / `push` pattern of `Schematic.#parse`,
`Component.cloneToPosition` and `Pin.findPosition`). -/
def Store.canonicalize (s : Store) (i : CoordId) : Store × CoordId :=
  match s.poolFind (s.read i) with
  | some j => (s, j)
  | none => (⟨s.cells, s.pool ++ [i]⟩, i)

/-- A net reference: JS `Net` object identity, modelled as an allocation
index (two pins/wires reference the identical `Net` object iff they carry
the same `NetId`). -/
abbrev NetId := Nat

/-- A wire (`class Wire`): its net reference and the ordered vertex
references (all pool members). -/
structure Wire where
  net : NetId
  coords : List CoordId
deriving DecidableEq

/-- A live (instance) pin, from `class Pin` (pin.mjs): coordinate reference
(unset until placement), name (`""` models JS `null`/empty), terminal number
and net reference (`none` models JS `undefined`). -/
structure PinH where
  coord : Option CoordId
  name : String
  instTermNumber : Int
  net : Option NetId
deriving DecidableEq

/-- A stencil/template pin from the static catalog: its local coordinate is a
fixed value (catalog data is never mutated; placement clones it first). -/
structure PinV where
  coordV : Coordinate
  name : String
  instTermNumber : Int
deriving DecidableEq

/-! ## Snapping (the wire-vertex search of `Pin.findPosition` and
`Component.cloneToPosition`) -/

/-- `Number.MAX_VALUE`, exactly. -/
def jsMaxValue : ℚ := 2 ^ 1024 - 2 ^ 971

/-- The body of the per-wire `reduce`: keep the previous accumulator when
`prevVal.distance < distance`, otherwise take the current vertex. -/
def closestStep (s : Store) (p : Coordinate) (prevVal : ℚ × Option CoordId)
    (cid : CoordId) : ℚ × Option CoordId :=
  let dsq := p.getDistanceSq (s.read cid)
  if prevVal.1 < dsq then prevVal else (dsq, some cid)

/-- One wire's `reduce`: starting from the sentinel
`{ distance: <sentinel>, coord: null }`, fold `closestStep` over the wire's
vertices.  The sentinel is `1` in `Pin.findPosition` and `Number.MAX_VALUE`
in `Component.cloneToPosition`; distances are squared (see header). -/
def wireClosest (s : Store) (p : Coordinate) (sentinelSq : ℚ) (w : Wire) :
    ℚ × Option CoordId :=
  w.coords.foldl (closestStep s p) (sentinelSq, none)

/-- Head of `possibleCoords.sort((a, b) => a.distance - b.distance)`:
JavaScript's sort is stable, so the head of the sorted array is the first
entry attaining the minimal key. -/
def firstMinEntry : List (ℚ × Option CoordId) → Option (ℚ × Option CoordId)
  | [] => none
  | e :: rest =>
    match firstMinEntry rest with
    | none => some e
    | some m => if e.1 ≤ m.1 then some e else some m

/-- The whole snapping search: filter the wires of the pin's net, take each
wire's closest vertex (`wireClosest`), sort by distance and take the head's
coordinate.  `none` pin-net yields `(this.net && ...) || []`, i.e. no
candidates. -/
def snapSearch (s : Store) (pinNet : Option NetId) (p : Coordinate)
    (wires : List Wire) (sentinelSq : ℚ) : Option CoordId :=
  match pinNet with
  | none => none
  | some n =>
    (firstMinEntry ((wires.filter (fun w => w.net == n)).map
      (wireClosest s p sentinelSq))).bind (fun e => e.2)

/-! ## Placement records and pin placement -/

/-- The placement struct built by `Schematic.#parse` from
`<abl:PlacementTransform>` (already-parsed numeric values; the
`parseFloat(...) || default` fallbacks happen one level up). -/
structure Placement where
  x : ℚ
  y : ℚ
  angle : ℚ
  xScale : ℚ
  yScale : ℚ
  mirrorX : Bool
  mirrorY : Bool
  scaling : ℚ
deriving DecidableEq

/-- `attributes.get(key)` on the attribute map. -/
def attrGet (attributes : List (String × String)) (k : String) : Option String :=
  (attributes.find? (fun e => e.1 == k)).map (fun e => e.2)

/-- `value || null`: empty strings collapse to `null`. -/
def jsOrNull (v : Option String) : Option String :=
  match v with
  | some w => if w = "" then none else some w
  | none => none

/-- `Pin.findPosition(pins, placement, instanceCoord, wires, _nets, coords,
relativeCoords)` (pin.mjs 72–121).  The placement hint is the stencil pin with
equal `instTermNumber`; its coordinate is cloned (a fresh allocation) and, in
the `relativeCoords` path, scaled/rotated/mirrored/translated in place.  With
no hint the pin aliases `instanceCoord`.  The snapping search radius sentinel
is `1` (squared: `1`).  A JS `TypeError` arises when the code dereferences an
`undefined` coordinate or placement. -/
def Pin.findPosition (trig : ℚ → ℚ × ℚ) (pin : PinH) (stencilPins : List PinV)
    (placement : Option Placement) (instanceCoord : Option CoordId)
    (wires : List Wire) (s : Store) (relativeCoords : Bool) :
    Except JsErr (PinH × Store) :=
  let hint := (stencilPins.find? (fun sp => sp.instTermNumber == pin.instTermNumber)).map
    (fun sp => sp.coordV)
  let step1 : Except JsErr (Store × Option CoordId) :=
    if relativeCoords then
      match hint with
      | some v =>
        match placement with
        | none => .error .typeError
        | some p =>
          match instanceCoord with
          | none => .error .typeError
          | some ic =>
            let v := v.scale (p.xScale * p.scaling) (p.yScale * p.scaling)
            let v := Coordinate.rotate trig p.angle v
            let v := if p.mirrorX then v.mirrorXv else v
            let v := if p.mirrorY then v.mirrorYv else v
            let v := v.add (s.read ic)
            let r := s.alloc v
            .ok (r.1, some r.2)
      | none => .ok (s, instanceCoord)
    else
      match hint with
      | some v =>
        let r := s.alloc v
        .ok (r.1, some r.2)
      | none => .ok (s, none)
  match step1 with
  | .error e => .error e
  | .ok (s, coordRef) =>
    match coordRef with
    | none => .error .typeError
    | some cid =>
      match snapSearch s pin.net (s.read cid) wires 1 with
      | some vid => .ok ({ pin with coord := some vid }, s)
      | none =>
        let r := s.canonicalize cid
        .ok ({ pin with coord := some r.2 }, r.1)

/-- A positioned component as produced by `Component.cloneToPosition`
(component.mjs): the fields consumed by serialization. -/
structure ComponentH where
  tikzComponentName : String
  instanceName : Option String
  pins : List PinH
  coord : CoordId
  angle : ℚ
  mirrorX : Bool
  mirrorY : Bool
deriving DecidableEq

/-- The body of `Component.cloneToPosition`'s `pins.forEach` loop
(component.mjs 152–193): position one live pin from the stencil pin with
equal `instTermNumber` (scale → rotate → mirror → translate, or the instance
coordinate when no stencil pin matches), then snap with the
`Number.MAX_VALUE` sentinel. -/
def cloneToPositionPin (trig : ℚ → ℚ × ℚ) (stencilPins : List PinV)
    (placement : Placement) (a : ℚ) (icId : CoordId) (wires : List Wire)
    (acc : List PinH × Store) (pin : PinH) : List PinH × Store :=
  let s := acc.2
  let hint := (stencilPins.find? (fun sp => sp.instTermNumber == pin.instTermNumber)).map
    (fun sp => sp.coordV)
  let r2 :=
    match hint with
    | some v =>
      let v := v.scale (placement.xScale * placement.scaling) (placement.yScale * placement.scaling)
      let v := Coordinate.rotate trig a v
      let v := if placement.mirrorX then v.mirrorXv else v
      let v := if placement.mirrorY then v.mirrorYv else v
      let v := v.add (s.read icId)
      s.alloc v
    | none => (s, icId)
  let s := r2.1
  let cid := r2.2
  match snapSearch s pin.net (s.read cid) wires (jsMaxValue ^ 2) with
  | some vid => (acc.1 ++ [{ pin with coord := some vid }], s)
  | none =>
    let r3 := s.canonicalize cid
    (acc.1 ++ [{ pin with coord := some r3.2 }], r3.1)

/-- `Component.cloneToPosition` (component.mjs 131–202): normalize the
angle, intern the instance coordinate, run the pin loop
(`cloneToPositionPin`), and build the component; its `instanceName` is
overwritten from the attribute map (`|| null`). -/
def Component.cloneToPosition (trig : ℚ → ℚ × ℚ) (stencilPins : List PinV)
    (tikzComponentName : String) (attributes : List (String × String))
    (pins : List PinH) (placement : Placement) (wires : List Wire) (s : Store) :
    ComponentH × Store :=
  let a := normalizeAngle placement.angle
  let r0 := s.alloc ⟨placement.x * placement.scaling, placement.y * placement.scaling⟩
  let r1 := r0.1.canonicalize r0.2
  let s := r1.1
  let icId := r1.2
  let r4 := pins.foldl (cloneToPositionPin trig stencilPins placement a icId wires) ([], s)
  (⟨tikzComponentName, jsOrNull (attrGet attributes ("instanceName")), r4.1, icId, a,
    placement.mirrorX, placement.mirrorY⟩, r4.2)

/-! ## Pin reordering (PathComponent.useAsStencil and
ABLTransistorMapper.useAsStencil share this `map`/`find` pattern) -/

/-- The match rule
`pin.name && ablPin.name ? pin.name == ablPin.name : pin.instTermNumber === ablPin.instTermNumber`:
match by name when both names are non-empty (JS truthy), otherwise by terminal
index. -/
def pinMatches (ablPin : PinV) (pin : PinH) : Bool :=
  if pin.name != "" && ablPin.name != "" then pin.name == ablPin.name
  else pin.instTermNumber == ablPin.instTermNumber

/-- `pins = this.pins.map((ablPin) => pins.find((pin) => ...))`: one slot per
stencil pin, holding the first matching live pin or `undefined`. -/
def reorderPins (stencilPins : List PinV) (pins : List PinH) : List (Option PinH) :=
  stencilPins.map (fun ab => pins.find? (fun p => pinMatches ab p))

/-! ## PathComponent and PotentialComponent placement -/

/-- A placed `PathComponent` (pathComponent.mjs). -/
structure PathOut where
  tikzComponentName : String
  instanceName : String
  pins : List PinH
  angle : ℚ
deriving DecidableEq

/-- `PathComponent.useAsStencil` (pathComponent.mjs 120–142): normalize the
angle, intern the instance coordinate, reorder the live pins against the
stencil pins, then `findPosition` each reordered pin (an unmatched stencil
slot holds `undefined`, and the method call on it throws). -/
def PathComponent.useAsStencil (trig : ℚ → ℚ × ℚ) (stencilPins : List PinV)
    (tikzComponentName instanceName : String) (pins : List PinH)
    (placement : Placement) (wires : List Wire) (s : Store) :
    Except JsErr (PathOut × Store) :=
  let a := normalizeAngle placement.angle
  let placement := { placement with angle := a }
  let r0 := s.alloc ⟨placement.x * placement.scaling, placement.y * placement.scaling⟩
  let r1 := r0.1.canonicalize r0.2
  let s := r1.1
  let icId := r1.2
  let reordered := reorderPins stencilPins pins
  let fold : Except JsErr (List PinH × Store) :=
    reordered.foldlM
      (fun (acc : List PinH × Store) pinOpt =>
        match pinOpt with
        | none => .error .typeError
        | some pin =>
          (Pin.findPosition trig pin stencilPins (some placement) (some icId) wires acc.2 true).map
            (fun r => (acc.1 ++ [r.1], r.2)))
      ([], s)
  fold.map (fun r => (⟨tikzComponentName, instanceName, r.1, a⟩, r.2))

/-- A placed `PotentialComponent` (potentialComponent.mjs). -/
structure PotentialOut where
  tikzComponentName : String
  pin : PinH
  angle : ℚ
  mirrorX : Bool
  mirrorY : Bool
deriving DecidableEq

/-- `PotentialComponent.useAsStencil` (potentialComponent.mjs 102–124): adds
90° before normalizing (ADS grounds are horizontal), interns the instance
coordinate, positions only `pins[0]` against the single stencil pin. -/
def PotentialComponent.useAsStencil (trig : ℚ → ℚ × ℚ) (stencilPin : PinV)
    (tikzComponentName : String) (pins : List PinH) (placement : Placement)
    (wires : List Wire) (s : Store) : Except JsErr (PotentialOut × Store) :=
  let a := normalizeAngle (placement.angle + 90)
  let placement := { placement with angle := a }
  let r0 := s.alloc ⟨placement.x * placement.scaling, placement.y * placement.scaling⟩
  let r1 := r0.1.canonicalize r0.2
  let s := r1.1
  let icId := r1.2
  match pins with
  | [] => .error .typeError
  | pin :: _ =>
    (Pin.findPosition trig pin [stencilPin] (some placement) (some icId) wires s true).map
      (fun r => (⟨tikzComponentName, r.1, a, placement.mirrorX, placement.mirrorY⟩, r.2))

/-! ## Instance-name pattern and serialization (C9, C10) -/

/-- ASCII letter test, `[a-zA-Z]`. -/
def isAsciiLetter (c : Char) : Bool :=
  ('a' ≤ c && c ≤ 'z') || ('A' ≤ c && c ≤ 'Z')

/-- ASCII digit test, `[0-9]`. -/
def isAsciiDigit (c : Char) : Bool :=
  '0' ≤ c && c ≤ '9'

/-- `str.match(/^([a-zA-Z]+)[_-]?([0-9]+)$/)`: the two capture groups, or
`none` when the regular expression does not match.  (The character classes
are disjoint, so the greedy parse below is the unique one.) -/
def nameIndexMatch (str : String) : Option (String × String) :=
  let cs := str.data
  let letters := cs.takeWhile isAsciiLetter
  let rest := cs.dropWhile isAsciiLetter
  if letters.isEmpty then none
  else
    let rest2 :=
      match rest with
      | c :: tl => if c = '_' || c = '-' then tl else rest
      | [] => rest
    if !rest2.isEmpty && rest2.all isAsciiDigit then
      some (String.mk letters, String.mk rest2)
    else none

/-- `Number.parseInt` on a non-empty digit string. -/
def digitsToNat (ds : String) : Nat :=
  ds.data.foldl (fun acc c => acc * 10 + (c.toNat - '0'.toNat)) 0

/-- The label computation shared by `PathComponent.serialize` (and inlined in
`Component`'s `serialize`): empty instance names yield no label; otherwise the
regex match is destructured — destructuring the `null` of a failed match
throws a TypeError; on success the `${name}_{index}` label is built (the
leading `, l=` included). -/
def labelOfInstanceName (instanceName : String) : Except JsErr String :=
  if instanceName = "" then .ok ("")
  else
    match nameIndexMatch instanceName with
    | none => .error .typeError
    | some r =>
      .ok (", l=$\x7b" ++ r.1 ++ "\x7d_\x7b" ++ toString (digitsToNat r.2) ++ "\x7d$")

/-- `"\t".repeat(indent)`. -/
def tabs (indent : Nat) : String :=
  String.mk (List.replicate indent '\t')

/-- `Coordinate.serializeName()`: `"(x, y)"` (numeric formatting differs from
JS but carries no claim content). -/
def serializeCoordName (c : Coordinate) : String :=
  "(" ++ toString c.x ++ ", " ++ toString c.y ++ ")"

/-- `PathComponent.serialize(indent)` (pathComponent.mjs 54–94): the label
computation runs first (and can throw), then the pin-mark and the `\draw ...
to[...]` line are assembled from the two pins' coordinates. -/
def PathOut.serialize (s : Store) (comp : PathOut) (indent : Nat) :
    Except JsErr String :=
  match labelOfInstanceName comp.instanceName with
  | .error e => .error e
  | .ok label =>
    match comp.pins with
    | p0 :: p1 :: _ =>
      match p0.coord, p1.coord with
      | some i0, some i1 =>
        let c0 := s.read i0
        let c1 := s.read i1
        let head := tabs indent ++ "\\draw[color=blue] " ++ serializeCoordName c0 ++ " "
        let pinmark :=
          if comp.angle = 0 ∨ comp.angle = 180 then
            if c0.x < c1.x then head ++ "++ (3pt,0) ++ (-1.25pt, -2.5pt) -- ++(2.5pt, 5pt);\n"
            else head ++ "++ (-3pt,0) ++ (-1.25pt, -2.5pt) -- ++(2.5pt, 5pt);\n"
          else if comp.angle = 90 ∨ comp.angle = -90 then
            if c0.y < c1.y then head ++ "++ (0,3pt) ++ (-2.5pt, -1.25pt) -- ++(5pt, 2.5pt);\n"
            else head ++ "++ (0,-3pt) ++ (-2.5pt, -1.25pt) -- ++(5pt, 2.5pt);\n"
          else ""
        .ok (pinmark ++ tabs indent ++ "\\draw[color=blue] " ++ serializeCoordName c0 ++
          " to[" ++ comp.tikzComponentName ++ label ++ "] " ++ serializeCoordName c1 ++ ";")
      | _, _ => .error .typeError
    | _ => .error .typeError

/-- `Transistor`'s `nodeText` getter (same pattern and the same
destructuring-throw as `labelOfInstanceName`, without the `, l=` prefix). -/
def Transistor.nodeText (instanceName : String) : Except JsErr String :=
  if instanceName = "" then .ok ("")
  else
    match nameIndexMatch instanceName with
    | none => .error .typeError
    | some r =>
      .ok ("$\x7b" ++ r.1 ++ "\x7d_\x7b" ++ toString (digitsToNat r.2) ++ "\x7d$")

/-! ## Oriented (transistor) placement: heap-threaded geometry stages
(ablTransistorMapper.mjs, transistor.mjs) -/

/-- A TikZ transistor stencil (`class Transistor`), catalog data: pin values,
anchor names, the selected anchor (`null` = use the separate `anchorCoord`,
which `fromStruct` sets to `(0, 0)`). -/
structure TransistorV where
  tikzComponentName : String
  pins : List PinV
  anchorNames : List String
  anchorNr : Option Nat
  anchorCoordV : Coordinate
deriving DecidableEq

/-- An `ABLTransistorMapper` catalog entry: the TikZ template, the three ABL
anatomical pins (top, bottom, tap) and the anchor index. -/
structure ABLTransistorMapperV where
  tikzTransistor : TransistorV
  pins : List PinV
  anchorNr : Nat
deriving DecidableEq

/-- Allocate one fresh cell per value (`pins.map((pin) => pin.deepClone())`). -/
def allocPins (s : Store) (vs : List Coordinate) : Store × List CoordId :=
  vs.foldl (fun acc v =>
    let r := acc.1.alloc v
    (r.1, acc.2 ++ [r.2])) (s, [])

/-- `pins.forEach((pin) => pin.coord.scale(sx, sy))`. -/
def scaleIds (s : Store) (ids : List CoordId) (sx sy : ℚ) : Store :=
  ids.foldl (fun s pid => s.write pid ((s.read pid).scale sx sy)) s

/-- The shared `rotate(angle)` loop of `ABLTransistorMapper` and `Transistor`:
no-op for angle 0 (or non-finite), otherwise rotate every pin coordinate
around the origin, skipping the index equal to `anchorNr` (never skipping
when `anchorNr` is `null`). -/
def rotateIds (trig : ℚ → ℚ × ℚ) (a : ℚ) (s : Store) (ids : List CoordId)
    (anchorNr : Option Nat) : Store :=
  if a = 0 then s
  else
    (List.range ids.length).foldl
      (fun s i =>
        if anchorNr = some i then s
        else
          let pid := ids.getD i 0
          s.write pid (Coordinate.rotate trig a (s.read pid)))
      s

/-- One iteration of the shared `mirror(mirrorX, mirrorY)` loop body:
`subtract(mirrorMid)`, conditional negations, `add(mirrorMid)`.  When the
mutated coordinate *is* `mirrorMid` (the loop's `i !== this.anchorCoord`
guard compares an index against a non-index and never skips), the in-place
`subtract` zeroes the shared object first, so the cell ends at `(0, 0)`. -/
def mirrorStep (mX mY : Bool) (s : Store) (mid : CoordId) (pid : CoordId) : Store :=
  if pid = mid then s.write pid ⟨0, 0⟩
  else
    let mv := s.read mid
    let v := (s.read pid).subtract mv
    let v := if mX then v.mirrorXv else v
    let v := if mY then v.mirrorYv else v
    s.write pid (v.add mv)

/-- The shared `mirror(mirrorX, mirrorY)` loop over all pin coordinates
(sequential: later iterations see earlier mutations of `mirrorMid`). -/
def mirrorSweep (s : Store) (ids : List CoordId) (mid : CoordId) (mX mY : Bool) : Store :=
  ids.foldl (fun s pid => mirrorStep mX mY s mid pid) s

/-- `pins.forEach((pin) => pin.coord.add(vector))` (the vector cell is never
a member of `ids` at any call site, so its value is constant during the
loop). -/
def translateIds (s : Store) (ids : List CoordId) (d : Coordinate) : Store :=
  ids.foldl (fun s pid => s.write pid ((s.read pid).add d)) s

/-- `lineCrossingCoord`: orthogonal projection of `pins[2]` (tap) onto the
line through `pins[0]` and `pins[1]`. -/
def lineCrossingAt (s : Store) (ids : List CoordId) : Coordinate :=
  (s.read (ids.getD 2 0)).orthogonalProjection (s.read (ids.getD 0 0)) (s.read (ids.getD 1 0))

/-- Result of placing the anatomical (ABL) triangle in world space
(`useAsStencil` steps: clone, scale, rotate, mirror, translate). -/
structure AblPlaced where
  store : Store
  icId : CoordId
  ablIds : List CoordId
  angle : ℚ
deriving DecidableEq

/-- `ABLTransistorMapper.useAsStencil` up to `ablTransistorClone.translate`:
normalize the angle, allocate the (unpooled) instance coordinate, deep-clone
the anatomical pins, then scale → rotate (skipping the anchor index) →
mirror (around the anchor pin) → translate by the instance coordinate. -/
def ABLTransistorMapper.placeAbl (trig : ℚ → ℚ × ℚ) (m : ABLTransistorMapperV)
    (placement : Placement) (s : Store) : AblPlaced :=
  let a := normalizeAngle placement.angle
  let r0 := s.alloc ⟨placement.x * placement.scaling, placement.y * placement.scaling⟩
  let r1 := allocPins r0.1 (m.pins.map (fun p => p.coordV))
  let s := scaleIds r1.1 r1.2 (placement.xScale * placement.scaling)
    (placement.yScale * placement.scaling)
  let s := rotateIds trig a s r1.2 (some m.anchorNr)
  let s :=
    if placement.mirrorX || placement.mirrorY then
      mirrorSweep s r1.2 (r1.2.getD m.anchorNr 0) placement.mirrorX placement.mirrorY
    else s
  let s := translateIds s r1.2 (s.read r0.2)
  ⟨s, r0.2, r1.2, a⟩

/-- The heap part of `Transistor.deepClone`: fresh cells for the pins and —
when `anchorNr` is `null` — for `anchorCoord`. -/
structure TplPlaced where
  store : Store
  tplIds : List CoordId
  anchorId : Option CoordId
deriving DecidableEq

/-- `this.tikzTransistor.deepClone()` followed by `rotate(angle)` and
`mirror(mirrorX, mirrorY)` — the render template is rotated and mirrored but
*not* scaled.  The mirror center is `this.coord`: `anchorCoord` when
`anchorNr` is `null`, else the anchor pin's coordinate. -/
def Transistor.transformH (trig : ℚ → ℚ × ℚ) (t : TransistorV) (a : ℚ)
    (mX mY : Bool) (s : Store) : TplPlaced :=
  let r := allocPins s (t.pins.map (fun p => p.coordV))
  let d : TplPlaced :=
    match t.anchorNr with
    | some _ => ⟨r.1, r.2, none⟩
    | none =>
      let r2 := r.1.alloc t.anchorCoordV
      ⟨r2.1, r.2, some r2.2⟩
  let s := rotateIds trig a d.store d.tplIds t.anchorNr
  let s :=
    if mX || mY then
      let mid :=
        match t.anchorNr with
        | none => d.anchorId.getD 0
        | some n => d.tplIds.getD n 0
      mirrorSweep s d.tplIds mid mX mY
    else s
  ⟨s, d.tplIds, d.anchorId⟩

/-- `Transistor.translate(vector)`: every pin coordinate and `anchorCoord`. -/
def translateTransistor (s : Store) (tplIds : List CoordId)
    (anchorId : Option CoordId) (d : Coordinate) : Store :=
  let s := translateIds s tplIds d
  match anchorId with
  | some j => s.write j ((s.read j).add d)
  | none => s

/-- Both triangles placed and the template aligned
(`transistor.translate(ablTransistorClone.lineCrossingCoord.clone().subtract(transistor.lineCrossingCoord))`). -/
structure TrianglesPlaced where
  store : Store
  icId : CoordId
  ablIds : List CoordId
  tplIds : List CoordId
  anchorId : Option CoordId
  angle : ℚ
deriving DecidableEq

/-- `ABLTransistorMapper.useAsStencil` through the alignment translation. -/
def ABLTransistorMapper.placeTriangles (trig : ℚ → ℚ × ℚ)
    (m : ABLTransistorMapperV) (placement : Placement) (s : Store) :
    TrianglesPlaced :=
  let ap := ABLTransistorMapper.placeAbl trig m placement s
  let tp := Transistor.transformH trig m.tikzTransistor ap.angle
    placement.mirrorX placement.mirrorY ap.store
  let d := (lineCrossingAt tp.store ap.ablIds).subtract (lineCrossingAt tp.store tp.tplIds)
  let s := translateTransistor tp.store tp.tplIds tp.anchorId d
  ⟨s, ap.icId, ap.ablIds, tp.tplIds, tp.anchorId, ap.angle⟩

/-- The placed transistor as returned by `ABLTransistorMapper.useAsStencil`
(render flags and node naming carry no claim content and are omitted; the
pin list may hold `undefined` slots). -/
structure TransistorOut where
  tikzComponentName : String
  instanceName : String
  pins : List (Option PinH)
deriving DecidableEq

/-- The final pin-coordinate overwrite loop of
`ABLTransistorMapper.useAsStencil`:
`pins[i].coord.x = transistor.pins[i].coord.x; pins[i].coord.y = ...` —
two sequential in-place writes through the (possibly pooled, possibly
wire-owned) coordinate reference; an `undefined` pin slot throws. -/
def overwriteLoop (tplIds : List CoordId) (reordered : List (Option PinH))
    (s : Store) : Except JsErr Store :=
  (List.range (min tplIds.length reordered.length)).foldlM
    (fun (s : Store) i =>
      match reordered.getD i none with
      | none => .error .typeError
      | some p =>
        match p.coord with
        | none => .error .typeError
        | some pid =>
          let s := s.write pid ⟨(s.read (tplIds.getD i 0)).x, (s.read pid).y⟩
          let s := s.write pid ⟨(s.read pid).x, (s.read (tplIds.getD i 0)).y⟩
          .ok s)
    s

/-- `ABLTransistorMapper.useAsStencil` (ablTransistorMapper.mjs 119–192):
place and align both triangles, resolve each live pin inside the anatomical
triangle (`findPosition` with `relativeCoords = false`), reorder the live
pins against the anatomical pins (name-or-terminal rule), then overwrite each
resolved coordinate in place with the aligned template pin's components.
(The `transistor.anchorNr != null && transistor.anchorCoord` interning branch
is statically dead — `anchorCoord` is null exactly when `anchorNr` is set —
and is omitted.) -/
def ABLTransistorMapper.useAsStencil (trig : ℚ → ℚ × ℚ)
    (m : ABLTransistorMapperV) (instanceName : String) (pins : List PinH)
    (placement : Placement) (wires : List Wire) (s : Store) :
    Except JsErr (TransistorOut × Store) :=
  let t := ABLTransistorMapper.placeTriangles trig m placement s
  let s := t.store
  let ablView := (m.pins.zip t.ablIds).map
    (fun pr => PinV.mk (s.read pr.2) pr.1.name pr.1.instTermNumber)
  let fold : Except JsErr (List PinH × Store) :=
    pins.foldlM
      (fun acc pin =>
        (Pin.findPosition trig pin ablView none none wires acc.2 false).map
          (fun r => (acc.1 ++ [r.1], r.2)))
      ([], s)
  match fold with
  | .error e => .error e
  | .ok r =>
    let reordered := reorderPins ablView r.1
    match overwriteLoop t.tplIds reordered r.2 with
    | .error e => .error e
    | .ok s =>
      .ok (⟨m.tikzTransistor.tikzComponentName, instanceName, reordered⟩, s)

/-! ## Schematic orchestration (`Schematic.#parse`) -/

/-- The state owned by one `Schematic`: coordinate heap + pool, the net
table (name → Net reference, in insertion order), the wire list, the uuid
counter, and the logged warnings (`console.error`). -/
structure SchemState where
  store : Store
  nets : List (String × NetId)
  nextNetId : Nat
  wires : List Wire
  uuidCount : Nat
  warnings : List String
deriving DecidableEq

/-- `let net = this.#nets.get(netName); if (!net) this.#nets.set(netName, (net = new Net(netName)));` -/
def getOrCreateNet (st : SchemState) (name : String) : SchemState × NetId :=
  match st.nets.find? (fun e => e.1 == name) with
  | some e => (st, e.2)
  | none =>
    ({ st with
        nets := st.nets ++ [(name, st.nextNetId)],
        nextNetId := st.nextNetId + 1 }, st.nextNetId)

/-- One parsed wire record: the (already defaulted) net name and the
space-split `"x,y"` tokens, `none` for an unparsable token. -/
structure WireRec where
  netName : String
  points : List (Option (ℚ × ℚ))
deriving DecidableEq

/-- One coordinate token of a wire: parse failure logs
`"Couldn't parse wire coordinate"` and skips; success scales, interns into
the pool and appends the (canonical) reference. -/
def parseWireCoord (scale : ℚ) (st : SchemState) (acc : List CoordId)
    (tok : Option (ℚ × ℚ)) : SchemState × List CoordId :=
  match tok with
  | none =>
    ({ st with warnings := st.warnings ++ ["Couldn't parse wire coordinate"] }, acc)
  | some p =>
    let r := st.store.alloc ⟨scale * p.1, scale * p.2⟩
    let r2 := r.1.canonicalize r.2
    ({ st with store := r2.1 }, acc ++ [r2.2])

/-- One wire of `Schematic.#parse` step 2: get-or-create the net, parse the
coordinates, create the wire. -/
def parseWire (scale : ℚ) (st : SchemState) (w : WireRec) : SchemState :=
  let r := getOrCreateNet st w.netName
  let r2 := w.points.foldl (fun acc tok => parseWireCoord scale acc.1 acc.2 tok) (r.1, [])
  { r2.1 with wires := r2.1.wires ++ [⟨r.2, r2.2⟩] }

/-- `Schematic.#parse` step 2 over the whole wire list. -/
def parseWires (scale : ℚ) (st : SchemState) (ws : List WireRec) : SchemState :=
  ws.foldl (parseWire scale) st

/-- One `<instpin>` record. -/
structure InstPinRec where
  instTermNumber : Int
  pinName : String
  netName : String
deriving DecidableEq

/-- A parsed `<abl:PlacementTransform>`. -/
structure PlacementRec where
  x : ℚ
  y : ℚ
  angle : ℚ
  xScale : ℚ
  yScale : ℚ
  mirrorX : Bool
  mirrorY : Bool
deriving DecidableEq

/-- One `<instance>` record. -/
structure InstRec where
  libraryName : String
  cellName : String
  instanceName : String
  attributes : List (String × String)
  placement : Option PlacementRec
  instPins : List InstPinRec
deriving DecidableEq

/-- The `uuid()` calls of `Schematic.#parse`, modelled as a counter-indexed
fresh name (v4 uuids never repeat; a collision with a document net name is
not guarded against in the source either). -/
def uuidName (n : Nat) : String :=
  "uuid-" ++ toString n

/-- One instance pin of `Schematic.#parse`: an empty net name is replaced by
`uuid()`, then the net is get-or-created and a coordinate-less `Pin` is
built. -/
def buildPin (st : SchemState) (r : InstPinRec) : SchemState × PinH :=
  let nr :=
    if r.netName = "" then
      ({ st with uuidCount := st.uuidCount + 1 }, uuidName st.uuidCount)
    else (st, r.netName)
  let r2 := getOrCreateNet nr.1 nr.2
  (r2.1, ⟨none, r.pinName, r.instTermNumber, some r2.2⟩)

/-- All instance pins, in document order. -/
def buildPins (st : SchemState) (rs : List InstPinRec) : SchemState × List PinH :=
  rs.foldl
    (fun acc r =>
      let b := buildPin acc.1 r
      (b.1, acc.2 ++ [b.2]))
    (st, [])

/-- The placement struct of `Schematic.#parse`: parsed values with
`scaling = scale`; with no `<placementtransform>` node the defaults apply —
note the source's fallback object sets `mirrorX: 1, mirrorY: 1` (the *number*
1, which is truthy), so both mirrors are on by default. -/
def mkPlacement (scale : ℚ) (p : Option PlacementRec) : Placement :=
  match p with
  | some p => ⟨p.x, p.y, p.angle, p.xScale, p.yScale, p.mirrorX, p.mirrorY, scale⟩
  | none => ⟨0, 0, 0, 1, 1, true, true, scale⟩

/-- A stencil of the `ADS_COMPONENTS_MAP` catalog (components.mjs): the three
claim-relevant shape kinds. -/
inductive Stencil where
  | path (tikzComponentName : String) (pins : List PinV)
  | potential (tikzComponentName : String) (pin : PinV)
  | transistor (m : ABLTransistorMapperV)
deriving DecidableEq

/-- The catalog: insertion-ordered `(key, stencil)` map. -/
abbrev Catalog := List (String × Stencil)

/-- `ADS_COMPONENTS_MAP.get(key)`. -/
def catalogGet (cat : Catalog) (k : String) : Option Stencil :=
  (cat.find? (fun e => e.1 == k)).map (fun e => e.2)

/-- `ADS_COMPONENTS_MAP.get(libraryName + ":" + cellName) || ADS_COMPONENTS_MAP.get(cellName)`:
the library-specific key takes priority over the cell-only key. -/
def lookupStencil (cat : Catalog) (libraryName cellName : String) : Option Stencil :=
  match catalogGet cat (libraryName ++ ":" ++ cellName) with
  | some st => some st
  | none => catalogGet cat cellName

/-- A placed component of any shape kind. -/
inductive ComponentOut where
  | path (c : PathOut)
  | potential (c : PotentialOut)
  | transistor (c : TransistorOut)
deriving DecidableEq

/-- One step of `Schematic.#parse` step 3 (the `instanceArray.reduce`): a
stencil-lookup miss logs `"Skipping not identified component ..."` and
returns the accumulator unchanged; otherwise the instance pins and placement
are built and the stencil's `useAsStencil` runs and its component is
appended. -/
def processInstance (trig : ℚ → ℚ × ℚ) (cat : Catalog) (scale : ℚ)
    (acc : SchemState × List ComponentOut) (r : InstRec) :
    Except JsErr (SchemState × List ComponentOut) :=
  let st := acc.1
  match lookupStencil cat r.libraryName r.cellName with
  | none =>
    .ok ({ st with warnings := st.warnings ++
      ["Skipping not identified component " ++ r.instanceName ++ ": " ++
        r.libraryName ++ ":" ++ r.cellName] }, acc.2)
  | some stencil =>
    let rp := buildPins st r.instPins
    let st := rp.1
    let placement := mkPlacement scale r.placement
    match stencil with
    | .path name spins =>
      match PathComponent.useAsStencil trig spins name r.instanceName rp.2 placement
          st.wires st.store with
      | .error e => .error e
      | .ok c => .ok ({ st with store := c.2 }, acc.2 ++ [.path c.1])
    | .potential name spin =>
      match PotentialComponent.useAsStencil trig spin name rp.2 placement
          st.wires st.store with
      | .error e => .error e
      | .ok c => .ok ({ st with store := c.2 }, acc.2 ++ [.potential c.1])
    | .transistor m =>
      match ABLTransistorMapper.useAsStencil trig m r.instanceName rp.2 placement
          st.wires st.store with
      | .error e => .error e
      | .ok c => .ok ({ st with store := c.2 }, acc.2 ++ [.transistor c.1])

/-- `Schematic.#parse` step 3 over the whole instance list. -/
def processInstances (trig : ℚ → ℚ × ℚ) (cat : Catalog) (scale : ℚ)
    (st : SchemState) (rs : List InstRec) :
    Except JsErr (SchemState × List ComponentOut) :=
  rs.foldlM (processInstance trig cat scale) (st, [])

/-- `Schematic.#parse`: wires first (snapping requires the wires of a net to
exist before any instance pin is placed), then instances. -/
def Schematic.parse (trig : ℚ → ℚ × ℚ) (cat : Catalog) (scale : ℚ)
    (ws : List WireRec) (is : List InstRec) :
    Except JsErr (SchemState × List ComponentOut) :=
  let st0 : SchemState := ⟨⟨[], []⟩, [], 0, [], 0, []⟩
  processInstances trig cat scale (parseWires scale st0 ws) is

/-- Well-formedness of the net table: distinct Net references per entry, all
below the allocation counter (holds for every reachable state; hypothesis of
the net-singleton theorems). -/
def NetsWF (st : SchemState) : Prop :=
  (st.nets.map (fun e => e.2)).Nodup ∧ ∀ e ∈ st.nets, e.2 < st.nextNetId

instance : DecidablePred NetsWF := fun st => by
  unfold NetsWF; infer_instance

end Abl2Tikz

namespace Abl2Tikz

/-! ## Remaining definitions: pool invariant and concrete fixtures -/

/-- "No two Pool entries are value-equal": the pool's members dereference to
pairwise different coordinate values. -/
def PoolValuesNodup (s : Store) : Prop :=
  s.pool.Pairwise (fun a b => s.read a ≠ s.read b)

instance : DecidablePred PoolValuesNodup := fun s => by
  unfold PoolValuesNodup; infer_instance

/-- A trig oracle for concrete runs; every concrete fixture below uses angle
0, whose `switch` branch never consults the oracle. -/
def idTrig : ℚ → ℚ × ℚ := fun _ => (1, 0)

/-- The `npn` render template of `Transistor.fromStruct("npn", ...)`
(components.mjs): `pgfCircRlen = 1.4`, `width = 0.6` gives pin values
top `(0, 0.77)`, bottom `(0, -0.77)`, tap `(-0.84, 0)`; `anchorNr = null`,
`anchorCoord = (0, 0)`.  (Here with `width = 0.6`: `1.4 * 0.6 = 0.84`.) -/
def demoTemplate : TransistorV :=
  ⟨"npn", [⟨⟨0, 77/100⟩, "", 0⟩, ⟨⟨0, -77/100⟩, "", 0⟩, ⟨⟨-84/100, 0⟩, "", 0⟩],
    ["C", "E", "B"], none, ⟨0, 0⟩⟩

/-- The `BJT` mapper of components.mjs: anatomical pins
`TRANSISTOR_TOP_PIN (0.5, 0.5) #1`, `TRANSISTOR_BOTTOM_PIN (0.5, -0.5) #3`,
`TRANSISTOR_TAP_PIN (0, 0) #2`, anchor index 2. -/
def demoMapper : ABLTransistorMapperV :=
  ⟨demoTemplate, [⟨⟨1/2, 1/2⟩, "", 1⟩, ⟨⟨1/2, -1/2⟩, "", 3⟩, ⟨⟨0, 0⟩, "", 2⟩], 2⟩

/-- Identity placement (scaling 1, angle 0, no mirror). -/
def demoPlacement : Placement := ⟨0, 0, 0, 1, 1, false, false, 1⟩

/-- Pre-placement state: two pooled wire vertices, `(0.4, 0.5)` on net 0 and
`(0.5, 0.77)` on net 1. -/
def demoStore : Store := ⟨[⟨2/5, 1/2⟩, ⟨1/2, 77/100⟩], [0, 1]⟩

/-- The wires owning the two pooled vertices of `demoStore`. -/
def demoWires : List Wire := [⟨0, [0]⟩, ⟨1, [1]⟩]

/-- Three live transistor pins (terminals 1, 3, 2); terminal 1 is on net 0
(whose wire vertex lies 0.1 from the placed anatomical top pin). -/
def demoPins : List PinH :=
  [⟨none, "", 1, some 0⟩, ⟨none, "", 3, some 2⟩, ⟨none, "", 2, some 3⟩]

/-- Snapping fixture: wire A's only vertex `(0, 3)` is outside the 1-unit
radius around the pin position `(0, 0)`; wire B's only vertex `(1, 0)` is at
distance exactly 1.  Both wires are on the pin's net 0. -/
def snapStore : Store := ⟨[⟨0, 3⟩, ⟨1, 0⟩], [0, 1]⟩

/-- The two wires of the snapping fixture. -/
def snapWires : List Wire := [⟨0, [0]⟩, ⟨0, [1]⟩]

/-- The empty schematic state (`new Schematic()`). -/
def demoSchemInit : SchemState := ⟨⟨[], []⟩, [], 0, [], 0, []⟩

/-- The store after the demo oriented placement (validated against the
run in `useAsStencil_demo_run`): cell 0 — the pooled wire vertex — has been
overwritten in place with the aligned template top-pin value. -/
def demoStoreAfter : Store :=
  ⟨[⟨1/2, 77/100⟩, ⟨1/2, 77/100⟩, ⟨0, 0⟩, ⟨1/2, 1/2⟩, ⟨1/2, -1/2⟩, ⟨0, 0⟩,
    ⟨1/2, 77/100⟩, ⟨1/2, -77/100⟩, ⟨-17/50, 0⟩, ⟨1/2, 0⟩, ⟨1/2, 1/2⟩,
    ⟨1/2, -77/100⟩, ⟨-17/50, 0⟩], [0, 1, 11, 12]⟩

/-- The component produced by the demo oriented placement. -/
def demoTransistorOut : TransistorOut :=
  ⟨"npn", "Q1",
    [some ⟨some 0, "", 1, some 0⟩, some ⟨some 11, "", 3, some 2⟩,
      some ⟨some 12, "", 2, some 3⟩]⟩

end Abl2Tikz

namespace Abl2Tikz

/-! # Theorems -/

/-! ## Angle-normalization loop faithfulness -/

/-- The closed form stays strictly above -180 (first `while` loop's exit
condition). -/
theorem normalizeAngle_gt (a : ℚ) : -180 < normalizeAngle a := by
  unfold normalizeAngle
  have h := Int.ceil_lt_add_one ((a - 180) / 360)
  have hx : (a - 180) / 360 * 360 = a - 180 := div_mul_cancel₀ _ (by norm_num)
  nlinarith [h, hx]

/-- The closed form stays at or below 180 (second `while` loop's exit
condition). -/
theorem normalizeAngle_le (a : ℚ) : normalizeAngle a ≤ 180 := by
  unfold normalizeAngle
  have h := Int.le_ceil ((a - 180) / 360)
  have hx : (a - 180) / 360 * 360 = a - 180 := div_mul_cancel₀ _ (by norm_num)
  nlinarith [h, hx]

/-- The closed form differs from the input by an integer multiple of 360
(each loop iteration adds or subtracts 360). -/
theorem normalizeAngle_sub_int (a : ℚ) : ∃ k : ℤ, a - normalizeAngle a = 360 * k := by
  exact ⟨⌈(a - 180) / 360⌉, by unfold normalizeAngle; ring⟩

/-! ## C10 -/

/-- C10: for every `Coordinate` and every non-empty argument list,
`Coordinate.sum` throws a TypeError (the `add` method is passed unbound to
`forEach`, so strict-mode `this` is `undefined` inside it); with zero
arguments it returns a copy of the coordinate. -/
theorem sum_throws_unbound_this :
    (∀ (c : Coordinate) (others : List Coordinate), others ≠ [] →
      Coordinate.sumJS c others = .error .typeError) ∧
    ∀ c : Coordinate, Coordinate.sumJS c [] = .ok c := by
  constructor
  · intro c others h
    match others with
    | [] => exact absurd rfl h
    | o :: rest => rfl
  · intro c
    rfl

/-- Witness for C10 at a concrete coordinate and argument list. -/
theorem sum_throws_unbound_this_witness :
    Coordinate.sumJS ⟨1, 2⟩ [⟨3, 4⟩] = .error .typeError ∧
    Coordinate.sumJS ⟨1, 2⟩ [] = .ok ⟨1, 2⟩ :=
  ⟨sum_throws_unbound_this.1 ⟨1, 2⟩ [⟨3, 4⟩] (List.cons_ne_nil _ _),
   sum_throws_unbound_this.2 ⟨1, 2⟩⟩

/-! ## C9 -/

/-- C9: serializing a placed path component whose instance name is non-empty
and does not match `^([a-zA-Z]+)[_-]?([0-9]+)$` throws a TypeError
(destructuring the `null` of the failed match); serialization succeeds for an
empty or matching instance name (given two positioned pins); `Transistor`'s
`nodeText` throws under exactly the same name condition. -/
theorem serialize_name_pattern :
    (∀ (s : Store) (comp : PathOut) (indent : Nat),
      comp.instanceName ≠ "" → nameIndexMatch comp.instanceName = none →
      PathOut.serialize s comp indent = .error .typeError) ∧
    (∀ (s : Store) (comp : PathOut) (indent : Nat) (p0 p1 : PinH)
      (rest : List PinH) (i0 i1 : CoordId),
      comp.pins = p0 :: p1 :: rest → p0.coord = some i0 → p1.coord = some i1 →
      (comp.instanceName = "" ∨ (nameIndexMatch comp.instanceName).isSome) →
      ∃ out, PathOut.serialize s comp indent = .ok out) ∧
    ∀ name, Transistor.nodeText name = .error .typeError ↔
      (name ≠ "" ∧ nameIndexMatch name = none) := by
  refine ⟨?_, ?_, ?_⟩
  · intro s comp indent h1 h2
    simp [PathOut.serialize, labelOfInstanceName, h1, h2]
  · intro s comp indent p0 p1 rest i0 i1 hpins h0 h1 hname
    have hlabel : ∃ l, labelOfInstanceName comp.instanceName = .ok l := by
      rcases hname with h | h
      · exact ⟨"", by rw [labelOfInstanceName, if_pos h]⟩
      · rcases Option.isSome_iff_exists.mp h with ⟨r, hr⟩
        have hne : comp.instanceName ≠ "" := by
          intro he
          rw [he] at hr
          exact Option.noConfusion ((by decide : nameIndexMatch "" = none) ▸ hr)
        exact ⟨_, by rw [labelOfInstanceName, if_neg hne, hr]⟩
    rcases hlabel with ⟨l, hl⟩
    cases he : PathOut.serialize s comp indent with
    | ok out => exact ⟨out, rfl⟩
    | error err =>
      simp only [PathOut.serialize, hl, hpins, h0, h1] at he
      exact Except.noConfusion he
  · intro name
    constructor
    · intro h
      by_cases he : name = ""
      · rw [Transistor.nodeText, if_pos he] at h
        exact Except.noConfusion h
      · refine ⟨he, ?_⟩
        rw [Transistor.nodeText, if_neg he] at h
        match hm : nameIndexMatch name with
        | none => rfl
        | some r => rw [hm] at h; exact Except.noConfusion h
    · intro h
      rw [Transistor.nodeText, if_neg h.1, h.2]

/-- Witness for C9: "Rin" (no digits) throws; "R1" serializes; the
`nodeText` equivalence at "R1a". -/
theorem serialize_name_pattern_witness :
    PathOut.serialize ⟨[], []⟩ ⟨"R", "Rin", [], 0⟩ 0 = .error .typeError ∧
    (∃ out, PathOut.serialize ⟨[⟨0, 0⟩, ⟨1, 0⟩], []⟩
      ⟨"R", "R1", [⟨some 0, "", 1, none⟩, ⟨some 1, "", 2, none⟩], 0⟩ 0 = .ok out) ∧
    (Transistor.nodeText "R1a" = .error .typeError ↔
      ("R1a" ≠ "" ∧ nameIndexMatch "R1a" = none)) :=
  ⟨serialize_name_pattern.1 ⟨[], []⟩ ⟨"R", "Rin", [], 0⟩ 0 (by decide) (by decide),
   serialize_name_pattern.2.1 ⟨[⟨0, 0⟩, ⟨1, 0⟩], []⟩
     ⟨"R", "R1", [⟨some 0, "", 1, none⟩, ⟨some 1, "", 2, none⟩], 0⟩ 0
     ⟨some 0, "", 1, none⟩ ⟨some 1, "", 2, none⟩ [] 0 1 rfl rfl rfl
     (Or.inr (by decide)),
   serialize_name_pattern.2.2 "R1a"⟩

/-! ## C8 -/

/-- C8: an instance whose `(libraryName, cellName)` has no catalog entry
(neither the `lib:cell` key nor the cell-only key) contributes no component:
the step only appends a warning and processing of the remaining instances
continues from the otherwise-unchanged state — no error is raised. -/
theorem unknown_stencil_skipped :
    ∀ (trig : ℚ → ℚ × ℚ) (cat : Catalog) (scale : ℚ) (st : SchemState)
      (comps : List ComponentOut) (r : InstRec) (rest : List InstRec),
      lookupStencil cat r.libraryName r.cellName = none →
      processInstance trig cat scale (st, comps) r =
        .ok ({ st with warnings := st.warnings ++
          ["Skipping not identified component " ++ r.instanceName ++ ": " ++
            r.libraryName ++ ":" ++ r.cellName] }, comps) ∧
      (r :: rest).foldlM (processInstance trig cat scale) (st, comps) =
        rest.foldlM (processInstance trig cat scale)
          ({ st with warnings := st.warnings ++
            ["Skipping not identified component " ++ r.instanceName ++ ": " ++
              r.libraryName ++ ":" ++ r.cellName] }, comps) := by
  intro trig cat scale st comps r rest h
  have h1 : processInstance trig cat scale (st, comps) r =
      .ok ({ st with warnings := st.warnings ++
        ["Skipping not identified component " ++ r.instanceName ++ ": " ++
          r.libraryName ++ ":" ++ r.cellName] }, comps) := by
    rw [processInstance, h]
  exact ⟨h1, by rw [List.foldlM_cons, h1]; rfl⟩

/-- Witness for C8 on the empty catalog. -/
theorem unknown_stencil_skipped_witness :
    processInstance idTrig [] 1 (demoSchemInit, []) ⟨"lib", "cell", "X1", [], none, []⟩ =
      .ok ({ demoSchemInit with warnings := demoSchemInit.warnings ++
        ["Skipping not identified component " ++ "X1" ++ ": " ++ "lib" ++ ":" ++ "cell"] }, []) :=
  (unknown_stencil_skipped idTrig [] 1 demoSchemInit [] ⟨"lib", "cell", "X1", [], none, []⟩ []
    (by decide)).1

/-! ## Pin matching (the reorder step) -/

/-- The reorder step of stencil-based placement: each stencil pin's slot
holds the first live pin matching by name when both names are non-empty
and by terminal index otherwise (`pinMatches`); the reordered list has
exactly one slot per stencil pin; and a live pin matching no stencil pin
occurs in no slot of the reordered list. -/
theorem reorder_matching_and_drop :
    ∀ (stencilPins : List PinV) (pins : List PinH),
      (reorderPins stencilPins pins).length = stencilPins.length ∧
      (∀ k : Nat, (reorderPins stencilPins pins).get? k =
        (stencilPins.get? k).map (fun sp => pins.find? (fun p => pinMatches sp p))) ∧
      (∀ (sp : PinV) (p : PinH), pinMatches sp p = true ↔
        (if p.name ≠ "" ∧ sp.name ≠ "" then p.name = sp.name
         else p.instTermNumber = sp.instTermNumber)) ∧
      (∀ p ∈ pins, (∀ sp ∈ stencilPins, pinMatches sp p = false) →
        ∀ q ∈ reorderPins stencilPins pins, q ≠ some p) := by
  intro stencilPins pins
  refine ⟨by simp [reorderPins], ?_, ?_, ?_⟩
  · intro k
    simp [reorderPins, List.get?_map]
  · intro sp p
    by_cases hb : p.name ≠ "" ∧ sp.name ≠ ""
    · rw [if_pos hb]
      have hb' : (p.name != "" && sp.name != "") = true := by
        simp [bne_iff_ne, hb.1, hb.2]
      rw [pinMatches, if_pos hb']
      exact beq_iff_eq
    · rw [if_neg hb]
      have hb' : ¬((p.name != "" && sp.name != "") = true) := by
        simp only [Bool.and_eq_true, bne_iff_ne, ne_eq]
        intro hcontra
        exact hb ⟨hcontra.1, hcontra.2⟩
      rw [pinMatches, if_neg hb']
      exact beq_iff_eq
  · intro p _hp hnone q hq hqp
    subst hqp
    rcases List.mem_map.mp hq with ⟨sp, hsp, hfind⟩
    have := List.find?_some hfind
    rw [hnone sp hsp] at this
    exact absurd this (by decide)

/-- The reorder lemma at a concrete input: a live pin (terminal 2, name
"b") matching neither of the stencil's pins is absent from every slot. -/
theorem reorder_matching_and_drop_witness :
    (reorderPins [⟨⟨0, 0⟩, "", 1⟩] [⟨none, "b", 2, none⟩]).length = 1 ∧
    ∀ q ∈ reorderPins [⟨⟨0, 0⟩, "", 1⟩] [⟨none, "b", 2, none⟩],
      q ≠ some ⟨none, "b", 2, none⟩ :=
  ⟨(reorder_matching_and_drop [⟨⟨0, 0⟩, "", 1⟩] [⟨none, "b", 2, none⟩]).1,
   (reorder_matching_and_drop [⟨⟨0, 0⟩, "", 1⟩] [⟨none, "b", 2, none⟩]).2.2.2
     ⟨none, "b", 2, none⟩ (by decide) (by decide)⟩

end Abl2Tikz

namespace Abl2Tikz

/-! ## Counterexamples (C1, C2, C5, C6) -/

/-- C1 counterexample: the pin (terminal 1, net 0) resolves at `(0, 0)`;
wire A's only vertex `(0, 3)` is outside the 1-unit radius, wire B's only
vertex `(1, 0)` lies at distance exactly 1 — a qualifying vertex on a
same-net wire exists.  The claim predicts adoption of that vertex, but wire
A's sentinel entry ties the sorted key at 1 and precedes it, so the pin
adopts no wire vertex at all: it canonicalizes a fresh coordinate (id 2)
instead. -/
theorem snap_boundary_counterexample :
    ((⟨0, 0⟩ : Coordinate).getDistanceSq (snapStore.read 1) ≤ 1 ∧
      ∃ w ∈ snapWires, w.net = 0 ∧ 1 ∈ w.coords) ∧
    Pin.findPosition idTrig ⟨none, "", 1, some 0⟩ [⟨⟨0, 0⟩, "", 1⟩] none none
        snapWires snapStore false =
      .ok (⟨some 2, "", 1, some 0⟩, ⟨[⟨0, 3⟩, ⟨1, 0⟩, ⟨0, 0⟩], [0, 1, 2]⟩) ∧
    ∀ w ∈ snapWires, ∀ cid ∈ w.coords, (some 2 : Option CoordId) ≠ some cid := by
  refine ⟨⟨?_, ?_⟩, ?_, ?_⟩
  · norm_num [snapStore, Store.read, Coordinate.getDistanceSq]
  · exact ⟨⟨0, [1]⟩, by norm_num [snapWires], rfl, by norm_num⟩
  · simp only [Pin.findPosition, snapSearch, wireClosest, closestStep, firstMinEntry,
      Store.read, Store.alloc, Store.canonicalize, Store.poolFind,
      Coordinate.getDistanceSq, Coordinate.equalsB, snapStore, snapWires, idTrig,
      List.find?_cons, List.find?_nil, List.filter, List.map, List.foldl]
    norm_num
  · intro w hw cid hcid
    fin_cases hw <;> simp_all [snapWires]

/-- The demo oriented placement, evaluated end to end (shared by the C2 and
C6 counterexamples). -/
theorem useAsStencil_demo_run :
    ABLTransistorMapper.useAsStencil idTrig demoMapper "Q1" demoPins demoPlacement
        demoWires demoStore = .ok (demoTransistorOut, demoStoreAfter) := by
  simp only [ABLTransistorMapper.useAsStencil, ABLTransistorMapper.placeTriangles,
    ABLTransistorMapper.placeAbl, Transistor.transformH, allocPins, scaleIds,
    rotateIds, mirrorStep, mirrorSweep, translateIds, translateTransistor,
    lineCrossingAt, overwriteLoop, reorderPins, pinMatches, Pin.findPosition,
    snapSearch, wireClosest, closestStep, firstMinEntry, Store.read, Store.alloc,
    Store.canonicalize, Store.poolFind, Store.write, Coordinate.getDistanceSq,
    Coordinate.equalsB, Coordinate.orthogonalProjection, Coordinate.scale,
    Coordinate.scaleUniform, Coordinate.add, Coordinate.subtract,
    Coordinate.mirrorXv, Coordinate.mirrorYv, Coordinate.rotate, normalizeAngle,
    demoMapper, demoTemplate, demoPlacement, demoStore, demoWires, demoPins, idTrig,
    demoTransistorOut, demoStoreAfter,
    List.find?_cons, List.find?_nil, List.filter, List.map, List.foldl,
    List.foldlM, List.zip, List.zipWith, List.set,
    Except.map, Except.instMonad, bind, Except.bind, pure, Except.pure,
    show List.range 3 = [0, 1, 2] from rfl,
    show ((1:Int) == 1) = true from rfl, show ((1:Int) == 3) = false from rfl,
    show ((1:Int) == 2) = false from rfl, show ((3:Int) == 1) = false from rfl,
    show ((3:Int) == 3) = true from rfl, show ((3:Int) == 2) = false from rfl,
    show ((2:Int) == 1) = false from rfl, show ((2:Int) == 3) = false from rfl,
    show ((2:Int) == 2) = true from rfl]
  norm_num
  rfl

/-- C2 counterexample: coordinate 0 is a pooled wire vertex with value
`(0.4, 0.5)`; the oriented placement snaps the first live pin onto it and its
final overwrite loop then mutates it in place to the aligned template pin
value `(0.5, 0.77)` — so the placement pipeline does mutate an interned
Coordinate after interning. -/
theorem oriented_overwrite_mutates_pool_counterexample :
    (0 ∈ demoStore.pool ∧ (∃ w ∈ demoWires, 0 ∈ w.coords) ∧
      demoStore.read 0 = ⟨2/5, 1/2⟩) ∧
    ABLTransistorMapper.useAsStencil idTrig demoMapper "Q1" demoPins demoPlacement
        demoWires demoStore = .ok (demoTransistorOut, demoStoreAfter) ∧
    demoStoreAfter.read 0 = ⟨1/2, 77/100⟩ ∧
    demoStoreAfter.read 0 ≠ demoStore.read 0 := by
  refine ⟨⟨by norm_num [demoStore], ⟨⟨0, [0]⟩, by norm_num [demoWires], by norm_num⟩,
      by norm_num [demoStore, Store.read]⟩, useAsStencil_demo_run, ?_, ?_⟩ <;>
    norm_num [demoStoreAfter, demoStore, Store.read, Coordinate.mk.injEq]

/-- C6 counterexample: the pool starts duplicate-free, but after the oriented
placement the pooled ids 0 and 1 dereference to the same value
`(0.5, 0.77)` — two distinct pool entries are value-equal, refuting the
"never value-equal / identity iff value equality" invariant. -/
theorem pool_duplicate_counterexample :
    PoolValuesNodup demoStore ∧
    ABLTransistorMapper.useAsStencil idTrig demoMapper "Q1" demoPins demoPlacement
        demoWires demoStore = .ok (demoTransistorOut, demoStoreAfter) ∧
    0 ∈ demoStoreAfter.pool ∧ 1 ∈ demoStoreAfter.pool ∧ (0 : CoordId) ≠ 1 ∧
    demoStoreAfter.read 0 = demoStoreAfter.read 1 ∧
    ¬ PoolValuesNodup demoStoreAfter := by
  refine ⟨?_, useAsStencil_demo_run, by norm_num [demoStoreAfter],
    by norm_num [demoStoreAfter], by norm_num,
    by norm_num [demoStoreAfter, Store.read], ?_⟩
  · norm_num [PoolValuesNodup, demoStore, Store.read, List.pairwise_cons]
  · intro h
    exact absurd (by norm_num [demoStoreAfter, Store.read] :
        demoStoreAfter.read 0 = demoStoreAfter.read 1)
      ((List.pairwise_cons.mp h).1 1 (by norm_num [demoStoreAfter]))

/-- C5 counterexample: a wire carrying the empty net name creates the net
`("", 0)`, but two instance pins carrying the empty net name receive fresh
uuid-named nets (ids 1 and 2): they share neither each other's Net object
nor the empty-named wire's Net object. -/
theorem empty_netname_counterexample :
    (parseWires 1 demoSchemInit [⟨"", [some (0, 0)]⟩]).nets = [("", 0)] ∧
    (buildPins (parseWires 1 demoSchemInit [⟨"", [some (0, 0)]⟩])
        [⟨1, "p", ""⟩, ⟨2, "q", ""⟩]).2.map PinH.net = [some 1, some 2] ∧
    (some 1 : Option NetId) ≠ some 2 ∧ (some 1 : Option NetId) ≠ some 0 ∧
    (some 2 : Option NetId) ≠ some 0 := by
  refine ⟨by decide, by decide, by norm_num, by norm_num, by norm_num⟩

end Abl2Tikz

namespace Abl2Tikz

/-! ## Store and coordinate helper lemmas -/

/-- `Coordinate.equals` decides value equality. -/
theorem Coordinate.equalsB_iff {a b : Coordinate} : a.equalsB b = true ↔ a = b := by
  cases a; cases b
  simp [Coordinate.equalsB, Coordinate.mk.injEq]

/-- `equals` is reflexive. -/
theorem Coordinate.equalsB_self (a : Coordinate) : a.equalsB a = true :=
  Coordinate.equalsB_iff.mpr rfl

/-- Allocation preserves the value of every live cell. -/
theorem Store.read_alloc_lt (s : Store) (c : Coordinate) (i : CoordId)
    (h : i < s.cells.length) : (s.alloc c).1.read i = s.read i := by
  unfold Store.alloc Store.read
  exact List.getD_append _ _ _ _ h

/-- The freshly allocated cell holds the allocated value. -/
theorem Store.read_alloc_self (s : Store) (c : Coordinate) :
    (s.alloc c).1.read (s.alloc c).2 = c := by
  simp [Store.alloc, Store.read, List.getD_append_right _ _ _ _ (Nat.le_refl _)]

/-- Allocation grows the heap by one cell. -/
theorem Store.alloc_cells_length (s : Store) (c : Coordinate) :
    (s.alloc c).1.cells.length = s.cells.length + 1 := by
  simp [Store.alloc]

/-- Canonicalization touches only the pool, never a cell. -/
theorem Store.canonicalize_cells (s : Store) (j : CoordId) :
    (s.canonicalize j).1.cells = s.cells := by
  unfold Store.canonicalize
  cases s.poolFind (s.read j) <;> rfl

/-- Canonicalization preserves every read. -/
theorem Store.canonicalize_read (s : Store) (j i : CoordId) :
    (s.canonicalize j).1.read i = s.read i := by
  unfold Store.canonicalize
  cases s.poolFind (s.read j) <;> rfl

/-! ## C6 (amended) -/

/-- C6 (amended): canonicalization itself is sound — value-equal candidates
canonicalize to the reference-identical pool member (the find-first scan),
and one canonicalization step preserves the no-two-value-equal-entries
invariant.  The invariant is nevertheless not maintained by the whole
pipeline: the oriented placement's overwrite loop can make two pool entries
value-equal (`pool_duplicate_counterexample`). -/
theorem canonicalize_amended :
    (∀ (s : Store) (i j : CoordId), s.read i = s.read j →
      ((s.canonicalize i).1.canonicalize j).2 = (s.canonicalize i).2) ∧
    (∀ (s : Store) (i : CoordId), PoolValuesNodup s →
      PoolValuesNodup (s.canonicalize i).1) := by
  constructor
  · intro s i j h
    unfold Store.canonicalize Store.poolFind
    have hpred : (fun k => (s.read j).equalsB (s.read k)) =
        (fun k => (s.read i).equalsB (s.read k)) := by rw [h]
    cases hf : s.pool.find? (fun k => (s.read i).equalsB (s.read k)) with
    | some m =>
      have hf2 : s.pool.find? (fun k => (s.read j).equalsB (s.read k)) = some m := by
        rw [hpred, hf]
      simp only [hf, hf2]
    | none =>
      have hf2 : s.pool.find? (fun k => (s.read j).equalsB (s.read k)) = none := by
        rw [hpred, hf]
      have hpi : (s.read j).equalsB (s.read i) = true := by
        rw [← h]; exact Coordinate.equalsB_self _
      have hread : ∀ k, (Store.mk s.cells (s.pool ++ [i])).read k = s.read k :=
        fun _ => rfl
      simp only [hf, hread, List.find?_append, hf2, Option.none_or, List.find?_cons,
        hpi, List.find?_nil]
  · intro s i h
    unfold Store.canonicalize
    cases hf : s.poolFind (s.read i) with
    | some j => exact h
    | none =>
      unfold PoolValuesNodup at h ⊢
      have hread : ∀ k, (Store.mk s.cells (s.pool ++ [i])).read k = s.read k := fun _ => rfl
      simp only [hread]
      rw [List.pairwise_append]
      refine ⟨h, List.pairwise_singleton _ _, ?_⟩
      intro a ha b hb
      rw [List.mem_singleton] at hb
      subst hb
      have hnone := List.find?_eq_none.mp hf a ha
      intro he
      exact hnone (by rw [Coordinate.equalsB_iff]; exact he.symm)

/-- Witness for the C6 amended theorem at concrete stores. -/
theorem canonicalize_amended_witness :
    ((⟨[⟨0, 0⟩, ⟨0, 0⟩], []⟩ : Store).canonicalize 0).1.canonicalize 1 =
      ((((⟨[⟨0, 0⟩, ⟨0, 0⟩], []⟩ : Store).canonicalize 0).1.canonicalize 1).1,
        ((⟨[⟨0, 0⟩, ⟨0, 0⟩], []⟩ : Store).canonicalize 0).2) ∧
    PoolValuesNodup ((⟨[⟨0, 0⟩, ⟨0, 0⟩], []⟩ : Store).canonicalize 0).1 := by
  constructor
  · have h := canonicalize_amended.1 ⟨[⟨0, 0⟩, ⟨0, 0⟩], []⟩ 0 1 (by norm_num [Store.read])
    exact Prod.ext (rfl) h
  · exact canonicalize_amended.2 ⟨[⟨0, 0⟩, ⟨0, 0⟩], []⟩ 0
      (by norm_num [PoolValuesNodup])

end Abl2Tikz

namespace Abl2Tikz

/-! ## C5 (amended) -/

/-- `uuid()` never yields the empty string. -/
theorem uuidName_ne_empty (n : Nat) : uuidName n ≠ "" := by
  unfold uuidName
  intro h
  have hlen := congrArg String.length h
  rw [String.length_append] at hlen
  have h5 : ("uuid-" : String).length = 5 := by decide
  have h0 : ("" : String).length = 0 := by decide
  rw [h5, h0] at hlen
  omega

/-- The hit case of `getOrCreateNet`. -/
theorem getOrCreateNet_found {st : SchemState} {name : String} {e : String × NetId}
    (hf : st.nets.find? (fun o => o.1 == name) = some e) :
    getOrCreateNet st name = (st, e.2) := by
  unfold getOrCreateNet
  rw [hf]

/-- The miss case of `getOrCreateNet`. -/
theorem getOrCreateNet_missing {st : SchemState} {name : String}
    (hf : st.nets.find? (fun o => o.1 == name) = none) :
    getOrCreateNet st name =
      ({ st with
          nets := st.nets ++ [(name, st.nextNetId)]
          nextNetId := st.nextNetId + 1 }, st.nextNetId) := by
  unfold getOrCreateNet
  rw [hf]

/-- C5 (amended): the net table is a genuine singleton-per-name table —
repeated `getOrCreate` of one name is idempotent and returns the identical
Net object, and a `getOrCreate` of a different name never disturbs the Net
an existing name resolves to.  The empty pin net name, however, does not
join that regime: `Schematic.#parse` replaces it with a fresh `uuid()` name,
so an instance pin whose net name is empty never receives the Net object
registered under the empty name (`empty_netname_counterexample` shows two
such pins receiving two distinct fresh Nets). -/
theorem net_singleton_amended :
    (∀ (st : SchemState) (name : String),
      getOrCreateNet (getOrCreateNet st name).1 name = getOrCreateNet st name) ∧
    (∀ (st : SchemState) (name other : String),
      (st.nets.find? (fun e => e.1 == name)).isSome →
      (getOrCreateNet (getOrCreateNet st other).1 name).2 =
        (getOrCreateNet st name).2) ∧
    (∀ (st : SchemState) (r : InstPinRec), NetsWF st → r.netName = "" →
      ∀ e ∈ st.nets, e.1 = "" → (buildPin st r).2.net ≠ some e.2) := by
  refine ⟨?_, ?_, ?_⟩
  · intro st name
    cases hf : st.nets.find? (fun o => o.1 == name) with
    | some e => rw [getOrCreateNet_found hf, getOrCreateNet_found hf]
    | none =>
      rw [getOrCreateNet_missing hf]
      have hf2 : (st.nets ++ [(name, st.nextNetId)]).find? (fun o => o.1 == name) =
          some (name, st.nextNetId) := by
        rw [List.find?_append, hf]
        simp [List.find?_cons]
      rw [getOrCreateNet_found (show ({ st with
          nets := st.nets ++ [(name, st.nextNetId)],
          nextNetId := st.nextNetId + 1 } : SchemState).nets.find?
            (fun o => o.1 == name) = some (name, st.nextNetId) from hf2)]
  · intro st name other hs
    rcases Option.isSome_iff_exists.mp hs with ⟨e, he⟩
    cases hfo : st.nets.find? (fun o => o.1 == other) with
    | some e2 => rw [getOrCreateNet_found hfo]
    | none =>
      rw [getOrCreateNet_missing hfo]
      have happ : (st.nets ++ [(other, st.nextNetId)]).find? (fun o => o.1 == name) =
          some e := by
        rw [List.find?_append, he]
        rfl
      rw [getOrCreateNet_found (show ({ st with
          nets := st.nets ++ [(other, st.nextNetId)],
          nextNetId := st.nextNetId + 1 } : SchemState).nets.find?
            (fun o => o.1 == name) = some e from happ),
        getOrCreateNet_found he]
  · intro st r hwf hempty e hmem hkey
    unfold buildPin
    rw [hempty]
    simp only [reduceIte]
    cases hfu : st.nets.find? (fun o => o.1 == uuidName st.uuidCount) with
    | some e2 =>
      rw [getOrCreateNet_found (show ({ st with uuidCount := st.uuidCount + 1 } :
          SchemState).nets.find? (fun o => o.1 == uuidName st.uuidCount) = some e2
          from hfu)]
      simp only [ne_eq, Option.some.injEq]
      intro hcontra
      have hmem2 : e2 ∈ st.nets := List.mem_of_find?_eq_some hfu
      have hkey2 : e2.1 = uuidName st.uuidCount := by
        have := List.find?_some hfu
        exact beq_iff_eq.mp this
      have hne : e2 ≠ e := by
        intro hcontra2
        rw [hcontra2, hkey] at hkey2
        exact uuidName_ne_empty st.uuidCount hkey2.symm
      exact hne (List.inj_on_of_nodup_map hwf.1 hmem2 hmem hcontra)
    | none =>
      rw [getOrCreateNet_missing (show ({ st with uuidCount := st.uuidCount + 1 } :
          SchemState).nets.find? (fun o => o.1 == uuidName st.uuidCount) = none
          from hfu)]
      simp only [ne_eq, Option.some.injEq]
      intro hcontra
      have hred : ({ st with uuidCount := st.uuidCount + 1 } : SchemState).nextNetId =
          st.nextNetId := rfl
      rw [hred] at hcontra
      exact Nat.ne_of_lt (hwf.2 e hmem) hcontra.symm

/-- Witness for the C5 amended theorem at a concrete table. -/
theorem net_singleton_amended_witness :
    (getOrCreateNet (getOrCreateNet demoSchemInit "VCC").1 "VCC" =
      getOrCreateNet demoSchemInit "VCC") ∧
    (buildPin (parseWires 1 demoSchemInit [⟨"", [some (0, 0)]⟩]) ⟨1, "p", ""⟩).2.net ≠
      some 0 := by
  constructor
  · exact net_singleton_amended.1 demoSchemInit "VCC"
  · have hwf : NetsWF (parseWires 1 demoSchemInit [⟨"", [some (0, 0)]⟩]) := by
      constructor
      · decide
      · decide
    have hmem : ("", 0) ∈ (parseWires 1 demoSchemInit [⟨"", [some (0, 0)]⟩]).nets := by
      decide
    exact net_singleton_amended.2.2 (parseWires 1 demoSchemInit [⟨"", [some (0, 0)]⟩])
      ⟨1, "p", ""⟩ hwf rfl ("", 0) hmem rfl

end Abl2Tikz

namespace Abl2Tikz

/-! ## C2 (amended) -/

/-- Canonicalization keeps the heap size. -/
theorem Store.canonicalize_cells_length (s : Store) (j : CoordId) :
    (s.canonicalize j).1.cells.length = s.cells.length :=
  congrArg List.length (Store.canonicalize_cells s j)

/-- One `cloneToPosition` pin step never changes a live cell and never
shrinks the heap. -/
theorem cloneToPositionPin_preserves (trig : ℚ → ℚ × ℚ) (sps : List PinV)
    (placement : Placement) (a : ℚ) (icId : CoordId) (wires : List Wire)
    (acc : List PinH × Store) (pin : PinH) (i : CoordId)
    (hi : i < acc.2.cells.length) :
    (cloneToPositionPin trig sps placement a icId wires acc pin).2.read i =
      acc.2.read i ∧
    acc.2.cells.length ≤
      (cloneToPositionPin trig sps placement a icId wires acc pin).2.cells.length := by
  simp only [cloneToPositionPin]
  cases hh : List.find? (fun sp => sp.instTermNumber == pin.instTermNumber) sps with
  | none =>
    simp only [hh, Option.map_none']
    split
    · exact ⟨rfl, Nat.le_refl _⟩
    · exact ⟨Store.canonicalize_read _ _ _,
        Nat.le_of_eq (Store.canonicalize_cells_length _ _).symm⟩
  | some sp =>
    simp only [hh, Option.map_some']
    split
    · refine ⟨Store.read_alloc_lt _ _ _ hi, ?_⟩
      rw [Store.alloc_cells_length]
      omega
    · constructor
      · rw [Store.canonicalize_read, Store.read_alloc_lt _ _ _ hi]
      · rw [Store.canonicalize_cells_length, Store.alloc_cells_length]
        omega

/-- The whole `cloneToPosition` pin loop never changes a live cell. -/
theorem cloneFold_preserves (trig : ℚ → ℚ × ℚ) (sps : List PinV)
    (placement : Placement) (a : ℚ) (icId : CoordId) (wires : List Wire) :
    ∀ (ps : List PinH) (acc : List PinH × Store) (i : CoordId),
      i < acc.2.cells.length →
      (ps.foldl (cloneToPositionPin trig sps placement a icId wires) acc).2.read i =
        acc.2.read i ∧
      acc.2.cells.length ≤
        (ps.foldl (cloneToPositionPin trig sps placement a icId wires) acc).2.cells.length := by
  intro ps
  induction ps with
  | nil => intro acc i hi; exact ⟨rfl, Nat.le_refl _⟩
  | cons p rest ih =>
    intro acc i hi
    have hstep := cloneToPositionPin_preserves trig sps placement a icId wires acc p i hi
    have hih := ih (cloneToPositionPin trig sps placement a icId wires acc p) i
      (Nat.lt_of_lt_of_le hi hstep.2)
    rw [List.foldl_cons]
    exact ⟨hih.1.trans hstep.1, hstep.2.trans hih.2⟩

/-- C2 (amended): the pin-level and component-level (Path/Node) placement
paths never mutate an existing coordinate cell in place — `Pin.findPosition`
and `Component.cloneToPosition` only allocate fresh cells and extend the
pool, so every previously interned Coordinate keeps its value; the oriented
three-terminal placement, however, does mutate interned Coordinates in
place: its overwrite loop rewrites the snapped (pooled, wire-owned)
coordinate's components, as the concrete run shows. -/
theorem placement_pool_mutation_amended :
    (∀ (trig : ℚ → ℚ × ℚ) (pin : PinH) (stencilPins : List PinV)
      (placement : Option Placement) (instanceCoord : Option CoordId)
      (wires : List Wire) (s : Store) (relativeCoords : Bool)
      (pin2 : PinH) (s2 : Store),
      Pin.findPosition trig pin stencilPins placement instanceCoord wires s
        relativeCoords = .ok (pin2, s2) →
      ∀ i, i < s.cells.length → s2.read i = s.read i) ∧
    (∀ (trig : ℚ → ℚ × ℚ) (stencilPins : List PinV) (tikzComponentName : String)
      (attributes : List (String × String)) (pins : List PinH)
      (placement : Placement) (wires : List Wire) (s : Store) (i : CoordId),
      i < s.cells.length →
      (Component.cloneToPosition trig stencilPins tikzComponentName attributes pins
        placement wires s).2.read i = s.read i) ∧
    (ABLTransistorMapper.useAsStencil idTrig demoMapper "Q1" demoPins demoPlacement
        demoWires demoStore = .ok (demoTransistorOut, demoStoreAfter) ∧
      0 ∈ demoStore.pool ∧ demoStoreAfter.read 0 ≠ demoStore.read 0) := by
  refine ⟨?_, ?_, useAsStencil_demo_run, by norm_num [demoStore], ?_⟩
  · intro trig pin sps placement ic wires s rel pin2 s2 hrun i hi
    simp only [Pin.findPosition] at hrun
    split at hrun
    · exact absurd hrun (fun h => Except.noConfusion h)
    · rename_i r1 s' coordRef heq
      split at hrun
      · exact absurd hrun (fun h => Except.noConfusion h)
      · rename_i cid
        split at hrun <;>
          simp only [Except.ok.injEq, Prod.mk.injEq] at hrun <;>
          obtain ⟨-, hs⟩ := hrun <;>
          subst hs
        · repeat' split at heq
          all_goals try exact absurd heq (fun h => Except.noConfusion h)
          all_goals simp only [Except.ok.injEq, Prod.mk.injEq] at heq
          all_goals rw [← heq.1]
          all_goals
            first
              | exact Store.read_alloc_lt _ _ _ hi
              | rfl
        · rw [Store.canonicalize_read]
          repeat' split at heq
          all_goals try exact absurd heq (fun h => Except.noConfusion h)
          all_goals simp only [Except.ok.injEq, Prod.mk.injEq] at heq
          all_goals rw [← heq.1]
          all_goals
            first
              | exact Store.read_alloc_lt _ _ _ hi
              | rfl
  · intro trig sps tikz attrs pins placement wires s i hi
    unfold Component.cloneToPosition
    have h1 : i < (((s.alloc ⟨placement.x * placement.scaling,
        placement.y * placement.scaling⟩).1.canonicalize
        (s.alloc ⟨placement.x * placement.scaling,
          placement.y * placement.scaling⟩).2).1).cells.length := by
      rw [Store.canonicalize_cells_length, Store.alloc_cells_length]
      exact Nat.lt_succ_of_lt hi
    have h2 := (cloneFold_preserves trig sps placement (normalizeAngle placement.angle)
      ((s.alloc ⟨placement.x * placement.scaling,
        placement.y * placement.scaling⟩).1.canonicalize
        (s.alloc ⟨placement.x * placement.scaling,
          placement.y * placement.scaling⟩).2).2 wires pins
      ([], ((s.alloc ⟨placement.x * placement.scaling,
        placement.y * placement.scaling⟩).1.canonicalize
        (s.alloc ⟨placement.x * placement.scaling,
          placement.y * placement.scaling⟩).2).1) i h1).1
    rw [h2, Store.canonicalize_read, Store.read_alloc_lt _ _ _ hi]
  · norm_num [demoStoreAfter, demoStore, Store.read, Coordinate.mk.injEq]

/-- Witness for the C2 amended theorem at concrete runs. -/
theorem placement_pool_mutation_amended_witness :
    (⟨[⟨5, 5⟩], [0]⟩ : Store).read 0 = (⟨[⟨5, 5⟩], [0]⟩ : Store).read 0 ∧
    (Component.cloneToPosition idTrig [] "R" [] [] ⟨0, 0, 0, 1, 1, false, false, 1⟩
      [] ⟨[⟨5, 5⟩], [0]⟩).2.read 0 = (⟨[⟨5, 5⟩], [0]⟩ : Store).read 0 := by
  constructor
  · have hrun : Pin.findPosition idTrig ⟨none, "x", 1, none⟩ [] none (some 0) []
        ⟨[⟨5, 5⟩], [0]⟩ true = .ok (⟨some 0, "x", 1, none⟩, ⟨[⟨5, 5⟩], [0]⟩) := by
      norm_num [Pin.findPosition, snapSearch, Store.canonicalize, Store.poolFind,
        Store.read, Coordinate.equalsB, List.find?_cons, List.find?_nil]
    exact placement_pool_mutation_amended.1 idTrig ⟨none, "x", 1, none⟩ [] none
      (some 0) [] ⟨[⟨5, 5⟩], [0]⟩ true ⟨some 0, "x", 1, none⟩ ⟨[⟨5, 5⟩], [0]⟩ hrun 0
      (by norm_num)
  · exact placement_pool_mutation_amended.2.1 idTrig [] "R" [] []
      ⟨0, 0, 0, 1, 1, false, false, 1⟩ [] ⟨[⟨5, 5⟩], [0]⟩ 0 (by norm_num)

end Abl2Tikz

namespace Abl2Tikz

/-! ## C1 (amended): characterization of the snapping search -/

/-- A fold step either keeps the accumulator or switches to the current
vertex with its distance. -/
theorem closestStep_cases (s : Store) (p : Coordinate)
    (prev : ℚ × Option CoordId) (cid : CoordId) :
    closestStep s p prev cid = prev ∨
      closestStep s p prev cid = (p.getDistanceSq (s.read cid), some cid) := by
  unfold closestStep
  dsimp only
  split
  · exact Or.inl rfl
  · exact Or.inr rfl

/-- A fold step never increases the tracked distance. -/
theorem closestStep_fst_le (s : Store) (p : Coordinate)
    (prev : ℚ × Option CoordId) (cid : CoordId) :
    (closestStep s p prev cid).1 ≤ prev.1 := by
  unfold closestStep
  dsimp only
  split
  · exact le_rfl
  · next h => exact le_of_not_lt h

/-- After a step the tracked distance is at most the stepped vertex's
distance. -/
theorem closestStep_fst_le_dsq (s : Store) (p : Coordinate)
    (prev : ℚ × Option CoordId) (cid : CoordId) :
    (closestStep s p prev cid).1 ≤ p.getDistanceSq (s.read cid) := by
  unfold closestStep
  dsimp only
  split
  · next h => exact le_of_lt h
  · exact le_rfl

/-- The whole fold never increases the tracked distance. -/
theorem closestFold_fst_le (s : Store) (p : Coordinate) :
    ∀ (cs : List CoordId) (init : ℚ × Option CoordId),
      (cs.foldl (closestStep s p) init).1 ≤ init.1
  | [], _ => le_rfl
  | c :: cs, init =>
    le_trans (closestFold_fst_le s p cs (closestStep s p init c))
      (closestStep_fst_le s p init c)

/-- The fold's tracked distance is at most every visited vertex's
distance. -/
theorem closestFold_min (s : Store) (p : Coordinate) :
    ∀ (cs : List CoordId) (init : ℚ × Option CoordId) (c : CoordId), c ∈ cs →
      (cs.foldl (closestStep s p) init).1 ≤ p.getDistanceSq (s.read c) := by
  intro cs
  induction cs with
  | nil => intro init c hc; cases hc
  | cons d cs ih =>
    intro init c hc
    rw [List.foldl_cons]
    rcases List.mem_cons.mp hc with h | h
    · subst h
      exact le_trans (closestFold_fst_le s p cs _) (closestStep_fst_le_dsq s p init c)
    · exact ih _ c h

/-- If the accumulator already carries a vertex, the fold's result still
carries one. -/
theorem closestFold_some_of_some (s : Store) (p : Coordinate) :
    ∀ (cs : List CoordId) (init : ℚ × Option CoordId) (c : CoordId),
      init.2 = some c → ∃ c2, (cs.foldl (closestStep s p) init).2 = some c2 := by
  intro cs
  induction cs with
  | nil => intro init c h; exact ⟨c, h⟩
  | cons d cs ih =>
    intro init c h
    rw [List.foldl_cons]
    rcases closestStep_cases s p init d with he | he <;> rw [he]
    · exact ih init c h
    · exact ih _ d rfl

/-- A fold that ends without a vertex never moved: it returns the initial
accumulator (the sentinel). -/
theorem closestFold_none (s : Store) (p : Coordinate) :
    ∀ (cs : List CoordId) (init : ℚ × Option CoordId),
      (cs.foldl (closestStep s p) init).2 = none →
      cs.foldl (closestStep s p) init = init := by
  intro cs
  induction cs with
  | nil => intro init _; rfl
  | cons d cs ih =>
    intro init h
    rw [List.foldl_cons] at h ⊢
    rcases closestStep_cases s p init d with he | he
    · rw [he] at h ⊢
      exact ih init h
    · rw [he] at h
      obtain ⟨c2, hc2⟩ :=
        closestFold_some_of_some s p cs (p.getDistanceSq (s.read d), some d) d rfl
      rw [h] at hc2
      exact Option.noConfusion hc2

/-- A fold that ends with a vertex either inherited it unchanged from the
accumulator or picked a member of the visited list together with that
member's distance. -/
theorem closestFold_some_spec (s : Store) (p : Coordinate) :
    ∀ (cs : List CoordId) (init : ℚ × Option CoordId) (cid : CoordId),
      (cs.foldl (closestStep s p) init).2 = some cid →
      (init.2 = some cid ∧ (cs.foldl (closestStep s p) init).1 = init.1) ∨
      (cid ∈ cs ∧
        (cs.foldl (closestStep s p) init).1 = p.getDistanceSq (s.read cid)) := by
  intro cs
  induction cs with
  | nil => intro init cid h; exact Or.inl ⟨h, rfl⟩
  | cons d cs ih =>
    intro init cid h
    rw [List.foldl_cons] at h ⊢
    rcases closestStep_cases s p init d with he | he <;> rw [he] at h ⊢
    · rcases ih init cid h with ⟨h1, h2⟩ | ⟨h1, h2⟩
      · exact Or.inl ⟨h1, h2⟩
      · exact Or.inr ⟨List.mem_cons_of_mem _ h1, h2⟩
    · rcases ih _ cid h with ⟨h1, h2⟩ | ⟨h1, h2⟩
      · have hd : d = cid := Option.some.inj h1
        subst hd
        exact Or.inr ⟨List.mem_cons_self _ _, h2⟩
      · exact Or.inr ⟨List.mem_cons_of_mem _ h1, h2⟩

/-- The per-wire result never exceeds the sentinel. -/
theorem wireClosest_fst_le (s : Store) (p : Coordinate) (q : ℚ) (w : Wire) :
    (wireClosest s p q w).1 ≤ q :=
  closestFold_fst_le s p w.coords (q, none)

/-- The per-wire result is at most every vertex's distance. -/
theorem wireClosest_min (s : Store) (p : Coordinate) (q : ℚ) (w : Wire)
    (c : CoordId) (hc : c ∈ w.coords) :
    (wireClosest s p q w).1 ≤ p.getDistanceSq (s.read c) :=
  closestFold_min s p w.coords (q, none) c hc

/-- A per-wire result carrying a vertex carries one of the wire's own
vertices, with the entry's key equal to that vertex's distance. -/
theorem wireClosest_some (s : Store) (p : Coordinate) (q : ℚ) (w : Wire)
    (cid : CoordId) (h : (wireClosest s p q w).2 = some cid) :
    cid ∈ w.coords ∧ (wireClosest s p q w).1 = p.getDistanceSq (s.read cid) := by
  rcases closestFold_some_spec s p w.coords (q, none) cid h with ⟨h1, _⟩ | h1
  · exact Option.noConfusion h1
  · exact h1

/-- A per-wire result carrying no vertex is exactly the sentinel entry. -/
theorem wireClosest_none (s : Store) (p : Coordinate) (q : ℚ) (w : Wire)
    (h : (wireClosest s p q w).2 = none) : wireClosest s p q w = (q, none) :=
  closestFold_none s p w.coords (q, none) h

/-- Unfolding equation for the head-of-stable-sort on a cons cell. -/
theorem firstMinEntry_cons (e : ℚ × Option CoordId)
    (rest : List (ℚ × Option CoordId)) :
    firstMinEntry (e :: rest) =
      match firstMinEntry rest with
      | none => some e
      | some m => if e.1 ≤ m.1 then some e else some m := rfl

/-- The head of the sorted list comes from the list. -/
theorem firstMinEntry_mem :
    ∀ (l : List (ℚ × Option CoordId)) (m : ℚ × Option CoordId),
      firstMinEntry l = some m → m ∈ l := by
  intro l
  induction l with
  | nil => intro m h; exact Option.noConfusion h
  | cons e rest ih =>
    intro m h
    rw [firstMinEntry_cons] at h
    cases hr : firstMinEntry rest with
    | none =>
      simp only [hr] at h
      cases Option.some.inj h
      exact List.mem_cons_self _ _
    | some m2 =>
      simp only [hr] at h
      split at h
      · cases Option.some.inj h
        exact List.mem_cons_self _ _
      · cases Option.some.inj h
        exact List.mem_cons_of_mem _ (ih _ hr)

/-- An empty sort result means an empty candidate list. -/
theorem firstMinEntry_eq_none :
    ∀ (l : List (ℚ × Option CoordId)), firstMinEntry l = none → l = [] := by
  intro l
  induction l with
  | nil => intro _; rfl
  | cons e rest _ =>
    intro h
    rw [firstMinEntry_cons] at h
    cases hr : firstMinEntry rest with
    | none =>
      simp only [hr] at h
      exact Option.noConfusion h
    | some m2 =>
      simp only [hr] at h
      split at h <;> exact Option.noConfusion h

/-- The head of the sorted list attains the minimal key. -/
theorem firstMinEntry_min :
    ∀ (l : List (ℚ × Option CoordId)) (m : ℚ × Option CoordId),
      firstMinEntry l = some m → ∀ e ∈ l, m.1 ≤ e.1 := by
  intro l
  induction l with
  | nil => intro m h; exact Option.noConfusion h
  | cons e rest ih =>
    intro m h x hx
    rw [firstMinEntry_cons] at h
    cases hr : firstMinEntry rest with
    | none =>
      have hrest : rest = [] := firstMinEntry_eq_none rest hr
      subst hrest
      simp only [hr] at h
      cases Option.some.inj h
      rcases List.mem_cons.mp hx with h2 | h2
      · rw [h2]
      · cases h2
    | some m2 =>
      simp only [hr] at h
      split at h
      · next hle =>
        cases Option.some.inj h
        rcases List.mem_cons.mp hx with h2 | h2
        · rw [h2]
        · exact le_trans hle (ih m2 hr x h2)

      · next hle =>
        cases Option.some.inj h
        rcases List.mem_cons.mp hx with h2 | h2
        · rw [h2]; exact le_of_not_le hle
        · exact ih _ hr x h2

end Abl2Tikz

namespace Abl2Tikz

/-- C1 (amended): for every positioned pin carrying a net, the snapping
step searches exactly the wires of that net, takes each wire's closest
vertex to the pin's computed coordinate, and picks the globally nearest of
those per-wire closest vertices; but each wire's reduce starts from a
sentinel entry whose key IS the search radius (1 squared-unit in the
lone-pin path, Number.MAX_VALUE squared in the component path), so a
qualifying vertex is guaranteed adoption only when strictly inside the
radius: at a tie with the radius an earlier same-net wire's sentinel can
win the stable sort and the pin falls back to canonicalization (see
`snap_boundary_counterexample`).  Conjuncts: (1) soundness — an adopted
vertex lies on a same-net wire, is within the radius, and is globally
nearest among all same-net wire vertices; (2) completeness — a same-net
vertex strictly inside the radius forces adoption of some vertex; (3) all
same-net vertices strictly outside the radius mean no adoption; (4) a pin
without a net never snaps; (5), (6) the lone-pin and component-level
placements reduce to exactly this search with sentinel 1 resp.
MAX_VALUE², adopting the found vertex's Coordinate by reference (the
shared cell id) and otherwise canonicalizing the computed coordinate into
the Pool. -/
theorem snapping_search_amended :
    (∀ (s : Store) (n : NetId) (p : Coordinate) (wires : List Wire) (q : ℚ)
        (cid : CoordId),
      snapSearch s (some n) p wires q = some cid →
      (∃ w ∈ wires.filter (fun w => w.net == n), cid ∈ w.coords) ∧
      p.getDistanceSq (s.read cid) ≤ q ∧
      ∀ w ∈ wires.filter (fun w => w.net == n), ∀ c ∈ w.coords,
        p.getDistanceSq (s.read cid) ≤ p.getDistanceSq (s.read c)) ∧
    (∀ (s : Store) (n : NetId) (p : Coordinate) (wires : List Wire) (q : ℚ),
      (∃ w ∈ wires.filter (fun w => w.net == n), ∃ c ∈ w.coords,
        p.getDistanceSq (s.read c) < q) →
      ∃ cid, snapSearch s (some n) p wires q = some cid) ∧
    (∀ (s : Store) (n : NetId) (p : Coordinate) (wires : List Wire) (q : ℚ),
      (∀ w ∈ wires.filter (fun w => w.net == n), ∀ c ∈ w.coords,
        q < p.getDistanceSq (s.read c)) →
      snapSearch s (some n) p wires q = none) ∧
    (∀ (s : Store) (p : Coordinate) (wires : List Wire) (q : ℚ),
      snapSearch s none p wires q = none) ∧
    (∀ (trig : ℚ → ℚ × ℚ) (pin : PinH) (sps : List PinV) (wires : List Wire)
        (s : Store) (sp : PinV),
      sps.find? (fun o => o.instTermNumber == pin.instTermNumber) = some sp →
      Pin.findPosition trig pin sps none none wires s false =
        match snapSearch (s.alloc sp.coordV).1 pin.net sp.coordV wires 1 with
        | some vid => .ok ({ pin with coord := some vid }, (s.alloc sp.coordV).1)
        | none =>
          let r := (s.alloc sp.coordV).1.canonicalize (s.alloc sp.coordV).2
          .ok ({ pin with coord := some r.2 }, r.1)) ∧
    (∀ (trig : ℚ → ℚ × ℚ) (sps : List PinV) (placement : Placement) (a : ℚ)
        (icId : CoordId) (wires : List Wire) (acc : List PinH × Store)
        (pin : PinH) (sp : PinV),
      sps.find? (fun o => o.instTermNumber == pin.instTermNumber) = some sp →
      cloneToPositionPin trig sps placement a icId wires acc pin =
        (let v1 := sp.coordV.scale (placement.xScale * placement.scaling)
          (placement.yScale * placement.scaling)
         let v2 := Coordinate.rotate trig a v1
         let v3 := if placement.mirrorX then v2.mirrorXv else v2
         let v4 := if placement.mirrorY then v3.mirrorYv else v3
         let v := v4.add (acc.2.read icId)
         match snapSearch (acc.2.alloc v).1 pin.net v wires (jsMaxValue ^ 2) with
         | some vid =>
           (acc.1 ++ [{ pin with coord := some vid }], (acc.2.alloc v).1)
         | none =>
           let r := (acc.2.alloc v).1.canonicalize (acc.2.alloc v).2
           (acc.1 ++ [{ pin with coord := some r.2 }], r.1))) := by
  refine ⟨?_, ?_, ?_, ?_, ?_, ?_⟩
  · intro s n p wires q cid h
    simp only [snapSearch] at h
    cases hfm : firstMinEntry ((wires.filter (fun w => w.net == n)).map
        (wireClosest s p q)) with
    | none =>
      rw [hfm] at h
      exact Option.noConfusion h
    | some m =>
      rw [hfm] at h
      have hm2 : m.2 = some cid := h
      obtain ⟨w, hw, hweq⟩ := List.mem_map.mp (firstMinEntry_mem _ _ hfm)
      rw [← hweq] at hm2
      obtain ⟨hcid, hkey⟩ := wireClosest_some s p q w cid hm2
      refine ⟨⟨w, hw, hcid⟩, ?_, ?_⟩
      · rw [← hkey]
        exact wireClosest_fst_le s p q w
      · intro w2 hw2 c hc
        rw [← hkey, hweq]
        exact le_trans
          (firstMinEntry_min _ _ hfm _ (List.mem_map_of_mem _ hw2))
          (wireClosest_min s p q w2 c hc)
  · intro s n p wires q h
    obtain ⟨w, hw, c, hc, hlt⟩ := h
    cases hfm : firstMinEntry ((wires.filter (fun w => w.net == n)).map
        (wireClosest s p q)) with
    | none =>
      have hnil := firstMinEntry_eq_none _ hfm
      rw [List.map_eq_nil] at hnil
      rw [hnil] at hw
      cases hw
    | some m =>
      have hm1 : m.1 ≤ p.getDistanceSq (s.read c) :=
        le_trans (firstMinEntry_min _ _ hfm _ (List.mem_map_of_mem _ hw))
          (wireClosest_min s p q w c hc)
      cases hm2 : m.2 with
      | some cid =>
        refine ⟨cid, ?_⟩
        simp only [snapSearch]
        rw [hfm]
        exact hm2
      | none =>
        exfalso
        obtain ⟨w3, _, hw3eq⟩ := List.mem_map.mp (firstMinEntry_mem _ _ hfm)
        rw [← hw3eq] at hm2
        have hsen := wireClosest_none s p q w3 hm2
        rw [← hw3eq, hsen] at hm1
        exact lt_irrefl q (lt_of_le_of_lt hm1 hlt)
  · intro s n p wires q h
    simp only [snapSearch]
    cases hfm : firstMinEntry ((wires.filter (fun w => w.net == n)).map
        (wireClosest s p q)) with
    | none => rfl
    | some m =>
      cases hm2 : m.2 with
      | none => exact hm2
      | some cid =>
        exfalso
        obtain ⟨w3, hw3, hw3eq⟩ := List.mem_map.mp (firstMinEntry_mem _ _ hfm)
        rw [← hw3eq] at hm2
        obtain ⟨hcid, hkey⟩ := wireClosest_some s p q w3 cid hm2
        have h1 : (wireClosest s p q w3).1 ≤ q := wireClosest_fst_le s p q w3
        rw [hkey] at h1
        exact absurd h1 (not_le.mpr (h w3 hw3 cid hcid))
  · intro s p wires q
    rfl
  · intro trig pin sps wires s sp hfind
    simp only [Pin.findPosition, hfind, Option.map_some', Bool.false_eq_true,
      reduceIte]
    rw [Store.read_alloc_self]
  · intro trig sps placement a icId wires acc pin sp hfind
    simp only [cloneToPositionPin, hfind, Option.map_some']
    rw [Store.read_alloc_self]

end Abl2Tikz

namespace Abl2Tikz

/-- Witness for the C1 amended theorem at concrete inputs: one same-net
wire vertex at `(1, 0)`, pin resolved at the origin (squared distance 1).
With radius² 4 the vertex is adopted (soundness at the returned id 0,
completeness), with radius² 1/2 nothing qualifies, and both placement
paths reduce to the search on concrete pins. -/
theorem snapping_search_amended_witness :
    ((∃ w ∈ ([⟨5, [0]⟩] : List Wire).filter (fun w => w.net == 5),
        0 ∈ w.coords) ∧
      (⟨0, 0⟩ : Coordinate).getDistanceSq ((⟨[⟨1, 0⟩], [0]⟩ : Store).read 0) ≤ 4 ∧
      ∀ w ∈ ([⟨5, [0]⟩] : List Wire).filter (fun w => w.net == 5),
        ∀ c ∈ w.coords,
          (⟨0, 0⟩ : Coordinate).getDistanceSq
              ((⟨[⟨1, 0⟩], [0]⟩ : Store).read 0) ≤
            (⟨0, 0⟩ : Coordinate).getDistanceSq
              ((⟨[⟨1, 0⟩], [0]⟩ : Store).read c)) ∧
    (∃ cid, snapSearch ⟨[⟨1, 0⟩], [0]⟩ (some 5) ⟨0, 0⟩ [⟨5, [0]⟩] 4 =
      some cid) ∧
    snapSearch ⟨[⟨1, 0⟩], [0]⟩ (some 5) ⟨0, 0⟩ [⟨5, [0]⟩] (1 / 2) = none ∧
    snapSearch ⟨[⟨1, 0⟩], [0]⟩ none ⟨0, 0⟩ [⟨5, [0]⟩] 4 = none ∧
    Pin.findPosition idTrig ⟨none, "w", 7, some 9⟩ [⟨⟨2, 2⟩, "w", 7⟩] none none
        [] ⟨[], []⟩ false =
      (match snapSearch ((⟨[], []⟩ : Store).alloc ⟨2, 2⟩).1 (some 9) ⟨2, 2⟩ []
          1 with
       | some vid =>
         .ok (⟨some vid, "w", 7, some 9⟩,
           ((⟨[], []⟩ : Store).alloc ⟨2, 2⟩).1)
       | none =>
         let r := ((⟨[], []⟩ : Store).alloc ⟨2, 2⟩).1.canonicalize
           ((⟨[], []⟩ : Store).alloc ⟨2, 2⟩).2
         .ok (⟨some r.2, "w", 7, some 9⟩, r.1)) ∧
    cloneToPositionPin idTrig [⟨⟨1, 0⟩, "w", 7⟩] ⟨0, 0, 0, 1, 1, false, false, 1⟩
        0 0 [] ([], ⟨[⟨0, 0⟩], [0]⟩) ⟨none, "w", 7, some 9⟩ =
      (let v1 := (⟨1, 0⟩ : Coordinate).scale (1 * 1) (1 * 1)
       let v2 := Coordinate.rotate idTrig 0 v1
       let v3 := if (false : Bool) then v2.mirrorXv else v2
       let v4 := if (false : Bool) then v3.mirrorYv else v3
       let v := v4.add ((⟨[⟨0, 0⟩], [0]⟩ : Store).read 0)
       match snapSearch ((⟨[⟨0, 0⟩], [0]⟩ : Store).alloc v).1 (some 9) v []
           (jsMaxValue ^ 2) with
       | some vid =>
         ([] ++ [(⟨some vid, "w", 7, some 9⟩ : PinH)],
           ((⟨[⟨0, 0⟩], [0]⟩ : Store).alloc v).1)
       | none =>
         let r := ((⟨[⟨0, 0⟩], [0]⟩ : Store).alloc v).1.canonicalize
           ((⟨[⟨0, 0⟩], [0]⟩ : Store).alloc v).2
         ([] ++ [(⟨some r.2, "w", 7, some 9⟩ : PinH)], r.1)) := by
  have hrun : snapSearch ⟨[⟨1, 0⟩], [0]⟩ (some 5) ⟨0, 0⟩ [⟨5, [0]⟩] 4 =
      some 0 := by
    simp only [snapSearch, wireClosest, closestStep, firstMinEntry, Store.read,
      Coordinate.getDistanceSq, List.filter, List.map, List.foldl]
    norm_num
  refine ⟨?_, ⟨0, hrun⟩, ?_, ?_, ?_, ?_⟩
  · exact snapping_search_amended.1 ⟨[⟨1, 0⟩], [0]⟩ 5 ⟨0, 0⟩ [⟨5, [0]⟩] 4 0 hrun
  · refine snapping_search_amended.2.2.1 ⟨[⟨1, 0⟩], [0]⟩ 5 ⟨0, 0⟩ [⟨5, [0]⟩]
      (1 / 2) ?_
    intro w hw c hc
    have hw2 : w = ⟨5, [0]⟩ := by
      simp only [List.filter, List.mem_singleton] at hw
      norm_num at hw
      exact hw
    subst hw2
    have hc2 : c = 0 := List.mem_singleton.mp hc
    subst hc2
    norm_num [Store.read, Coordinate.getDistanceSq]
  · exact snapping_search_amended.2.2.2.1 ⟨[⟨1, 0⟩], [0]⟩ ⟨0, 0⟩ [⟨5, [0]⟩] 4
  · exact snapping_search_amended.2.2.2.2.1 idTrig ⟨none, "w", 7, some 9⟩
      [⟨⟨2, 2⟩, "w", 7⟩] [] ⟨[], []⟩ ⟨⟨2, 2⟩, "w", 7⟩ rfl
  · exact snapping_search_amended.2.2.2.2.2 idTrig [⟨⟨1, 0⟩, "w", 7⟩]
      ⟨0, 0, 0, 1, 1, false, false, 1⟩ 0 0 [] ([], ⟨[⟨0, 0⟩], [0]⟩)
      ⟨none, "w", 7, some 9⟩ ⟨⟨1, 0⟩, "w", 7⟩ rfl

end Abl2Tikz

namespace Abl2Tikz

/-! ## C3: alignment of the two triangles -/

/-- In-place mutation preserves the heap size. -/
theorem Store.write_cells_length (s : Store) (i : CoordId) (c : Coordinate) :
    (s.write i c).cells.length = s.cells.length := by
  simp [Store.write]

/-- Reading back an in-range write. -/
theorem Store.read_write_self (s : Store) (i : CoordId) (c : Coordinate)
    (h : i < s.cells.length) : (s.write i c).read i = c := by
  unfold Store.write Store.read
  rw [List.getD_eq_getD_get?, List.get?_set_eq_of_lt c h]
  rfl

/-- A write leaves every other cell alone. -/
theorem Store.read_write_ne (s : Store) (i : CoordId) (c : Coordinate)
    (j : CoordId) (h : j ≠ i) : (s.write i c).read j = s.read j := by
  unfold Store.write Store.read
  rw [List.getD_eq_getD_get?, List.get?_set_ne c _ (fun he => h he.symm),
    ← List.getD_eq_getD_get?]

/-- A fold whose step preserves the heap size preserves the heap size. -/
theorem foldl_store_length {α : Type} (f : Store → α → Store)
    (hf : ∀ s a, (f s a).cells.length = s.cells.length) :
    ∀ (l : List α) (s : Store), (l.foldl f s).cells.length = s.cells.length := by
  intro l
  induction l with
  | nil => intro s; rfl
  | cons a l ih =>
    intro s
    rw [List.foldl_cons, ih, hf]

/-- Scaling mutates in place: the heap size is unchanged. -/
theorem scaleIds_cells_length (s : Store) (ids : List CoordId) (sx sy : ℚ) :
    (scaleIds s ids sx sy).cells.length = s.cells.length :=
  foldl_store_length _ (fun s pid => Store.write_cells_length s pid _) ids s

/-- Rotation mutates in place: the heap size is unchanged. -/
theorem rotateIds_cells_length (trig : ℚ → ℚ × ℚ) (a : ℚ) (s : Store)
    (ids : List CoordId) (anc : Option Nat) :
    (rotateIds trig a s ids anc).cells.length = s.cells.length := by
  unfold rotateIds
  split
  · rfl
  · refine foldl_store_length _ (fun s i => ?_) _ s
    dsimp only
    split
    · rfl
    · exact Store.write_cells_length _ _ _

/-- One mirror step mutates in place: the heap size is unchanged. -/
theorem mirrorStep_cells_length (mX mY : Bool) (s : Store) (mid pid : CoordId) :
    (mirrorStep mX mY s mid pid).cells.length = s.cells.length := by
  unfold mirrorStep
  split
  · exact Store.write_cells_length _ _ _
  · exact Store.write_cells_length _ _ _

/-- The mirror sweep mutates in place: the heap size is unchanged. -/
theorem mirrorSweep_cells_length (s : Store) (ids : List CoordId)
    (mid : CoordId) (mX mY : Bool) :
    (mirrorSweep s ids mid mX mY).cells.length = s.cells.length :=
  foldl_store_length _ (fun s pid => mirrorStep_cells_length mX mY s mid pid) ids s

/-- Translation mutates in place: the heap size is unchanged. -/
theorem translateIds_cells_length (s : Store) (ids : List CoordId)
    (d : Coordinate) :
    (translateIds s ids d).cells.length = s.cells.length :=
  foldl_store_length _ (fun s pid => Store.write_cells_length s pid _) ids s

/-- The deep-clone allocation loop appends the values to the heap and hands
back the consecutive fresh ids. -/
theorem allocPins_foldl :
    ∀ (vs : List Coordinate) (s : Store) (l : List CoordId),
      vs.foldl (fun acc v =>
        let r := acc.1.alloc v
        (r.1, acc.2 ++ [r.2])) (s, l) =
      (⟨s.cells ++ vs, s.pool⟩, l ++ List.range' s.cells.length vs.length) := by
  intro vs
  induction vs with
  | nil =>
    intro s l
    simp
  | cons v vs ih =>
    intro s l
    exact (ih ⟨s.cells ++ [v], s.pool⟩ (l ++ [s.cells.length])).trans (by
      simp [List.range'_succ, List.append_assoc])

/-- `allocPins` in closed form. -/
theorem allocPins_spec (s : Store) (vs : List Coordinate) :
    (allocPins s vs).1 = ⟨s.cells ++ vs, s.pool⟩ ∧
    (allocPins s vs).2 = List.range' s.cells.length vs.length := by
  unfold allocPins
  rw [allocPins_foldl]
  exact ⟨rfl, by simp⟩

/-- Translating a list of cells leaves every cell outside the list alone. -/
theorem translateIds_read_notMem (s : Store) (ids : List CoordId)
    (d : Coordinate) (j : CoordId) :
    j ∉ ids → (translateIds s ids d).read j = s.read j := by
  unfold translateIds
  induction ids generalizing s with
  | nil => intro _; rfl
  | cons i ids ih =>
    intro hj
    rw [List.mem_cons, not_or] at hj
    rw [List.foldl_cons, ih _ hj.2]
    exact Store.read_write_ne s i _ j hj.1

/-- Translating a duplicate-free list of live cells adds the vector to each
member exactly once. -/
theorem translateIds_read_mem (s : Store) (ids : List CoordId) (d : Coordinate)
    (j : CoordId) :
    ids.Nodup → (∀ k ∈ ids, k < s.cells.length) → j ∈ ids →
    (translateIds s ids d).read j = (s.read j).add d := by
  unfold translateIds
  induction ids generalizing s with
  | nil => intro _ _ hj; cases hj
  | cons i ids ih =>
    intro hnd hlt hj
    rw [List.foldl_cons]
    rcases List.mem_cons.mp hj with rfl | hjm
    · have hni : j ∉ ids := (List.nodup_cons.mp hnd).1
      have h0 := translateIds_read_notMem (s.write j ((s.read j).add d)) ids d j hni
      unfold translateIds at h0
      rw [h0]
      exact Store.read_write_self s j _ (hlt j (List.mem_cons_self _ _))
    · have hne : j ≠ i := fun he => (List.nodup_cons.mp hnd).1 (he ▸ hjm)
      rw [ih _ (List.nodup_cons.mp hnd).2
        (fun k hk => by
          rw [Store.write_cells_length]
          exact hlt k (List.mem_cons_of_mem _ hk)) hjm]
      exact congrArg (fun c => c.add d) (Store.read_write_ne s i _ j hne)

/-- The orthogonal projection is translation-equivariant. -/
theorem Coordinate.orthogonalProjection_add (c a b d : Coordinate) :
    (c.add d).orthogonalProjection (a.add d) (b.add d) =
      (c.orthogonalProjection a b).add d := by
  unfold Coordinate.orthogonalProjection Coordinate.add Coordinate.subtract
    Coordinate.scaleUniform
  dsimp only
  have hx : b.x + d.x - (a.x + d.x) = b.x - a.x := by ring
  have hy : b.y + d.y - (a.y + d.y) = b.y - a.y := by ring
  have hcx : c.x + d.x - (a.x + d.x) = c.x - a.x := by ring
  have hcy : c.y + d.y - (a.y + d.y) = c.y - a.y := by ring
  rw [hx, hy, hcx, hcy]
  simp only [Coordinate.mk.injEq]
  constructor <;> ring

/-- `add` undoes `subtract`. -/
theorem Coordinate.add_subtract_cancel (a b : Coordinate) :
    b.add (a.subtract b) = a := by
  obtain ⟨ax, ay⟩ := a
  obtain ⟨bx, b2⟩ := b
  simp only [Coordinate.add, Coordinate.subtract, Coordinate.mk.injEq]
  constructor <;> ring

end Abl2Tikz

namespace Abl2Tikz

/-- Shape of the placed anatomical triangle: the pin ids are the
consecutive fresh cells after the instance coordinate, and the heap has
grown by exactly `1 + pins` cells. -/
theorem placeAbl_spec (trig : ℚ → ℚ × ℚ) (m : ABLTransistorMapperV)
    (placement : Placement) (s : Store) :
    (ABLTransistorMapper.placeAbl trig m placement s).ablIds =
      List.range' (s.cells.length + 1) m.pins.length ∧
    (ABLTransistorMapper.placeAbl trig m placement s).store.cells.length =
      s.cells.length + 1 + m.pins.length := by
  unfold ABLTransistorMapper.placeAbl
  dsimp only
  constructor
  · rw [(allocPins_spec _ _).2]
    simp [Store.alloc]
  · rw [translateIds_cells_length]
    have hmir : ∀ (st : Store) (ids : List CoordId) (mid : CoordId),
        ((if placement.mirrorX || placement.mirrorY then
            mirrorSweep st ids mid placement.mirrorX placement.mirrorY
          else st)).cells.length = st.cells.length := by
      intro st ids mid
      split
      · exact mirrorSweep_cells_length st ids mid _ _
      · rfl
    rw [hmir, rotateIds_cells_length, scaleIds_cells_length]
    have hcells := congrArg (fun t : Store => t.cells.length) (allocPins_spec
      ((s.alloc ⟨placement.x * placement.scaling,
        placement.y * placement.scaling⟩).1) (m.pins.map (fun p => p.coordV))).1
    dsimp only at hcells
    rw [hcells]
    simp [Store.alloc]
    omega

end Abl2Tikz

namespace Abl2Tikz

/-- Shape of the transformed render template: the pin ids are the
consecutive fresh cells, `anchorCoord` (when cloned) is the cell right
after them, and the heap grows by `pins` (plus one for the anchor). -/
theorem transformH_spec (trig : ℚ → ℚ × ℚ) (t : TransistorV) (a : ℚ)
    (mX mY : Bool) (s : Store) :
    (Transistor.transformH trig t a mX mY s).tplIds =
      List.range' s.cells.length t.pins.length ∧
    (Transistor.transformH trig t a mX mY s).anchorId =
      (match t.anchorNr with
       | some _ => none
       | none => some ((s.cells.length + t.pins.length : ℕ))) ∧
    (Transistor.transformH trig t a mX mY s).store.cells.length =
      s.cells.length + t.pins.length +
        (match t.anchorNr with | some _ => 0 | none => 1) := by
  have hmir : ∀ (st : Store) (ids : List CoordId) (mid : CoordId),
      ((if mX || mY then mirrorSweep st ids mid mX mY else st)).cells.length =
        st.cells.length := by
    intro st ids mid
    split
    · exact mirrorSweep_cells_length st ids mid _ _
    · rfl
  have hcells := congrArg (fun t2 : Store => t2.cells.length)
    (allocPins_spec s (t.pins.map (fun p => p.coordV))).1
  dsimp only at hcells
  unfold Transistor.transformH
  cases ha : t.anchorNr with
  | some n =>
    dsimp only
    refine ⟨?_, rfl, ?_⟩
    · rw [(allocPins_spec _ _).2]
      simp
    · rw [hmir, rotateIds_cells_length, hcells]
      simp
  | none =>
    dsimp only
    refine ⟨?_, ?_, ?_⟩
    · rw [(allocPins_spec _ _).2]
      simp
    · rw [(allocPins_spec _ _).1]
      simp [Store.alloc]
    · rw [hmir, rotateIds_cells_length]
      rw [(allocPins_spec _ _).1]
      simp [Store.alloc]
      omega

end Abl2Tikz

namespace Abl2Tikz

/-- `lineCrossingCoord` on an explicit three-pin triangle. -/
theorem lineCrossingAt_cons3 (st : Store) (i1 i2 i3 : CoordId) :
    lineCrossingAt st [i1, i2, i3] =
      (st.read i3).orthogonalProjection (st.read i1) (st.read i2) := rfl

/-- The alignment translation makes the two crossings coincide: translating
the template triangle (and its anchor cell) by the difference of the two
crossings, while leaving the anatomical triangle's cells untouched, ends
with equal line-crossing points. -/
theorem translateTransistor_align (st : Store) (a1 a2 a3 t1 t2 t3 : ℕ)
    (anch : Option CoordId)
    (hnd : ([t1, t2, t3] : List ℕ).Nodup)
    (hbt : ∀ k ∈ ([t1, t2, t3] : List ℕ), k < st.cells.length)
    (hna : ∀ i ∈ ([a1, a2, a3] : List ℕ),
      i ∉ ([t1, t2, t3] : List ℕ))
    (hanch : ∀ aid : ℕ, anch = some aid →
      aid ∉ ([t1, t2, t3] : List ℕ) ∧
      ∀ i ∈ ([a1, a2, a3] : List ℕ), i ≠ aid) :
    lineCrossingAt (translateTransistor st [t1, t2, t3] anch
        ((lineCrossingAt st [a1, a2, a3]).subtract
          (lineCrossingAt st [t1, t2, t3]))) [a1, a2, a3] =
      lineCrossingAt (translateTransistor st [t1, t2, t3] anch
        ((lineCrossingAt st [a1, a2, a3]).subtract
          (lineCrossingAt st [t1, t2, t3]))) [t1, t2, t3] := by
  simp only [lineCrossingAt_cons3]
  generalize hD : ((st.read a3).orthogonalProjection (st.read a1)
      (st.read a2)).subtract
    ((st.read t3).orthogonalProjection (st.read t1) (st.read t2)) = D
  unfold translateTransistor
  cases anch with
  | none =>
    dsimp only
    have hA : ∀ i ∈ ([a1, a2, a3] : List ℕ),
        (translateIds st [t1, t2, t3] D).read i = st.read i :=
      fun i hi => translateIds_read_notMem _ _ _ _ (hna i hi)
    have hT : ∀ j ∈ ([t1, t2, t3] : List ℕ),
        (translateIds st [t1, t2, t3] D).read j = (st.read j).add D :=
      fun j hj => translateIds_read_mem _ _ _ _ hnd hbt hj
    rw [hA a3 (by simp), hA a1 (by simp), hA a2 (by simp),
      hT t3 (by simp), hT t1 (by simp), hT t2 (by simp),
      Coordinate.orthogonalProjection_add, ← hD,
      Coordinate.add_subtract_cancel]
  | some aid =>
    dsimp only
    obtain ⟨haidT, haidA⟩ := hanch aid rfl
    have hA : ∀ i ∈ ([a1, a2, a3] : List ℕ),
        ((translateIds st [t1, t2, t3] D).write aid
          (((translateIds st [t1, t2, t3] D).read aid).add D)).read i =
          st.read i :=
      fun i hi => (Store.read_write_ne _ _ _ _ (haidA i hi)).trans
        (translateIds_read_notMem _ _ _ _ (hna i hi))
    have hT : ∀ j ∈ ([t1, t2, t3] : List ℕ),
        ((translateIds st [t1, t2, t3] D).write aid
          (((translateIds st [t1, t2, t3] D).read aid).add D)).read j =
          (st.read j).add D :=
      fun j hj => (Store.read_write_ne _ _ _ _
          (fun he => haidT (by rw [← he]; exact hj))).trans
        (translateIds_read_mem _ _ _ _ hnd hbt hj)
    rw [hA a3 (by simp), hA a1 (by simp), hA a2 (by simp),
      hT t3 (by simp), hT t1 (by simp), hT t2 (by simp),
      Coordinate.orthogonalProjection_add, ← hD,
      Coordinate.add_subtract_cancel]

/-- The two line-crossing points coincide after `placeTriangles`, for every
placement transform, trig oracle, starting heap and three-pin mapper. -/
theorem alignment_invariant_general (trig : ℚ → ℚ × ℚ)
    (m : ABLTransistorMapperV) (placement : Placement) (s : Store)
    (h3 : m.pins.length = 3) (ht3 : m.tikzTransistor.pins.length = 3) :
    lineCrossingAt (ABLTransistorMapper.placeTriangles trig m placement s).store
        (ABLTransistorMapper.placeTriangles trig m placement s).ablIds =
      lineCrossingAt (ABLTransistorMapper.placeTriangles trig m placement s).store
        (ABLTransistorMapper.placeTriangles trig m placement s).tplIds := by
  unfold ABLTransistorMapper.placeTriangles
  dsimp only
  set ap := ABLTransistorMapper.placeAbl trig m placement s with hap
  set tp := Transistor.transformH trig m.tikzTransistor ap.angle
    placement.mirrorX placement.mirrorY ap.store with htp
  obtain ⟨haids, halen⟩ := placeAbl_spec trig m placement s
  rw [← hap] at haids halen
  obtain ⟨htids, hanch, htlen⟩ := transformH_spec trig m.tikzTransistor ap.angle
    placement.mirrorX placement.mirrorY ap.store
  rw [← htp] at htids hanch htlen
  rw [h3] at haids
  rw [ht3] at htids htlen
  clear_value tp ap
  have hA : ap.ablIds = ([s.cells.length + 1, s.cells.length + 1 + 1,
      s.cells.length + 1 + 1 + 1] : List Nat) := haids
  have hT : tp.tplIds = ([ap.store.cells.length, ap.store.cells.length + 1,
      ap.store.cells.length + 1 + 1] : List Nat) := htids
  have hge : ap.store.cells.length + 3 ≤ tp.store.cells.length := by
    cases hx : m.tikzTransistor.anchorNr <;> simp only [hx] at htlen <;> omega
  rw [hA, hT]
  refine translateTransistor_align tp.store (s.cells.length + 1)
    (s.cells.length + 1 + 1) (s.cells.length + 1 + 1 + 1)
    ap.store.cells.length (ap.store.cells.length + 1)
    (ap.store.cells.length + 1 + 1) tp.anchorId ?_ ?_ ?_ ?_
  · simp only [List.nodup_cons, List.mem_cons, List.not_mem_nil, or_false,
      List.nodup_nil, and_true, not_or, not_false_eq_true]
    omega
  · intro k hk
    simp only [List.mem_cons, List.not_mem_nil, or_false] at hk
    rcases hk with rfl | rfl | rfl <;> omega
  · intro i hi
    simp only [List.mem_cons, List.not_mem_nil, or_false] at hi ⊢
    push_neg
    rcases hi with rfl | rfl | rfl <;> omega
  · intro aid he
    rw [hanch] at he
    cases hx : m.tikzTransistor.anchorNr with
    | some n => rw [hx] at he; exact Option.noConfusion he
    | none =>
      rw [hx] at he
      have haid : aid = ap.store.cells.length + m.tikzTransistor.pins.length :=
        (Option.some.inj he).symm
      rw [ht3] at haid
      subst haid
      constructor
      · simp only [List.mem_cons, List.not_mem_nil, or_false, not_or,
          not_false_eq_true]
        omega
      · intro i hi
        simp only [List.mem_cons, List.not_mem_nil, or_false] at hi
        rcases hi with rfl | rfl | rfl <;> omega

end Abl2Tikz

namespace Abl2Tikz

/-- C3: after the oriented three-terminal placement pipeline (anatomical
triangle scaled/rotated/mirrored/translated; render template
rotated/mirrored without scaling, then translated so the crossings
coincide), the anatomical triangle's line-crossing point — the orthogonal
projection of the tap terminal onto the line through the other two — is
coordinate-equal to the aligned render template's line-crossing point, for
every placement transform, every trig oracle, every starting heap and
every three-pin mapper. -/
theorem oriented_alignment_invariant (trig : ℚ → ℚ × ℚ)
    (m : ABLTransistorMapperV) (placement : Placement) (s : Store)
    (h3 : m.pins.length = 3) (ht3 : m.tikzTransistor.pins.length = 3) :
    lineCrossingAt (ABLTransistorMapper.placeTriangles trig m placement s).store
        (ABLTransistorMapper.placeTriangles trig m placement s).ablIds =
      lineCrossingAt (ABLTransistorMapper.placeTriangles trig m placement s).store
        (ABLTransistorMapper.placeTriangles trig m placement s).tplIds :=
  alignment_invariant_general trig m placement s h3 ht3

/-- Witness for the C3 invariant on the catalog BJT mapper with the
identity placement and the demo heap. -/
theorem oriented_alignment_invariant_witness :
    demoMapper.pins.length = 3 ∧ demoMapper.tikzTransistor.pins.length = 3 ∧
    lineCrossingAt (ABLTransistorMapper.placeTriangles idTrig demoMapper
          demoPlacement demoStore).store
        (ABLTransistorMapper.placeTriangles idTrig demoMapper demoPlacement
          demoStore).ablIds =
      lineCrossingAt (ABLTransistorMapper.placeTriangles idTrig demoMapper
          demoPlacement demoStore).store
        (ABLTransistorMapper.placeTriangles idTrig demoMapper demoPlacement
          demoStore).tplIds :=
  ⟨rfl, rfl,
    oriented_alignment_invariant idTrig demoMapper demoPlacement demoStore
      rfl rfl⟩

end Abl2Tikz

namespace Abl2Tikz

/-! ## C7: the mirrorX scenario -/

/-- A symbolic oriented mapper in catalog shape: anatomical top/bottom pins
at `(u1, v1)`, `(u2, v2)`, tap/anchor pin at the origin (anchor index 2);
template pins at `(w1, z1)`, `(w2, z2)`, tap at the origin, `anchorNr`
null with `anchorCoord (0, 0)` (as `Transistor.fromStruct` builds it). -/
def c7mapper (u1 v1 u2 v2 w1 z1 w2 z2 : ℚ) : ABLTransistorMapperV :=
  ⟨⟨"npn", [⟨⟨w1, z1⟩, "", 0⟩, ⟨⟨w2, z2⟩, "", 0⟩, ⟨⟨0, 0⟩, "", 0⟩],
    ["C", "E", "B"], none, ⟨0, 0⟩⟩,
   [⟨⟨u1, v1⟩, "", 1⟩, ⟨⟨u2, v2⟩, "", 3⟩, ⟨⟨0, 0⟩, "", 2⟩], 2⟩

/-- A placement at angle 0 with the given translation/scales and an
optional X mirror. -/
def c7placement (x y xs ys sc : ℚ) (mx : Bool) : Placement :=
  ⟨x, y, 0, xs, ys, mx, false, sc⟩

/-- The oriented pipeline run on the symbolic mapper from an empty heap. -/
def c7run (u1 v1 u2 v2 w1 z1 w2 z2 x y xs ys sc : ℚ) (mx : Bool) :
    TrianglesPlaced :=
  ABLTransistorMapper.placeTriangles idTrig
    (c7mapper u1 v1 u2 v2 w1 z1 w2 z2) (c7placement x y xs ys sc mx) ⟨[], []⟩

end Abl2Tikz

namespace Abl2Tikz

theorem normalizeAngle_zero : normalizeAngle 0 = 0 := by
  norm_num [normalizeAngle]

set_option maxHeartbeats 4000000 in
/-- C7: for an oriented three-terminal instance placed with `mirrorX`
(angle 0, arbitrary translation and scale factors, anatomical tap pin and
template anchor at the origin as in the catalog, arbitrary triangle
shapes), both the anatomical and the render template triangle end up with
their Y components inverted around the shared line-crossing point — every
pin keeps its X offset from the crossing and negates its Y offset,
compared with the unmirrored placement — and the two triangles'
line-crossing points remain coincident after the mirroring. -/
theorem mirrorX_scenario (u1 v1 u2 v2 w1 z1 w2 z2 x y xs ys sc : ℚ) :
    lineCrossingAt (c7run u1 v1 u2 v2 w1 z1 w2 z2 x y xs ys sc true).store (c7run u1 v1 u2 v2 w1 z1 w2 z2 x y xs ys sc true).ablIds =
      lineCrossingAt (c7run u1 v1 u2 v2 w1 z1 w2 z2 x y xs ys sc true).store (c7run u1 v1 u2 v2 w1 z1 w2 z2 x y xs ys sc true).tplIds ∧
    (∀ i, i < 3 →
      (((c7run u1 v1 u2 v2 w1 z1 w2 z2 x y xs ys sc true).store.read ((c7run u1 v1 u2 v2 w1 z1 w2 z2 x y xs ys sc true).ablIds.getD i 0)).x -
          (lineCrossingAt (c7run u1 v1 u2 v2 w1 z1 w2 z2 x y xs ys sc true).store (c7run u1 v1 u2 v2 w1 z1 w2 z2 x y xs ys sc true).ablIds).x =
        ((c7run u1 v1 u2 v2 w1 z1 w2 z2 x y xs ys sc false).store.read ((c7run u1 v1 u2 v2 w1 z1 w2 z2 x y xs ys sc false).ablIds.getD i 0)).x -
          (lineCrossingAt (c7run u1 v1 u2 v2 w1 z1 w2 z2 x y xs ys sc false).store (c7run u1 v1 u2 v2 w1 z1 w2 z2 x y xs ys sc false).ablIds).x) ∧
      (((c7run u1 v1 u2 v2 w1 z1 w2 z2 x y xs ys sc true).store.read ((c7run u1 v1 u2 v2 w1 z1 w2 z2 x y xs ys sc true).ablIds.getD i 0)).y -
          (lineCrossingAt (c7run u1 v1 u2 v2 w1 z1 w2 z2 x y xs ys sc true).store (c7run u1 v1 u2 v2 w1 z1 w2 z2 x y xs ys sc true).ablIds).y =
        -(((c7run u1 v1 u2 v2 w1 z1 w2 z2 x y xs ys sc false).store.read ((c7run u1 v1 u2 v2 w1 z1 w2 z2 x y xs ys sc false).ablIds.getD i 0)).y -
          (lineCrossingAt (c7run u1 v1 u2 v2 w1 z1 w2 z2 x y xs ys sc false).store (c7run u1 v1 u2 v2 w1 z1 w2 z2 x y xs ys sc false).ablIds).y))) ∧
    (∀ i, i < 3 →
      (((c7run u1 v1 u2 v2 w1 z1 w2 z2 x y xs ys sc true).store.read ((c7run u1 v1 u2 v2 w1 z1 w2 z2 x y xs ys sc true).tplIds.getD i 0)).x -
          (lineCrossingAt (c7run u1 v1 u2 v2 w1 z1 w2 z2 x y xs ys sc true).store (c7run u1 v1 u2 v2 w1 z1 w2 z2 x y xs ys sc true).tplIds).x =
        ((c7run u1 v1 u2 v2 w1 z1 w2 z2 x y xs ys sc false).store.read ((c7run u1 v1 u2 v2 w1 z1 w2 z2 x y xs ys sc false).tplIds.getD i 0)).x -
          (lineCrossingAt (c7run u1 v1 u2 v2 w1 z1 w2 z2 x y xs ys sc false).store (c7run u1 v1 u2 v2 w1 z1 w2 z2 x y xs ys sc false).tplIds).x) ∧
      (((c7run u1 v1 u2 v2 w1 z1 w2 z2 x y xs ys sc true).store.read ((c7run u1 v1 u2 v2 w1 z1 w2 z2 x y xs ys sc true).tplIds.getD i 0)).y -
          (lineCrossingAt (c7run u1 v1 u2 v2 w1 z1 w2 z2 x y xs ys sc true).store (c7run u1 v1 u2 v2 w1 z1 w2 z2 x y xs ys sc true).tplIds).y =
        -(((c7run u1 v1 u2 v2 w1 z1 w2 z2 x y xs ys sc false).store.read ((c7run u1 v1 u2 v2 w1 z1 w2 z2 x y xs ys sc false).tplIds.getD i 0)).y -
          (lineCrossingAt (c7run u1 v1 u2 v2 w1 z1 w2 z2 x y xs ys sc false).store (c7run u1 v1 u2 v2 w1 z1 w2 z2 x y xs ys sc false).tplIds).y))) := by
  have hAT : ABLTransistorMapper.placeAbl idTrig
      (c7mapper u1 v1 u2 v2 w1 z1 w2 z2) ⟨x, y, 0, xs, ys, true, false, sc⟩
      ⟨[], []⟩ = ⟨(⟨[⟨x * sc, y * sc⟩, ⟨u1 * (xs * sc) - 0 * (xs * sc) + 0 * (xs * sc) + x * sc,
        -(v1 * (ys * sc) - 0 * (ys * sc)) + 0 * (ys * sc) + y * sc⟩, ⟨u2 * (xs * sc) - 0 * (xs * sc) + 0 * (xs * sc) + x * sc,
        -(v2 * (ys * sc) - 0 * (ys * sc)) + 0 * (ys * sc) + y * sc⟩, ⟨0 + x * sc, 0 + y * sc⟩], []⟩ : Store), 0, [1, 2, 3], 0⟩ := by
    simp only [c7mapper, c7placement, ABLTransistorMapper.placeAbl,
      Transistor.transformH, allocPins, scaleIds, rotateIds, mirrorStep,
      mirrorSweep, translateIds, Store.read, Store.alloc, Store.write,
      Coordinate.scale, Coordinate.scaleUniform, Coordinate.add,
      Coordinate.subtract, Coordinate.mirrorXv, Coordinate.mirrorYv,
      Coordinate.rotate, idTrig, List.filter, List.map, List.foldl, List.set,
      List.getD, List.get?, Option.getD, normalizeAngle_zero, List.nil_append,
      List.cons_append, List.append_nil, List.singleton_append, List.append_eq,
      List.length_cons, List.length_nil, Bool.false_eq_true, Bool.true_eq_false,
      Nat.reduceAdd, Nat.reduceEqDiff, show List.range 3 = [0, 1, 2] from rfl,
      eq_self_iff_true, if_true, if_false, Bool.or_false, Bool.false_or,
      Bool.or_true, Bool.true_or, reduceIte]
  have hAF : ABLTransistorMapper.placeAbl idTrig
      (c7mapper u1 v1 u2 v2 w1 z1 w2 z2) ⟨x, y, 0, xs, ys, false, false, sc⟩
      ⟨[], []⟩ = ⟨(⟨[⟨x * sc, y * sc⟩, ⟨u1 * (xs * sc) + x * sc, v1 * (ys * sc) + y * sc⟩, ⟨u2 * (xs * sc) + x * sc, v2 * (ys * sc) + y * sc⟩, ⟨0 * (xs * sc) + x * sc, 0 * (ys * sc) + y * sc⟩], []⟩ : Store), 0, [1, 2, 3], 0⟩ := by
    simp only [c7mapper, c7placement, ABLTransistorMapper.placeAbl,
      Transistor.transformH, allocPins, scaleIds, rotateIds, mirrorStep,
      mirrorSweep, translateIds, Store.read, Store.alloc, Store.write,
      Coordinate.scale, Coordinate.scaleUniform, Coordinate.add,
      Coordinate.subtract, Coordinate.mirrorXv, Coordinate.mirrorYv,
      Coordinate.rotate, idTrig, List.filter, List.map, List.foldl, List.set,
      List.getD, List.get?, Option.getD, normalizeAngle_zero, List.nil_append,
      List.cons_append, List.append_nil, List.singleton_append, List.append_eq,
      List.length_cons, List.length_nil, Bool.false_eq_true, Bool.true_eq_false,
      Nat.reduceAdd, Nat.reduceEqDiff, show List.range 3 = [0, 1, 2] from rfl,
      eq_self_iff_true, if_true, if_false, Bool.or_false, Bool.false_or,
      Bool.or_true, Bool.true_or, reduceIte]
  have hXT : Transistor.transformH idTrig
      (c7mapper u1 v1 u2 v2 w1 z1 w2 z2).tikzTransistor 0 true false (⟨[⟨x * sc, y * sc⟩, ⟨u1 * (xs * sc) - 0 * (xs * sc) + 0 * (xs * sc) + x * sc,
        -(v1 * (ys * sc) - 0 * (ys * sc)) + 0 * (ys * sc) + y * sc⟩, ⟨u2 * (xs * sc) - 0 * (xs * sc) + 0 * (xs * sc) + x * sc,
        -(v2 * (ys * sc) - 0 * (ys * sc)) + 0 * (ys * sc) + y * sc⟩, ⟨0 + x * sc, 0 + y * sc⟩], []⟩ : Store) =
      ⟨(⟨[⟨x * sc, y * sc⟩, ⟨u1 * (xs * sc) - 0 * (xs * sc) + 0 * (xs * sc) + x * sc,
        -(v1 * (ys * sc) - 0 * (ys * sc)) + 0 * (ys * sc) + y * sc⟩, ⟨u2 * (xs * sc) - 0 * (xs * sc) + 0 * (xs * sc) + x * sc,
        -(v2 * (ys * sc) - 0 * (ys * sc)) + 0 * (ys * sc) + y * sc⟩, ⟨0 + x * sc, 0 + y * sc⟩, ⟨w1 - 0 + 0, -(z1 - 0) + 0⟩, ⟨w2 - 0 + 0, -(z2 - 0) + 0⟩, ⟨0 - 0 + 0, -(0 - 0) + 0⟩, ⟨0, 0⟩], []⟩ : Store), [4, 5, 6], some 7⟩ := by
    simp only [c7mapper, c7placement, ABLTransistorMapper.placeAbl,
      Transistor.transformH, allocPins, scaleIds, rotateIds, mirrorStep,
      mirrorSweep, translateIds, Store.read, Store.alloc, Store.write,
      Coordinate.scale, Coordinate.scaleUniform, Coordinate.add,
      Coordinate.subtract, Coordinate.mirrorXv, Coordinate.mirrorYv,
      Coordinate.rotate, idTrig, List.filter, List.map, List.foldl, List.set,
      List.getD, List.get?, Option.getD, normalizeAngle_zero, List.nil_append,
      List.cons_append, List.append_nil, List.singleton_append, List.append_eq,
      List.length_cons, List.length_nil, Bool.false_eq_true, Bool.true_eq_false,
      Nat.reduceAdd, Nat.reduceEqDiff, show List.range 3 = [0, 1, 2] from rfl,
      eq_self_iff_true, if_true, if_false, Bool.or_false, Bool.false_or,
      Bool.or_true, Bool.true_or, reduceIte]
  have hXF : Transistor.transformH idTrig
      (c7mapper u1 v1 u2 v2 w1 z1 w2 z2).tikzTransistor 0 false false (⟨[⟨x * sc, y * sc⟩, ⟨u1 * (xs * sc) + x * sc, v1 * (ys * sc) + y * sc⟩, ⟨u2 * (xs * sc) + x * sc, v2 * (ys * sc) + y * sc⟩, ⟨0 * (xs * sc) + x * sc, 0 * (ys * sc) + y * sc⟩], []⟩ : Store) =
      ⟨(⟨[⟨x * sc, y * sc⟩, ⟨u1 * (xs * sc) + x * sc, v1 * (ys * sc) + y * sc⟩, ⟨u2 * (xs * sc) + x * sc, v2 * (ys * sc) + y * sc⟩, ⟨0 * (xs * sc) + x * sc, 0 * (ys * sc) + y * sc⟩, ⟨w1, z1⟩, ⟨w2, z2⟩, ⟨0, 0⟩, ⟨0, 0⟩], []⟩ : Store), [4, 5, 6], some 7⟩ := by
    simp only [c7mapper, c7placement, ABLTransistorMapper.placeAbl,
      Transistor.transformH, allocPins, scaleIds, rotateIds, mirrorStep,
      mirrorSweep, translateIds, Store.read, Store.alloc, Store.write,
      Coordinate.scale, Coordinate.scaleUniform, Coordinate.add,
      Coordinate.subtract, Coordinate.mirrorXv, Coordinate.mirrorYv,
      Coordinate.rotate, idTrig, List.filter, List.map, List.foldl, List.set,
      List.getD, List.get?, Option.getD, normalizeAngle_zero, List.nil_append,
      List.cons_append, List.append_nil, List.singleton_append, List.append_eq,
      List.length_cons, List.length_nil, Bool.false_eq_true, Bool.true_eq_false,
      Nat.reduceAdd, Nat.reduceEqDiff, show List.range 3 = [0, 1, 2] from rfl,
      eq_self_iff_true, if_true, if_false, Bool.or_false, Bool.false_or,
      Bool.or_true, Bool.true_or, reduceIte]
  have hrunT : c7run u1 v1 u2 v2 w1 z1 w2 z2 x y xs ys sc true =
      ⟨(translateTransistor (⟨[⟨x * sc, y * sc⟩, ⟨u1 * (xs * sc) - 0 * (xs * sc) + 0 * (xs * sc) + x * sc,
        -(v1 * (ys * sc) - 0 * (ys * sc)) + 0 * (ys * sc) + y * sc⟩, ⟨u2 * (xs * sc) - 0 * (xs * sc) + 0 * (xs * sc) + x * sc,
        -(v2 * (ys * sc) - 0 * (ys * sc)) + 0 * (ys * sc) + y * sc⟩, ⟨0 + x * sc, 0 + y * sc⟩, ⟨w1 - 0 + 0, -(z1 - 0) + 0⟩, ⟨w2 - 0 + 0, -(z2 - 0) + 0⟩, ⟨0 - 0 + 0, -(0 - 0) + 0⟩, ⟨0, 0⟩], []⟩ : Store) [4, 5, 6] (some 7) ((lineCrossingAt (⟨[⟨x * sc, y * sc⟩, ⟨u1 * (xs * sc) - 0 * (xs * sc) + 0 * (xs * sc) + x * sc,
        -(v1 * (ys * sc) - 0 * (ys * sc)) + 0 * (ys * sc) + y * sc⟩, ⟨u2 * (xs * sc) - 0 * (xs * sc) + 0 * (xs * sc) + x * sc,
        -(v2 * (ys * sc) - 0 * (ys * sc)) + 0 * (ys * sc) + y * sc⟩, ⟨0 + x * sc, 0 + y * sc⟩, ⟨w1 - 0 + 0, -(z1 - 0) + 0⟩, ⟨w2 - 0 + 0, -(z2 - 0) + 0⟩, ⟨0 - 0 + 0, -(0 - 0) + 0⟩, ⟨0, 0⟩], []⟩ : Store) [1, 2, 3]).subtract (lineCrossingAt (⟨[⟨x * sc, y * sc⟩, ⟨u1 * (xs * sc) - 0 * (xs * sc) + 0 * (xs * sc) + x * sc,
        -(v1 * (ys * sc) - 0 * (ys * sc)) + 0 * (ys * sc) + y * sc⟩, ⟨u2 * (xs * sc) - 0 * (xs * sc) + 0 * (xs * sc) + x * sc,
        -(v2 * (ys * sc) - 0 * (ys * sc)) + 0 * (ys * sc) + y * sc⟩, ⟨0 + x * sc, 0 + y * sc⟩, ⟨w1 - 0 + 0, -(z1 - 0) + 0⟩, ⟨w2 - 0 + 0, -(z2 - 0) + 0⟩, ⟨0 - 0 + 0, -(0 - 0) + 0⟩, ⟨0, 0⟩], []⟩ : Store) [4, 5, 6]))), 0, [1, 2, 3], [4, 5, 6], some 7, 0⟩ := by
    simp only [c7run, ABLTransistorMapper.placeTriangles, c7placement, hAT, hXT]
  have hrunF : c7run u1 v1 u2 v2 w1 z1 w2 z2 x y xs ys sc false =
      ⟨(translateTransistor (⟨[⟨x * sc, y * sc⟩, ⟨u1 * (xs * sc) + x * sc, v1 * (ys * sc) + y * sc⟩, ⟨u2 * (xs * sc) + x * sc, v2 * (ys * sc) + y * sc⟩, ⟨0 * (xs * sc) + x * sc, 0 * (ys * sc) + y * sc⟩, ⟨w1, z1⟩, ⟨w2, z2⟩, ⟨0, 0⟩, ⟨0, 0⟩], []⟩ : Store) [4, 5, 6] (some 7) ((lineCrossingAt (⟨[⟨x * sc, y * sc⟩, ⟨u1 * (xs * sc) + x * sc, v1 * (ys * sc) + y * sc⟩, ⟨u2 * (xs * sc) + x * sc, v2 * (ys * sc) + y * sc⟩, ⟨0 * (xs * sc) + x * sc, 0 * (ys * sc) + y * sc⟩, ⟨w1, z1⟩, ⟨w2, z2⟩, ⟨0, 0⟩, ⟨0, 0⟩], []⟩ : Store) [1, 2, 3]).subtract (lineCrossingAt (⟨[⟨x * sc, y * sc⟩, ⟨u1 * (xs * sc) + x * sc, v1 * (ys * sc) + y * sc⟩, ⟨u2 * (xs * sc) + x * sc, v2 * (ys * sc) + y * sc⟩, ⟨0 * (xs * sc) + x * sc, 0 * (ys * sc) + y * sc⟩, ⟨w1, z1⟩, ⟨w2, z2⟩, ⟨0, 0⟩, ⟨0, 0⟩], []⟩ : Store) [4, 5, 6]))), 0, [1, 2, 3], [4, 5, 6], some 7, 0⟩ := by
    simp only [c7run, ABLTransistorMapper.placeTriangles, c7placement, hAF, hXF]
  have hT1 : (translateTransistor (⟨[⟨x * sc, y * sc⟩, ⟨u1 * (xs * sc) - 0 * (xs * sc) + 0 * (xs * sc) + x * sc,
        -(v1 * (ys * sc) - 0 * (ys * sc)) + 0 * (ys * sc) + y * sc⟩, ⟨u2 * (xs * sc) - 0 * (xs * sc) + 0 * (xs * sc) + x * sc,
        -(v2 * (ys * sc) - 0 * (ys * sc)) + 0 * (ys * sc) + y * sc⟩, ⟨0 + x * sc, 0 + y * sc⟩, ⟨w1 - 0 + 0, -(z1 - 0) + 0⟩, ⟨w2 - 0 + 0, -(z2 - 0) + 0⟩, ⟨0 - 0 + 0, -(0 - 0) + 0⟩, ⟨0, 0⟩], []⟩ : Store) [4, 5, 6] (some 7) ((lineCrossingAt (⟨[⟨x * sc, y * sc⟩, ⟨u1 * (xs * sc) - 0 * (xs * sc) + 0 * (xs * sc) + x * sc,
        -(v1 * (ys * sc) - 0 * (ys * sc)) + 0 * (ys * sc) + y * sc⟩, ⟨u2 * (xs * sc) - 0 * (xs * sc) + 0 * (xs * sc) + x * sc,
        -(v2 * (ys * sc) - 0 * (ys * sc)) + 0 * (ys * sc) + y * sc⟩, ⟨0 + x * sc, 0 + y * sc⟩, ⟨w1 - 0 + 0, -(z1 - 0) + 0⟩, ⟨w2 - 0 + 0, -(z2 - 0) + 0⟩, ⟨0 - 0 + 0, -(0 - 0) + 0⟩, ⟨0, 0⟩], []⟩ : Store) [1, 2, 3]).subtract (lineCrossingAt (⟨[⟨x * sc, y * sc⟩, ⟨u1 * (xs * sc) - 0 * (xs * sc) + 0 * (xs * sc) + x * sc,
        -(v1 * (ys * sc) - 0 * (ys * sc)) + 0 * (ys * sc) + y * sc⟩, ⟨u2 * (xs * sc) - 0 * (xs * sc) + 0 * (xs * sc) + x * sc,
        -(v2 * (ys * sc) - 0 * (ys * sc)) + 0 * (ys * sc) + y * sc⟩, ⟨0 + x * sc, 0 + y * sc⟩, ⟨w1 - 0 + 0, -(z1 - 0) + 0⟩, ⟨w2 - 0 + 0, -(z2 - 0) + 0⟩, ⟨0 - 0 + 0, -(0 - 0) + 0⟩, ⟨0, 0⟩], []⟩ : Store) [4, 5, 6]))).read 1 = (⟨[⟨x * sc, y * sc⟩, ⟨u1 * (xs * sc) - 0 * (xs * sc) + 0 * (xs * sc) + x * sc,
        -(v1 * (ys * sc) - 0 * (ys * sc)) + 0 * (ys * sc) + y * sc⟩, ⟨u2 * (xs * sc) - 0 * (xs * sc) + 0 * (xs * sc) + x * sc,
        -(v2 * (ys * sc) - 0 * (ys * sc)) + 0 * (ys * sc) + y * sc⟩, ⟨0 + x * sc, 0 + y * sc⟩, ⟨w1 - 0 + 0, -(z1 - 0) + 0⟩, ⟨w2 - 0 + 0, -(z2 - 0) + 0⟩, ⟨0 - 0 + 0, -(0 - 0) + 0⟩, ⟨0, 0⟩], []⟩ : Store).read 1 := by
    unfold translateTransistor
    dsimp only
    rw [Store.read_write_ne _ _ _ _ (by decide)]
    exact translateIds_read_notMem _ _ _ _ (by decide)
  have hT2 : (translateTransistor (⟨[⟨x * sc, y * sc⟩, ⟨u1 * (xs * sc) - 0 * (xs * sc) + 0 * (xs * sc) + x * sc,
        -(v1 * (ys * sc) - 0 * (ys * sc)) + 0 * (ys * sc) + y * sc⟩, ⟨u2 * (xs * sc) - 0 * (xs * sc) + 0 * (xs * sc) + x * sc,
        -(v2 * (ys * sc) - 0 * (ys * sc)) + 0 * (ys * sc) + y * sc⟩, ⟨0 + x * sc, 0 + y * sc⟩, ⟨w1 - 0 + 0, -(z1 - 0) + 0⟩, ⟨w2 - 0 + 0, -(z2 - 0) + 0⟩, ⟨0 - 0 + 0, -(0 - 0) + 0⟩, ⟨0, 0⟩], []⟩ : Store) [4, 5, 6] (some 7) ((lineCrossingAt (⟨[⟨x * sc, y * sc⟩, ⟨u1 * (xs * sc) - 0 * (xs * sc) + 0 * (xs * sc) + x * sc,
        -(v1 * (ys * sc) - 0 * (ys * sc)) + 0 * (ys * sc) + y * sc⟩, ⟨u2 * (xs * sc) - 0 * (xs * sc) + 0 * (xs * sc) + x * sc,
        -(v2 * (ys * sc) - 0 * (ys * sc)) + 0 * (ys * sc) + y * sc⟩, ⟨0 + x * sc, 0 + y * sc⟩, ⟨w1 - 0 + 0, -(z1 - 0) + 0⟩, ⟨w2 - 0 + 0, -(z2 - 0) + 0⟩, ⟨0 - 0 + 0, -(0 - 0) + 0⟩, ⟨0, 0⟩], []⟩ : Store) [1, 2, 3]).subtract (lineCrossingAt (⟨[⟨x * sc, y * sc⟩, ⟨u1 * (xs * sc) - 0 * (xs * sc) + 0 * (xs * sc) + x * sc,
        -(v1 * (ys * sc) - 0 * (ys * sc)) + 0 * (ys * sc) + y * sc⟩, ⟨u2 * (xs * sc) - 0 * (xs * sc) + 0 * (xs * sc) + x * sc,
        -(v2 * (ys * sc) - 0 * (ys * sc)) + 0 * (ys * sc) + y * sc⟩, ⟨0 + x * sc, 0 + y * sc⟩, ⟨w1 - 0 + 0, -(z1 - 0) + 0⟩, ⟨w2 - 0 + 0, -(z2 - 0) + 0⟩, ⟨0 - 0 + 0, -(0 - 0) + 0⟩, ⟨0, 0⟩], []⟩ : Store) [4, 5, 6]))).read 2 = (⟨[⟨x * sc, y * sc⟩, ⟨u1 * (xs * sc) - 0 * (xs * sc) + 0 * (xs * sc) + x * sc,
        -(v1 * (ys * sc) - 0 * (ys * sc)) + 0 * (ys * sc) + y * sc⟩, ⟨u2 * (xs * sc) - 0 * (xs * sc) + 0 * (xs * sc) + x * sc,
        -(v2 * (ys * sc) - 0 * (ys * sc)) + 0 * (ys * sc) + y * sc⟩, ⟨0 + x * sc, 0 + y * sc⟩, ⟨w1 - 0 + 0, -(z1 - 0) + 0⟩, ⟨w2 - 0 + 0, -(z2 - 0) + 0⟩, ⟨0 - 0 + 0, -(0 - 0) + 0⟩, ⟨0, 0⟩], []⟩ : Store).read 2 := by
    unfold translateTransistor
    dsimp only
    rw [Store.read_write_ne _ _ _ _ (by decide)]
    exact translateIds_read_notMem _ _ _ _ (by decide)
  have hT3 : (translateTransistor (⟨[⟨x * sc, y * sc⟩, ⟨u1 * (xs * sc) - 0 * (xs * sc) + 0 * (xs * sc) + x * sc,
        -(v1 * (ys * sc) - 0 * (ys * sc)) + 0 * (ys * sc) + y * sc⟩, ⟨u2 * (xs * sc) - 0 * (xs * sc) + 0 * (xs * sc) + x * sc,
        -(v2 * (ys * sc) - 0 * (ys * sc)) + 0 * (ys * sc) + y * sc⟩, ⟨0 + x * sc, 0 + y * sc⟩, ⟨w1 - 0 + 0, -(z1 - 0) + 0⟩, ⟨w2 - 0 + 0, -(z2 - 0) + 0⟩, ⟨0 - 0 + 0, -(0 - 0) + 0⟩, ⟨0, 0⟩], []⟩ : Store) [4, 5, 6] (some 7) ((lineCrossingAt (⟨[⟨x * sc, y * sc⟩, ⟨u1 * (xs * sc) - 0 * (xs * sc) + 0 * (xs * sc) + x * sc,
        -(v1 * (ys * sc) - 0 * (ys * sc)) + 0 * (ys * sc) + y * sc⟩, ⟨u2 * (xs * sc) - 0 * (xs * sc) + 0 * (xs * sc) + x * sc,
        -(v2 * (ys * sc) - 0 * (ys * sc)) + 0 * (ys * sc) + y * sc⟩, ⟨0 + x * sc, 0 + y * sc⟩, ⟨w1 - 0 + 0, -(z1 - 0) + 0⟩, ⟨w2 - 0 + 0, -(z2 - 0) + 0⟩, ⟨0 - 0 + 0, -(0 - 0) + 0⟩, ⟨0, 0⟩], []⟩ : Store) [1, 2, 3]).subtract (lineCrossingAt (⟨[⟨x * sc, y * sc⟩, ⟨u1 * (xs * sc) - 0 * (xs * sc) + 0 * (xs * sc) + x * sc,
        -(v1 * (ys * sc) - 0 * (ys * sc)) + 0 * (ys * sc) + y * sc⟩, ⟨u2 * (xs * sc) - 0 * (xs * sc) + 0 * (xs * sc) + x * sc,
        -(v2 * (ys * sc) - 0 * (ys * sc)) + 0 * (ys * sc) + y * sc⟩, ⟨0 + x * sc, 0 + y * sc⟩, ⟨w1 - 0 + 0, -(z1 - 0) + 0⟩, ⟨w2 - 0 + 0, -(z2 - 0) + 0⟩, ⟨0 - 0 + 0, -(0 - 0) + 0⟩, ⟨0, 0⟩], []⟩ : Store) [4, 5, 6]))).read 3 = (⟨[⟨x * sc, y * sc⟩, ⟨u1 * (xs * sc) - 0 * (xs * sc) + 0 * (xs * sc) + x * sc,
        -(v1 * (ys * sc) - 0 * (ys * sc)) + 0 * (ys * sc) + y * sc⟩, ⟨u2 * (xs * sc) - 0 * (xs * sc) + 0 * (xs * sc) + x * sc,
        -(v2 * (ys * sc) - 0 * (ys * sc)) + 0 * (ys * sc) + y * sc⟩, ⟨0 + x * sc, 0 + y * sc⟩, ⟨w1 - 0 + 0, -(z1 - 0) + 0⟩, ⟨w2 - 0 + 0, -(z2 - 0) + 0⟩, ⟨0 - 0 + 0, -(0 - 0) + 0⟩, ⟨0, 0⟩], []⟩ : Store).read 3 := by
    unfold translateTransistor
    dsimp only
    rw [Store.read_write_ne _ _ _ _ (by decide)]
    exact translateIds_read_notMem _ _ _ _ (by decide)
  have hT4 : (translateTransistor (⟨[⟨x * sc, y * sc⟩, ⟨u1 * (xs * sc) - 0 * (xs * sc) + 0 * (xs * sc) + x * sc,
        -(v1 * (ys * sc) - 0 * (ys * sc)) + 0 * (ys * sc) + y * sc⟩, ⟨u2 * (xs * sc) - 0 * (xs * sc) + 0 * (xs * sc) + x * sc,
        -(v2 * (ys * sc) - 0 * (ys * sc)) + 0 * (ys * sc) + y * sc⟩, ⟨0 + x * sc, 0 + y * sc⟩, ⟨w1 - 0 + 0, -(z1 - 0) + 0⟩, ⟨w2 - 0 + 0, -(z2 - 0) + 0⟩, ⟨0 - 0 + 0, -(0 - 0) + 0⟩, ⟨0, 0⟩], []⟩ : Store) [4, 5, 6] (some 7) ((lineCrossingAt (⟨[⟨x * sc, y * sc⟩, ⟨u1 * (xs * sc) - 0 * (xs * sc) + 0 * (xs * sc) + x * sc,
        -(v1 * (ys * sc) - 0 * (ys * sc)) + 0 * (ys * sc) + y * sc⟩, ⟨u2 * (xs * sc) - 0 * (xs * sc) + 0 * (xs * sc) + x * sc,
        -(v2 * (ys * sc) - 0 * (ys * sc)) + 0 * (ys * sc) + y * sc⟩, ⟨0 + x * sc, 0 + y * sc⟩, ⟨w1 - 0 + 0, -(z1 - 0) + 0⟩, ⟨w2 - 0 + 0, -(z2 - 0) + 0⟩, ⟨0 - 0 + 0, -(0 - 0) + 0⟩, ⟨0, 0⟩], []⟩ : Store) [1, 2, 3]).subtract (lineCrossingAt (⟨[⟨x * sc, y * sc⟩, ⟨u1 * (xs * sc) - 0 * (xs * sc) + 0 * (xs * sc) + x * sc,
        -(v1 * (ys * sc) - 0 * (ys * sc)) + 0 * (ys * sc) + y * sc⟩, ⟨u2 * (xs * sc) - 0 * (xs * sc) + 0 * (xs * sc) + x * sc,
        -(v2 * (ys * sc) - 0 * (ys * sc)) + 0 * (ys * sc) + y * sc⟩, ⟨0 + x * sc, 0 + y * sc⟩, ⟨w1 - 0 + 0, -(z1 - 0) + 0⟩, ⟨w2 - 0 + 0, -(z2 - 0) + 0⟩, ⟨0 - 0 + 0, -(0 - 0) + 0⟩, ⟨0, 0⟩], []⟩ : Store) [4, 5, 6]))).read 4 = ((⟨[⟨x * sc, y * sc⟩, ⟨u1 * (xs * sc) - 0 * (xs * sc) + 0 * (xs * sc) + x * sc,
        -(v1 * (ys * sc) - 0 * (ys * sc)) + 0 * (ys * sc) + y * sc⟩, ⟨u2 * (xs * sc) - 0 * (xs * sc) + 0 * (xs * sc) + x * sc,
        -(v2 * (ys * sc) - 0 * (ys * sc)) + 0 * (ys * sc) + y * sc⟩, ⟨0 + x * sc, 0 + y * sc⟩, ⟨w1 - 0 + 0, -(z1 - 0) + 0⟩, ⟨w2 - 0 + 0, -(z2 - 0) + 0⟩, ⟨0 - 0 + 0, -(0 - 0) + 0⟩, ⟨0, 0⟩], []⟩ : Store).read 4).add ((lineCrossingAt (⟨[⟨x * sc, y * sc⟩, ⟨u1 * (xs * sc) - 0 * (xs * sc) + 0 * (xs * sc) + x * sc,
        -(v1 * (ys * sc) - 0 * (ys * sc)) + 0 * (ys * sc) + y * sc⟩, ⟨u2 * (xs * sc) - 0 * (xs * sc) + 0 * (xs * sc) + x * sc,
        -(v2 * (ys * sc) - 0 * (ys * sc)) + 0 * (ys * sc) + y * sc⟩, ⟨0 + x * sc, 0 + y * sc⟩, ⟨w1 - 0 + 0, -(z1 - 0) + 0⟩, ⟨w2 - 0 + 0, -(z2 - 0) + 0⟩, ⟨0 - 0 + 0, -(0 - 0) + 0⟩, ⟨0, 0⟩], []⟩ : Store) [1, 2, 3]).subtract (lineCrossingAt (⟨[⟨x * sc, y * sc⟩, ⟨u1 * (xs * sc) - 0 * (xs * sc) + 0 * (xs * sc) + x * sc,
        -(v1 * (ys * sc) - 0 * (ys * sc)) + 0 * (ys * sc) + y * sc⟩, ⟨u2 * (xs * sc) - 0 * (xs * sc) + 0 * (xs * sc) + x * sc,
        -(v2 * (ys * sc) - 0 * (ys * sc)) + 0 * (ys * sc) + y * sc⟩, ⟨0 + x * sc, 0 + y * sc⟩, ⟨w1 - 0 + 0, -(z1 - 0) + 0⟩, ⟨w2 - 0 + 0, -(z2 - 0) + 0⟩, ⟨0 - 0 + 0, -(0 - 0) + 0⟩, ⟨0, 0⟩], []⟩ : Store) [4, 5, 6])) := by
    unfold translateTransistor
    dsimp only
    rw [Store.read_write_ne _ _ _ _ (by decide)]
    exact translateIds_read_mem _ _ _ _ (by decide)
      (by intro k hk; fin_cases hk <;> simp) (by decide)
  have hT5 : (translateTransistor (⟨[⟨x * sc, y * sc⟩, ⟨u1 * (xs * sc) - 0 * (xs * sc) + 0 * (xs * sc) + x * sc,
        -(v1 * (ys * sc) - 0 * (ys * sc)) + 0 * (ys * sc) + y * sc⟩, ⟨u2 * (xs * sc) - 0 * (xs * sc) + 0 * (xs * sc) + x * sc,
        -(v2 * (ys * sc) - 0 * (ys * sc)) + 0 * (ys * sc) + y * sc⟩, ⟨0 + x * sc, 0 + y * sc⟩, ⟨w1 - 0 + 0, -(z1 - 0) + 0⟩, ⟨w2 - 0 + 0, -(z2 - 0) + 0⟩, ⟨0 - 0 + 0, -(0 - 0) + 0⟩, ⟨0, 0⟩], []⟩ : Store) [4, 5, 6] (some 7) ((lineCrossingAt (⟨[⟨x * sc, y * sc⟩, ⟨u1 * (xs * sc) - 0 * (xs * sc) + 0 * (xs * sc) + x * sc,
        -(v1 * (ys * sc) - 0 * (ys * sc)) + 0 * (ys * sc) + y * sc⟩, ⟨u2 * (xs * sc) - 0 * (xs * sc) + 0 * (xs * sc) + x * sc,
        -(v2 * (ys * sc) - 0 * (ys * sc)) + 0 * (ys * sc) + y * sc⟩, ⟨0 + x * sc, 0 + y * sc⟩, ⟨w1 - 0 + 0, -(z1 - 0) + 0⟩, ⟨w2 - 0 + 0, -(z2 - 0) + 0⟩, ⟨0 - 0 + 0, -(0 - 0) + 0⟩, ⟨0, 0⟩], []⟩ : Store) [1, 2, 3]).subtract (lineCrossingAt (⟨[⟨x * sc, y * sc⟩, ⟨u1 * (xs * sc) - 0 * (xs * sc) + 0 * (xs * sc) + x * sc,
        -(v1 * (ys * sc) - 0 * (ys * sc)) + 0 * (ys * sc) + y * sc⟩, ⟨u2 * (xs * sc) - 0 * (xs * sc) + 0 * (xs * sc) + x * sc,
        -(v2 * (ys * sc) - 0 * (ys * sc)) + 0 * (ys * sc) + y * sc⟩, ⟨0 + x * sc, 0 + y * sc⟩, ⟨w1 - 0 + 0, -(z1 - 0) + 0⟩, ⟨w2 - 0 + 0, -(z2 - 0) + 0⟩, ⟨0 - 0 + 0, -(0 - 0) + 0⟩, ⟨0, 0⟩], []⟩ : Store) [4, 5, 6]))).read 5 = ((⟨[⟨x * sc, y * sc⟩, ⟨u1 * (xs * sc) - 0 * (xs * sc) + 0 * (xs * sc) + x * sc,
        -(v1 * (ys * sc) - 0 * (ys * sc)) + 0 * (ys * sc) + y * sc⟩, ⟨u2 * (xs * sc) - 0 * (xs * sc) + 0 * (xs * sc) + x * sc,
        -(v2 * (ys * sc) - 0 * (ys * sc)) + 0 * (ys * sc) + y * sc⟩, ⟨0 + x * sc, 0 + y * sc⟩, ⟨w1 - 0 + 0, -(z1 - 0) + 0⟩, ⟨w2 - 0 + 0, -(z2 - 0) + 0⟩, ⟨0 - 0 + 0, -(0 - 0) + 0⟩, ⟨0, 0⟩], []⟩ : Store).read 5).add ((lineCrossingAt (⟨[⟨x * sc, y * sc⟩, ⟨u1 * (xs * sc) - 0 * (xs * sc) + 0 * (xs * sc) + x * sc,
        -(v1 * (ys * sc) - 0 * (ys * sc)) + 0 * (ys * sc) + y * sc⟩, ⟨u2 * (xs * sc) - 0 * (xs * sc) + 0 * (xs * sc) + x * sc,
        -(v2 * (ys * sc) - 0 * (ys * sc)) + 0 * (ys * sc) + y * sc⟩, ⟨0 + x * sc, 0 + y * sc⟩, ⟨w1 - 0 + 0, -(z1 - 0) + 0⟩, ⟨w2 - 0 + 0, -(z2 - 0) + 0⟩, ⟨0 - 0 + 0, -(0 - 0) + 0⟩, ⟨0, 0⟩], []⟩ : Store) [1, 2, 3]).subtract (lineCrossingAt (⟨[⟨x * sc, y * sc⟩, ⟨u1 * (xs * sc) - 0 * (xs * sc) + 0 * (xs * sc) + x * sc,
        -(v1 * (ys * sc) - 0 * (ys * sc)) + 0 * (ys * sc) + y * sc⟩, ⟨u2 * (xs * sc) - 0 * (xs * sc) + 0 * (xs * sc) + x * sc,
        -(v2 * (ys * sc) - 0 * (ys * sc)) + 0 * (ys * sc) + y * sc⟩, ⟨0 + x * sc, 0 + y * sc⟩, ⟨w1 - 0 + 0, -(z1 - 0) + 0⟩, ⟨w2 - 0 + 0, -(z2 - 0) + 0⟩, ⟨0 - 0 + 0, -(0 - 0) + 0⟩, ⟨0, 0⟩], []⟩ : Store) [4, 5, 6])) := by
    unfold translateTransistor
    dsimp only
    rw [Store.read_write_ne _ _ _ _ (by decide)]
    exact translateIds_read_mem _ _ _ _ (by decide)
      (by intro k hk; fin_cases hk <;> simp) (by decide)
  have hT6 : (translateTransistor (⟨[⟨x * sc, y * sc⟩, ⟨u1 * (xs * sc) - 0 * (xs * sc) + 0 * (xs * sc) + x * sc,
        -(v1 * (ys * sc) - 0 * (ys * sc)) + 0 * (ys * sc) + y * sc⟩, ⟨u2 * (xs * sc) - 0 * (xs * sc) + 0 * (xs * sc) + x * sc,
        -(v2 * (ys * sc) - 0 * (ys * sc)) + 0 * (ys * sc) + y * sc⟩, ⟨0 + x * sc, 0 + y * sc⟩, ⟨w1 - 0 + 0, -(z1 - 0) + 0⟩, ⟨w2 - 0 + 0, -(z2 - 0) + 0⟩, ⟨0 - 0 + 0, -(0 - 0) + 0⟩, ⟨0, 0⟩], []⟩ : Store) [4, 5, 6] (some 7) ((lineCrossingAt (⟨[⟨x * sc, y * sc⟩, ⟨u1 * (xs * sc) - 0 * (xs * sc) + 0 * (xs * sc) + x * sc,
        -(v1 * (ys * sc) - 0 * (ys * sc)) + 0 * (ys * sc) + y * sc⟩, ⟨u2 * (xs * sc) - 0 * (xs * sc) + 0 * (xs * sc) + x * sc,
        -(v2 * (ys * sc) - 0 * (ys * sc)) + 0 * (ys * sc) + y * sc⟩, ⟨0 + x * sc, 0 + y * sc⟩, ⟨w1 - 0 + 0, -(z1 - 0) + 0⟩, ⟨w2 - 0 + 0, -(z2 - 0) + 0⟩, ⟨0 - 0 + 0, -(0 - 0) + 0⟩, ⟨0, 0⟩], []⟩ : Store) [1, 2, 3]).subtract (lineCrossingAt (⟨[⟨x * sc, y * sc⟩, ⟨u1 * (xs * sc) - 0 * (xs * sc) + 0 * (xs * sc) + x * sc,
        -(v1 * (ys * sc) - 0 * (ys * sc)) + 0 * (ys * sc) + y * sc⟩, ⟨u2 * (xs * sc) - 0 * (xs * sc) + 0 * (xs * sc) + x * sc,
        -(v2 * (ys * sc) - 0 * (ys * sc)) + 0 * (ys * sc) + y * sc⟩, ⟨0 + x * sc, 0 + y * sc⟩, ⟨w1 - 0 + 0, -(z1 - 0) + 0⟩, ⟨w2 - 0 + 0, -(z2 - 0) + 0⟩, ⟨0 - 0 + 0, -(0 - 0) + 0⟩, ⟨0, 0⟩], []⟩ : Store) [4, 5, 6]))).read 6 = ((⟨[⟨x * sc, y * sc⟩, ⟨u1 * (xs * sc) - 0 * (xs * sc) + 0 * (xs * sc) + x * sc,
        -(v1 * (ys * sc) - 0 * (ys * sc)) + 0 * (ys * sc) + y * sc⟩, ⟨u2 * (xs * sc) - 0 * (xs * sc) + 0 * (xs * sc) + x * sc,
        -(v2 * (ys * sc) - 0 * (ys * sc)) + 0 * (ys * sc) + y * sc⟩, ⟨0 + x * sc, 0 + y * sc⟩, ⟨w1 - 0 + 0, -(z1 - 0) + 0⟩, ⟨w2 - 0 + 0, -(z2 - 0) + 0⟩, ⟨0 - 0 + 0, -(0 - 0) + 0⟩, ⟨0, 0⟩], []⟩ : Store).read 6).add ((lineCrossingAt (⟨[⟨x * sc, y * sc⟩, ⟨u1 * (xs * sc) - 0 * (xs * sc) + 0 * (xs * sc) + x * sc,
        -(v1 * (ys * sc) - 0 * (ys * sc)) + 0 * (ys * sc) + y * sc⟩, ⟨u2 * (xs * sc) - 0 * (xs * sc) + 0 * (xs * sc) + x * sc,
        -(v2 * (ys * sc) - 0 * (ys * sc)) + 0 * (ys * sc) + y * sc⟩, ⟨0 + x * sc, 0 + y * sc⟩, ⟨w1 - 0 + 0, -(z1 - 0) + 0⟩, ⟨w2 - 0 + 0, -(z2 - 0) + 0⟩, ⟨0 - 0 + 0, -(0 - 0) + 0⟩, ⟨0, 0⟩], []⟩ : Store) [1, 2, 3]).subtract (lineCrossingAt (⟨[⟨x * sc, y * sc⟩, ⟨u1 * (xs * sc) - 0 * (xs * sc) + 0 * (xs * sc) + x * sc,
        -(v1 * (ys * sc) - 0 * (ys * sc)) + 0 * (ys * sc) + y * sc⟩, ⟨u2 * (xs * sc) - 0 * (xs * sc) + 0 * (xs * sc) + x * sc,
        -(v2 * (ys * sc) - 0 * (ys * sc)) + 0 * (ys * sc) + y * sc⟩, ⟨0 + x * sc, 0 + y * sc⟩, ⟨w1 - 0 + 0, -(z1 - 0) + 0⟩, ⟨w2 - 0 + 0, -(z2 - 0) + 0⟩, ⟨0 - 0 + 0, -(0 - 0) + 0⟩, ⟨0, 0⟩], []⟩ : Store) [4, 5, 6])) := by
    unfold translateTransistor
    dsimp only
    rw [Store.read_write_ne _ _ _ _ (by decide)]
    exact translateIds_read_mem _ _ _ _ (by decide)
      (by intro k hk; fin_cases hk <;> simp) (by decide)
  have hF1 : (translateTransistor (⟨[⟨x * sc, y * sc⟩, ⟨u1 * (xs * sc) + x * sc, v1 * (ys * sc) + y * sc⟩, ⟨u2 * (xs * sc) + x * sc, v2 * (ys * sc) + y * sc⟩, ⟨0 * (xs * sc) + x * sc, 0 * (ys * sc) + y * sc⟩, ⟨w1, z1⟩, ⟨w2, z2⟩, ⟨0, 0⟩, ⟨0, 0⟩], []⟩ : Store) [4, 5, 6] (some 7) ((lineCrossingAt (⟨[⟨x * sc, y * sc⟩, ⟨u1 * (xs * sc) + x * sc, v1 * (ys * sc) + y * sc⟩, ⟨u2 * (xs * sc) + x * sc, v2 * (ys * sc) + y * sc⟩, ⟨0 * (xs * sc) + x * sc, 0 * (ys * sc) + y * sc⟩, ⟨w1, z1⟩, ⟨w2, z2⟩, ⟨0, 0⟩, ⟨0, 0⟩], []⟩ : Store) [1, 2, 3]).subtract (lineCrossingAt (⟨[⟨x * sc, y * sc⟩, ⟨u1 * (xs * sc) + x * sc, v1 * (ys * sc) + y * sc⟩, ⟨u2 * (xs * sc) + x * sc, v2 * (ys * sc) + y * sc⟩, ⟨0 * (xs * sc) + x * sc, 0 * (ys * sc) + y * sc⟩, ⟨w1, z1⟩, ⟨w2, z2⟩, ⟨0, 0⟩, ⟨0, 0⟩], []⟩ : Store) [4, 5, 6]))).read 1 = (⟨[⟨x * sc, y * sc⟩, ⟨u1 * (xs * sc) + x * sc, v1 * (ys * sc) + y * sc⟩, ⟨u2 * (xs * sc) + x * sc, v2 * (ys * sc) + y * sc⟩, ⟨0 * (xs * sc) + x * sc, 0 * (ys * sc) + y * sc⟩, ⟨w1, z1⟩, ⟨w2, z2⟩, ⟨0, 0⟩, ⟨0, 0⟩], []⟩ : Store).read 1 := by
    unfold translateTransistor
    dsimp only
    rw [Store.read_write_ne _ _ _ _ (by decide)]
    exact translateIds_read_notMem _ _ _ _ (by decide)
  have hF2 : (translateTransistor (⟨[⟨x * sc, y * sc⟩, ⟨u1 * (xs * sc) + x * sc, v1 * (ys * sc) + y * sc⟩, ⟨u2 * (xs * sc) + x * sc, v2 * (ys * sc) + y * sc⟩, ⟨0 * (xs * sc) + x * sc, 0 * (ys * sc) + y * sc⟩, ⟨w1, z1⟩, ⟨w2, z2⟩, ⟨0, 0⟩, ⟨0, 0⟩], []⟩ : Store) [4, 5, 6] (some 7) ((lineCrossingAt (⟨[⟨x * sc, y * sc⟩, ⟨u1 * (xs * sc) + x * sc, v1 * (ys * sc) + y * sc⟩, ⟨u2 * (xs * sc) + x * sc, v2 * (ys * sc) + y * sc⟩, ⟨0 * (xs * sc) + x * sc, 0 * (ys * sc) + y * sc⟩, ⟨w1, z1⟩, ⟨w2, z2⟩, ⟨0, 0⟩, ⟨0, 0⟩], []⟩ : Store) [1, 2, 3]).subtract (lineCrossingAt (⟨[⟨x * sc, y * sc⟩, ⟨u1 * (xs * sc) + x * sc, v1 * (ys * sc) + y * sc⟩, ⟨u2 * (xs * sc) + x * sc, v2 * (ys * sc) + y * sc⟩, ⟨0 * (xs * sc) + x * sc, 0 * (ys * sc) + y * sc⟩, ⟨w1, z1⟩, ⟨w2, z2⟩, ⟨0, 0⟩, ⟨0, 0⟩], []⟩ : Store) [4, 5, 6]))).read 2 = (⟨[⟨x * sc, y * sc⟩, ⟨u1 * (xs * sc) + x * sc, v1 * (ys * sc) + y * sc⟩, ⟨u2 * (xs * sc) + x * sc, v2 * (ys * sc) + y * sc⟩, ⟨0 * (xs * sc) + x * sc, 0 * (ys * sc) + y * sc⟩, ⟨w1, z1⟩, ⟨w2, z2⟩, ⟨0, 0⟩, ⟨0, 0⟩], []⟩ : Store).read 2 := by
    unfold translateTransistor
    dsimp only
    rw [Store.read_write_ne _ _ _ _ (by decide)]
    exact translateIds_read_notMem _ _ _ _ (by decide)
  have hF3 : (translateTransistor (⟨[⟨x * sc, y * sc⟩, ⟨u1 * (xs * sc) + x * sc, v1 * (ys * sc) + y * sc⟩, ⟨u2 * (xs * sc) + x * sc, v2 * (ys * sc) + y * sc⟩, ⟨0 * (xs * sc) + x * sc, 0 * (ys * sc) + y * sc⟩, ⟨w1, z1⟩, ⟨w2, z2⟩, ⟨0, 0⟩, ⟨0, 0⟩], []⟩ : Store) [4, 5, 6] (some 7) ((lineCrossingAt (⟨[⟨x * sc, y * sc⟩, ⟨u1 * (xs * sc) + x * sc, v1 * (ys * sc) + y * sc⟩, ⟨u2 * (xs * sc) + x * sc, v2 * (ys * sc) + y * sc⟩, ⟨0 * (xs * sc) + x * sc, 0 * (ys * sc) + y * sc⟩, ⟨w1, z1⟩, ⟨w2, z2⟩, ⟨0, 0⟩, ⟨0, 0⟩], []⟩ : Store) [1, 2, 3]).subtract (lineCrossingAt (⟨[⟨x * sc, y * sc⟩, ⟨u1 * (xs * sc) + x * sc, v1 * (ys * sc) + y * sc⟩, ⟨u2 * (xs * sc) + x * sc, v2 * (ys * sc) + y * sc⟩, ⟨0 * (xs * sc) + x * sc, 0 * (ys * sc) + y * sc⟩, ⟨w1, z1⟩, ⟨w2, z2⟩, ⟨0, 0⟩, ⟨0, 0⟩], []⟩ : Store) [4, 5, 6]))).read 3 = (⟨[⟨x * sc, y * sc⟩, ⟨u1 * (xs * sc) + x * sc, v1 * (ys * sc) + y * sc⟩, ⟨u2 * (xs * sc) + x * sc, v2 * (ys * sc) + y * sc⟩, ⟨0 * (xs * sc) + x * sc, 0 * (ys * sc) + y * sc⟩, ⟨w1, z1⟩, ⟨w2, z2⟩, ⟨0, 0⟩, ⟨0, 0⟩], []⟩ : Store).read 3 := by
    unfold translateTransistor
    dsimp only
    rw [Store.read_write_ne _ _ _ _ (by decide)]
    exact translateIds_read_notMem _ _ _ _ (by decide)
  have hF4 : (translateTransistor (⟨[⟨x * sc, y * sc⟩, ⟨u1 * (xs * sc) + x * sc, v1 * (ys * sc) + y * sc⟩, ⟨u2 * (xs * sc) + x * sc, v2 * (ys * sc) + y * sc⟩, ⟨0 * (xs * sc) + x * sc, 0 * (ys * sc) + y * sc⟩, ⟨w1, z1⟩, ⟨w2, z2⟩, ⟨0, 0⟩, ⟨0, 0⟩], []⟩ : Store) [4, 5, 6] (some 7) ((lineCrossingAt (⟨[⟨x * sc, y * sc⟩, ⟨u1 * (xs * sc) + x * sc, v1 * (ys * sc) + y * sc⟩, ⟨u2 * (xs * sc) + x * sc, v2 * (ys * sc) + y * sc⟩, ⟨0 * (xs * sc) + x * sc, 0 * (ys * sc) + y * sc⟩, ⟨w1, z1⟩, ⟨w2, z2⟩, ⟨0, 0⟩, ⟨0, 0⟩], []⟩ : Store) [1, 2, 3]).subtract (lineCrossingAt (⟨[⟨x * sc, y * sc⟩, ⟨u1 * (xs * sc) + x * sc, v1 * (ys * sc) + y * sc⟩, ⟨u2 * (xs * sc) + x * sc, v2 * (ys * sc) + y * sc⟩, ⟨0 * (xs * sc) + x * sc, 0 * (ys * sc) + y * sc⟩, ⟨w1, z1⟩, ⟨w2, z2⟩, ⟨0, 0⟩, ⟨0, 0⟩], []⟩ : Store) [4, 5, 6]))).read 4 = ((⟨[⟨x * sc, y * sc⟩, ⟨u1 * (xs * sc) + x * sc, v1 * (ys * sc) + y * sc⟩, ⟨u2 * (xs * sc) + x * sc, v2 * (ys * sc) + y * sc⟩, ⟨0 * (xs * sc) + x * sc, 0 * (ys * sc) + y * sc⟩, ⟨w1, z1⟩, ⟨w2, z2⟩, ⟨0, 0⟩, ⟨0, 0⟩], []⟩ : Store).read 4).add ((lineCrossingAt (⟨[⟨x * sc, y * sc⟩, ⟨u1 * (xs * sc) + x * sc, v1 * (ys * sc) + y * sc⟩, ⟨u2 * (xs * sc) + x * sc, v2 * (ys * sc) + y * sc⟩, ⟨0 * (xs * sc) + x * sc, 0 * (ys * sc) + y * sc⟩, ⟨w1, z1⟩, ⟨w2, z2⟩, ⟨0, 0⟩, ⟨0, 0⟩], []⟩ : Store) [1, 2, 3]).subtract (lineCrossingAt (⟨[⟨x * sc, y * sc⟩, ⟨u1 * (xs * sc) + x * sc, v1 * (ys * sc) + y * sc⟩, ⟨u2 * (xs * sc) + x * sc, v2 * (ys * sc) + y * sc⟩, ⟨0 * (xs * sc) + x * sc, 0 * (ys * sc) + y * sc⟩, ⟨w1, z1⟩, ⟨w2, z2⟩, ⟨0, 0⟩, ⟨0, 0⟩], []⟩ : Store) [4, 5, 6])) := by
    unfold translateTransistor
    dsimp only
    rw [Store.read_write_ne _ _ _ _ (by decide)]
    exact translateIds_read_mem _ _ _ _ (by decide)
      (by intro k hk; fin_cases hk <;> simp) (by decide)
  have hF5 : (translateTransistor (⟨[⟨x * sc, y * sc⟩, ⟨u1 * (xs * sc) + x * sc, v1 * (ys * sc) + y * sc⟩, ⟨u2 * (xs * sc) + x * sc, v2 * (ys * sc) + y * sc⟩, ⟨0 * (xs * sc) + x * sc, 0 * (ys * sc) + y * sc⟩, ⟨w1, z1⟩, ⟨w2, z2⟩, ⟨0, 0⟩, ⟨0, 0⟩], []⟩ : Store) [4, 5, 6] (some 7) ((lineCrossingAt (⟨[⟨x * sc, y * sc⟩, ⟨u1 * (xs * sc) + x * sc, v1 * (ys * sc) + y * sc⟩, ⟨u2 * (xs * sc) + x * sc, v2 * (ys * sc) + y * sc⟩, ⟨0 * (xs * sc) + x * sc, 0 * (ys * sc) + y * sc⟩, ⟨w1, z1⟩, ⟨w2, z2⟩, ⟨0, 0⟩, ⟨0, 0⟩], []⟩ : Store) [1, 2, 3]).subtract (lineCrossingAt (⟨[⟨x * sc, y * sc⟩, ⟨u1 * (xs * sc) + x * sc, v1 * (ys * sc) + y * sc⟩, ⟨u2 * (xs * sc) + x * sc, v2 * (ys * sc) + y * sc⟩, ⟨0 * (xs * sc) + x * sc, 0 * (ys * sc) + y * sc⟩, ⟨w1, z1⟩, ⟨w2, z2⟩, ⟨0, 0⟩, ⟨0, 0⟩], []⟩ : Store) [4, 5, 6]))).read 5 = ((⟨[⟨x * sc, y * sc⟩, ⟨u1 * (xs * sc) + x * sc, v1 * (ys * sc) + y * sc⟩, ⟨u2 * (xs * sc) + x * sc, v2 * (ys * sc) + y * sc⟩, ⟨0 * (xs * sc) + x * sc, 0 * (ys * sc) + y * sc⟩, ⟨w1, z1⟩, ⟨w2, z2⟩, ⟨0, 0⟩, ⟨0, 0⟩], []⟩ : Store).read 5).add ((lineCrossingAt (⟨[⟨x * sc, y * sc⟩, ⟨u1 * (xs * sc) + x * sc, v1 * (ys * sc) + y * sc⟩, ⟨u2 * (xs * sc) + x * sc, v2 * (ys * sc) + y * sc⟩, ⟨0 * (xs * sc) + x * sc, 0 * (ys * sc) + y * sc⟩, ⟨w1, z1⟩, ⟨w2, z2⟩, ⟨0, 0⟩, ⟨0, 0⟩], []⟩ : Store) [1, 2, 3]).subtract (lineCrossingAt (⟨[⟨x * sc, y * sc⟩, ⟨u1 * (xs * sc) + x * sc, v1 * (ys * sc) + y * sc⟩, ⟨u2 * (xs * sc) + x * sc, v2 * (ys * sc) + y * sc⟩, ⟨0 * (xs * sc) + x * sc, 0 * (ys * sc) + y * sc⟩, ⟨w1, z1⟩, ⟨w2, z2⟩, ⟨0, 0⟩, ⟨0, 0⟩], []⟩ : Store) [4, 5, 6])) := by
    unfold translateTransistor
    dsimp only
    rw [Store.read_write_ne _ _ _ _ (by decide)]
    exact translateIds_read_mem _ _ _ _ (by decide)
      (by intro k hk; fin_cases hk <;> simp) (by decide)
  have hF6 : (translateTransistor (⟨[⟨x * sc, y * sc⟩, ⟨u1 * (xs * sc) + x * sc, v1 * (ys * sc) + y * sc⟩, ⟨u2 * (xs * sc) + x * sc, v2 * (ys * sc) + y * sc⟩, ⟨0 * (xs * sc) + x * sc, 0 * (ys * sc) + y * sc⟩, ⟨w1, z1⟩, ⟨w2, z2⟩, ⟨0, 0⟩, ⟨0, 0⟩], []⟩ : Store) [4, 5, 6] (some 7) ((lineCrossingAt (⟨[⟨x * sc, y * sc⟩, ⟨u1 * (xs * sc) + x * sc, v1 * (ys * sc) + y * sc⟩, ⟨u2 * (xs * sc) + x * sc, v2 * (ys * sc) + y * sc⟩, ⟨0 * (xs * sc) + x * sc, 0 * (ys * sc) + y * sc⟩, ⟨w1, z1⟩, ⟨w2, z2⟩, ⟨0, 0⟩, ⟨0, 0⟩], []⟩ : Store) [1, 2, 3]).subtract (lineCrossingAt (⟨[⟨x * sc, y * sc⟩, ⟨u1 * (xs * sc) + x * sc, v1 * (ys * sc) + y * sc⟩, ⟨u2 * (xs * sc) + x * sc, v2 * (ys * sc) + y * sc⟩, ⟨0 * (xs * sc) + x * sc, 0 * (ys * sc) + y * sc⟩, ⟨w1, z1⟩, ⟨w2, z2⟩, ⟨0, 0⟩, ⟨0, 0⟩], []⟩ : Store) [4, 5, 6]))).read 6 = ((⟨[⟨x * sc, y * sc⟩, ⟨u1 * (xs * sc) + x * sc, v1 * (ys * sc) + y * sc⟩, ⟨u2 * (xs * sc) + x * sc, v2 * (ys * sc) + y * sc⟩, ⟨0 * (xs * sc) + x * sc, 0 * (ys * sc) + y * sc⟩, ⟨w1, z1⟩, ⟨w2, z2⟩, ⟨0, 0⟩, ⟨0, 0⟩], []⟩ : Store).read 6).add ((lineCrossingAt (⟨[⟨x * sc, y * sc⟩, ⟨u1 * (xs * sc) + x * sc, v1 * (ys * sc) + y * sc⟩, ⟨u2 * (xs * sc) + x * sc, v2 * (ys * sc) + y * sc⟩, ⟨0 * (xs * sc) + x * sc, 0 * (ys * sc) + y * sc⟩, ⟨w1, z1⟩, ⟨w2, z2⟩, ⟨0, 0⟩, ⟨0, 0⟩], []⟩ : Store) [1, 2, 3]).subtract (lineCrossingAt (⟨[⟨x * sc, y * sc⟩, ⟨u1 * (xs * sc) + x * sc, v1 * (ys * sc) + y * sc⟩, ⟨u2 * (xs * sc) + x * sc, v2 * (ys * sc) + y * sc⟩, ⟨0 * (xs * sc) + x * sc, 0 * (ys * sc) + y * sc⟩, ⟨w1, z1⟩, ⟨w2, z2⟩, ⟨0, 0⟩, ⟨0, 0⟩], []⟩ : Store) [4, 5, 6])) := by
    unfold translateTransistor
    dsimp only
    rw [Store.read_write_ne _ _ _ _ (by decide)]
    exact translateIds_read_mem _ _ _ _ (by decide)
      (by intro k hk; fin_cases hk <;> simp) (by decide)
  refine ⟨alignment_invariant_general idTrig _ _ _ rfl rfl, ?_, ?_⟩ <;>
  · intro i hi
    interval_cases i <;>
    · constructor <;>
      · rw [hrunT, hrunF]
        dsimp only
        try simp only [show ([1, 2, 3] : List CoordId).getD 0 0 = 1 from rfl,
      show ([1, 2, 3] : List CoordId).getD 1 0 = 2 from rfl,
      show ([1, 2, 3] : List CoordId).getD 2 0 = 3 from rfl,
      show ([4, 5, 6] : List CoordId).getD 0 0 = 4 from rfl,
      show ([4, 5, 6] : List CoordId).getD 1 0 = 5 from rfl,
      show ([4, 5, 6] : List CoordId).getD 2 0 = 6 from rfl]
        try simp only [lineCrossingAt_cons3]
        try simp only [hT1, hT2, hT3, hT4, hT5, hT6, hF1, hF2, hF3, hF4, hF5,
          hF6]
        try simp only [Coordinate.orthogonalProjection_add]
        try simp only [Store.read, List.getD, List.get?, Option.getD]
        try simp only [Coordinate.orthogonalProjection, Coordinate.scaleUniform,
          Coordinate.add, Coordinate.subtract]
        try dsimp only
        ring

end Abl2Tikz

namespace Abl2Tikz

/-- Witness for the C7 scenario at a concrete placement, for the first pin
of each triangle. -/
theorem mirrorX_scenario_witness :
    (((((c7run 1 2 3 5 7 11 13 17 19 23 29 31 37 true).store.read ((c7run 1 2 3 5 7 11 13 17 19 23 29 31 37 true).ablIds.getD 0 0)).x -
        (lineCrossingAt (c7run 1 2 3 5 7 11 13 17 19 23 29 31 37 true).store (c7run 1 2 3 5 7 11 13 17 19 23 29 31 37 true).ablIds).x) =
      (((c7run 1 2 3 5 7 11 13 17 19 23 29 31 37 false).store.read ((c7run 1 2 3 5 7 11 13 17 19 23 29 31 37 false).ablIds.getD 0 0)).x -
        (lineCrossingAt (c7run 1 2 3 5 7 11 13 17 19 23 29 31 37 false).store (c7run 1 2 3 5 7 11 13 17 19 23 29 31 37 false).ablIds).x)) ∧
    ((((c7run 1 2 3 5 7 11 13 17 19 23 29 31 37 true).store.read ((c7run 1 2 3 5 7 11 13 17 19 23 29 31 37 true).ablIds.getD 0 0)).y -
        (lineCrossingAt (c7run 1 2 3 5 7 11 13 17 19 23 29 31 37 true).store (c7run 1 2 3 5 7 11 13 17 19 23 29 31 37 true).ablIds).y) =
      -(((c7run 1 2 3 5 7 11 13 17 19 23 29 31 37 false).store.read ((c7run 1 2 3 5 7 11 13 17 19 23 29 31 37 false).ablIds.getD 0 0)).y -
        (lineCrossingAt (c7run 1 2 3 5 7 11 13 17 19 23 29 31 37 false).store (c7run 1 2 3 5 7 11 13 17 19 23 29 31 37 false).ablIds).y))) ∧
    (((((c7run 1 2 3 5 7 11 13 17 19 23 29 31 37 true).store.read ((c7run 1 2 3 5 7 11 13 17 19 23 29 31 37 true).tplIds.getD 0 0)).x -
        (lineCrossingAt (c7run 1 2 3 5 7 11 13 17 19 23 29 31 37 true).store (c7run 1 2 3 5 7 11 13 17 19 23 29 31 37 true).tplIds).x) =
      (((c7run 1 2 3 5 7 11 13 17 19 23 29 31 37 false).store.read ((c7run 1 2 3 5 7 11 13 17 19 23 29 31 37 false).tplIds.getD 0 0)).x -
        (lineCrossingAt (c7run 1 2 3 5 7 11 13 17 19 23 29 31 37 false).store (c7run 1 2 3 5 7 11 13 17 19 23 29 31 37 false).tplIds).x)) ∧
    ((((c7run 1 2 3 5 7 11 13 17 19 23 29 31 37 true).store.read ((c7run 1 2 3 5 7 11 13 17 19 23 29 31 37 true).tplIds.getD 0 0)).y -
        (lineCrossingAt (c7run 1 2 3 5 7 11 13 17 19 23 29 31 37 true).store (c7run 1 2 3 5 7 11 13 17 19 23 29 31 37 true).tplIds).y) =
      -(((c7run 1 2 3 5 7 11 13 17 19 23 29 31 37 false).store.read ((c7run 1 2 3 5 7 11 13 17 19 23 29 31 37 false).tplIds.getD 0 0)).y -
        (lineCrossingAt (c7run 1 2 3 5 7 11 13 17 19 23 29 31 37 false).store (c7run 1 2 3 5 7 11 13 17 19 23 29 31 37 false).tplIds).y))) :=
  ⟨(mirrorX_scenario 1 2 3 5 7 11 13 17 19 23 29 31 37).2.1 0 (by norm_num),
    (mirrorX_scenario 1 2 3 5 7 11 13 17 19 23 29 31 37).2.2 0 (by norm_num)⟩

end Abl2Tikz

namespace Abl2Tikz

/-! ## C4: counterexample and amended theorem -/

end Abl2Tikz
